import Mathlib

/-!
# remoted: the secure message handler (`src/remoted/secure.c`)

A shallow embedding of the worker (`HandleSecureMessage`), the socket closer
(`_close_sock`), the TCP accept and receive handlers and the key-request push,
followed by theorems about them.

Conventions of the embedding.

* C strings and byte buffers are `List Char`.
* The global variables the file works on (`keys`, `netbuffer_recv`,
  `netbuffer_send`, `global_counter`, `remoted_state`, `key_request_available`,
  `key_request_queue`, `logr.m_queue`) are the fields of `State`; every function
  takes the state and returns the new one.
* Calls that leave the file are recorded, in program order, in `State.trace`.
* Results of calls whose code is not part of `secure.c` (key lookups, decryption,
  the header test, the clock, the sends) are taken from an `Ext` record; header
  constants are taken from a `Consts` record.
-/

namespace Remoted

/-! ## Data model -/

/-- Header constants used by `secure.c` whose defining headers are outside the file. -/
structure Consts where
  USING_UDP_NO_CLIENT_SOCKET : Int
  REMOTED_NET_PROTOCOL_UDP : Int
  REMOTED_NET_PROTOCOL_TCP : Int
  AF_INET : Int
  AF_INET6 : Int
  OS_MAXSTR : Nat
  OS_FLSIZE : Nat
  KS_VALID : Int
  KS_ENCKEY : Int
  HC_SHUTDOWN : List Char
  SECURE_MQ : Char
  OS_SOCKBUSY : Int
  SIZE_MAX : Nat

/-- Peer address: the family tag and the raw address bytes. -/
structure sockaddr_storage where
  ss_family : Int
  data : List Nat
deriving DecidableEq, Repr

/-- Agent key entry: the fields of `keyentry` that `secure.c` reads or writes. -/
structure keyentry where
  id : List Char
  name : List Char
  ip : List Char
  sock : Int
  net_protocol : Int
  rcvd : Int
  peer_info : sockaddr_storage
  fp : Option Nat
  updating_time : Int
  rids_node : Option Nat
deriving DecidableEq, Repr

/-- Key store: the entry array, the socket index (socket, entry index) and the queue
of the entries with an opened rids file (entry indices, first node first). -/
structure keystore where
  keyentries : List keyentry
  keytree_sock : List (Int × Nat)
  opened_fp_queue : List Nat
deriving DecidableEq, Repr

/-- Message record popped by a worker; `size` is the number of bytes of `buffer`. -/
structure message_t where
  buffer : List Char
  sock : Int
  addr : sockaddr_storage
  counter : Nat
deriving DecidableEq, Repr

/-- Field `size` of a message record. -/
def message_t.size (m : message_t) : Nat := m.buffer.length

/-- Slot of a network buffer table. -/
structure sockbuffer_t where
  fd : Int
  peer_info : sockaddr_storage
deriving DecidableEq, Repr

/-- Counters of `remoted_state`; the per-agent counters are kept as the list of
agent ids they were incremented for, newest first. -/
structure remoted_state_t where
  recv_unknown : Nat
  recv_ping : Nat
  recv_dequeued : Nat
  recv_ctrl : List (List Char)
  recv_evt : List (List Char)
  tcp_active : Int
deriving DecidableEq, Repr

/-- Bounded queue of key requests. -/
structure w_queue_t where
  size : Nat
  data : List (List Char)
deriving DecidableEq, Repr

/-- What the trace records: the calls that leave `secure.c`, and the entries into
`_close_sock`. -/
inductive Ev where
  | key_lock_read
  | key_unlock
  | mutex_lock (agentid : Nat)
  | mutex_unlock (agentid : Nat)
  | close_sock (sock : Int)
  | OS_DeleteSocket (sock : Int)
  | OS_AddSocket (agentid : Nat) (sock : Int)
  | close (sock : Int) (ret : Int)
  | sendto (msg : List Char) (addr : sockaddr_storage) (ret : Int)
  | OS_SendSecureTCP (sock : Int) (msg : List Char) (ret : Int)
  | OS_IsAllowedDynamicID (id : List Char) (srcip : List Char)
  | OS_IsAllowedIP (srcip : List Char)
  | ReadSecMSG (agentid : Nat)
  | save_controlmsg (key : keyentry) (msg : List Char) (len : Int)
  | SendMSG (queue : Int) (msg : List Char) (srcmsg : List Char) (loc : Char) (ret : Int)
  | StartMQ
  | wnotify_add (sock : Int) (ret : Int)
  | fclose (fp : Nat)
  | sleep (seconds : Nat)
  | OS_ConnectUnixDomain (ret : Int)
  | OS_SetSendTimeout (sock : Int) (seconds : Int) (ret : Int)
  | OS_SendUnix (sock : Int) (msg : List Char) (ret : Int)
deriving DecidableEq, Repr

/-- Global state of the file, with the trace of outside calls. -/
structure State where
  keys : keystore
  netbuffer_recv : List sockbuffer_t
  netbuffer_send : List sockbuffer_t
  global_counter : Nat
  rem_counter : List (Int × Nat)
  remoted_state : remoted_state_t
  key_request_available : Bool
  key_request_queue : w_queue_t
  m_queue : Int
  trace : List Ev
deriving DecidableEq, Repr

/-- Result of `ReadSecMSG`: status, cleartext (the final value of `tmp_msg`) and length. -/
structure ReadSecMSG_result where
  r : Int
  final_msg : List Char
  msg_length : Nat

/-- Outcomes of the calls whose code is outside `secure.c`. `ReadSecMSG` gives the
status, the cleartext and its length; the message counters it keeps for the agent
are not among the fields of `keyentry` above. `IsValidHeader` gives the value of
`tmp_msg` after the header test when the text is a control message. `SendMSG n` is
the result of the `n`-th call made while one message is handled. `close_error fd`
tells whether `close(fd)` fails. `OS_ConnectUnixDomain n` and
`OS_SetSendTimeout n` are the results of the calls made in the `n`-th connection
attempt of the key-request thread, `OS_SendUnix n` is the result of its `n`-th send. -/
structure Ext where
  get_ipv4_string : sockaddr_storage → List Char
  get_ipv6_string : sockaddr_storage → List Char
  OS_IsAllowedDynamicID : keystore → List Char → List Char → Int
  OS_IsAllowedIP : keystore → List Char → Int
  ReadSecMSG : keystore → List Char → Nat → Int → List Char → ReadSecMSG_result
  IsValidHeader : List Char → Option (List Char)
  time : Int
  sendto : List Char → sockaddr_storage → Int
  OS_SendSecureTCP : Int → List Char → Int
  SendMSG : Nat → Int
  StartMQ : Int
  close_error : Int → Bool
  OS_ConnectUnixDomain : Nat → Int
  OS_SetSendTimeout : Nat → Int
  OS_SendUnix : Nat → Int

/-! ## Helpers outside the file -/

/-- Append a call to the trace. -/
def emit (st : State) (e : Ev) : State :=
  { st with trace := st.trace ++ [e] }

/-- Modelled from the spec: `key_lock_read`, taking the store read-lock (recorded). -/
def key_lock_read (st : State) : State := emit st Ev.key_lock_read

/-- Modelled from the spec: `key_unlock`, releasing the store lock (recorded). -/
def key_unlock (st : State) : State := emit st Ev.key_unlock

/-- Modelled from the spec: `w_mutex_lock` on the mutex of entry `i` (recorded). -/
def w_mutex_lock (st : State) (i : Nat) : State := emit st (Ev.mutex_lock i)

/-- Modelled from the spec: `w_mutex_unlock` on the mutex of entry `i` (recorded). -/
def w_mutex_unlock (st : State) (i : Nat) : State := emit st (Ev.mutex_unlock i)

/-- Modelled from the spec: `rem_inc_recv_unknown`, counter `recv_unknown` plus one. -/
def rem_inc_recv_unknown (st : State) : State :=
  { st with remoted_state :=
      { st.remoted_state with recv_unknown := st.remoted_state.recv_unknown + 1 } }

/-- Modelled from the spec: `rem_inc_recv_ping`, counter `recv_ping` plus one. -/
def rem_inc_recv_ping (st : State) : State :=
  { st with remoted_state :=
      { st.remoted_state with recv_ping := st.remoted_state.recv_ping + 1 } }

/-- Modelled from the spec: `rem_inc_recv_dequeued`, counter `recv_dequeued` plus one. -/
def rem_inc_recv_dequeued (st : State) : State :=
  { st with remoted_state :=
      { st.remoted_state with recv_dequeued := st.remoted_state.recv_dequeued + 1 } }

/-- Modelled from the spec: `rem_inc_recv_ctrl`, the control counter of agent `id` plus one. -/
def rem_inc_recv_ctrl (st : State) (id : List Char) : State :=
  { st with remoted_state :=
      { st.remoted_state with recv_ctrl := id :: st.remoted_state.recv_ctrl } }

/-- Modelled from the spec: `rem_inc_recv_evt`, the event counter of agent `id` plus one. -/
def rem_inc_recv_evt (st : State) (id : List Char) : State :=
  { st with remoted_state :=
      { st.remoted_state with recv_evt := id :: st.remoted_state.recv_evt } }

/-- Modelled from the spec: `rem_inc_tcp`, the TCP-active gauge plus one. -/
def rem_inc_tcp (st : State) : State :=
  { st with remoted_state :=
      { st.remoted_state with tcp_active := st.remoted_state.tcp_active + 1 } }

/-- Modelled from the spec: `rem_dec_tcp`, the TCP-active gauge minus one. -/
def rem_dec_tcp (st : State) : State :=
  { st with remoted_state :=
      { st.remoted_state with tcp_active := st.remoted_state.tcp_active - 1 } }

/-- Value of the per-agent control counter of agent `id`. -/
def recv_ctrl_of (rs : remoted_state_t) (id : List Char) : Nat := rs.recv_ctrl.count id

/-- Value of the per-agent event counter of agent `id`. -/
def recv_evt_of (rs : remoted_state_t) (id : List Char) : Nat := rs.recv_evt.count id

/-- Modelled from the spec: `rem_setCounter`, recording a counter against a socket. -/
def rem_setCounter (st : State) (fd : Int) (counter : Nat) : State :=
  { st with rem_counter := (fd, counter) :: st.rem_counter }

/-- Modelled from the spec: `rem_getCounter`, the counter last recorded against a
socket (0 when none was). -/
def rem_getCounter (st : State) (fd : Int) : Nat :=
  match st.rem_counter.lookup fd with
  | some c => c
  | none => 0

/-- Modelled from the spec: `nb_open`, allocating the slot of `fd` in a buffer table. -/
def nb_open (t : List sockbuffer_t) (fd : Int) (peer : sockaddr_storage) : List sockbuffer_t :=
  ⟨fd, peer⟩ :: t.filter (fun b => decide (b.fd ≠ fd))

/-- Modelled from the spec: `nb_close`, releasing the slot of `fd` in a buffer table. -/
def nb_close (t : List sockbuffer_t) (fd : Int) : List sockbuffer_t :=
  t.filter (fun b => decide (b.fd ≠ fd))

/-- Whether `fd` has a slot in a buffer table. -/
def has_slot (t : List sockbuffer_t) (fd : Int) : Bool := t.any (fun b => decide (b.fd = fd))

/-- Modelled from the spec: an entry after `unbind_socket(sock)`. An entry bound to
`sock` is detached: its `sock` becomes the sentinel for no socket. -/
def unbind_entry (K : Consts) (sock : Int) (e : keyentry) : keyentry :=
  if e.sock = sock then { e with sock := K.USING_UDP_NO_CLIENT_SOCKET } else e

/-- Modelled from the spec: `OS_DeleteSocket` (`unbind_socket`), detaching a socket
from any entry: the socket index drops it and every entry bound to it is detached;
0 when the index had it, -1 otherwise. -/
def OS_DeleteSocket (K : Consts) (st : State) (sock : Int) : State × Int :=
  let st1 := emit st (Ev.OS_DeleteSocket sock)
  ({ st1 with keys := { st1.keys with
        keyentries := st1.keys.keyentries.map (unbind_entry K sock),
        keytree_sock := st1.keys.keytree_sock.filter (fun p => decide (p.1 ≠ sock)) } },
   if (st.keys.keytree_sock.lookup sock).isSome then 0 else -1)

/-- Modelled from the spec: `OS_AddSocket` (`bind_socket`), binding a socket to an
entry in the socket index of the key store, replacing an older binding of it. -/
def OS_AddSocket (st : State) (i : Nat) (sock : Int) : State :=
  let st1 := emit st (Ev.OS_AddSocket i sock)
  { st1 with keys := { st1.keys with
      keytree_sock := (sock, i) :: st1.keys.keytree_sock.filter (fun p => decide (p.1 ≠ sock)) } }

/-- Entry a socket is bound to in the socket index, if any. -/
def bound_entry (ks : keystore) (sock : Int) : Option Nat := ks.keytree_sock.lookup sock

/-- Modelled from the spec: `close(fd)` of the C library (recorded): 0, or -1 when it
fails; which of the two is an outcome of the outside, `X.close_error fd`. -/
def close (X : Ext) (st : State) (fd : Int) : State × Int :=
  if X.close_error fd then (emit st (Ev.close fd (-1)), -1)
  else (emit st (Ev.close fd 0), 0)

/-- Modelled from the spec: `queue_full` of the bounded key-request queue. -/
def queue_full (q : w_queue_t) : Bool := decide (q.size ≤ q.data.length)

/-- Modelled from the spec: `queue_push_ex`, appending to the bounded queue; -1 when full. -/
def queue_push_ex (q : w_queue_t) (msg : List Char) : w_queue_t × Int :=
  if queue_full q then (q, -1) else ({ q with data := q.data ++ [msg] }, 0)

/-- Test `strncmp(s, p, n) == 0` for a literal `p` of at least `n` characters. -/
def strncmp_eq (s p : List Char) (n : Nat) : Bool := decide (s.take n = p.take n)

/-- Output of `snprintf(dst, size, ...)`: the formatted text cut to `size - 1` characters. -/
def snprintf (size : Nat) (text : List Char) : List Char := text.take (size - 1)

/-! ## `_close_sock` and `_push_request` -/

/-- Source function `_close_sock` (lines 714-733). -/
def _close_sock (K : Consts) (X : Ext) (st : State) (sock : Int) : State × Int :=
  let st0 := emit st (Ev.close_sock sock)
  let st1 := rem_setCounter st0 sock st0.global_counter
  let st2 := key_lock_read st1
  let r := OS_DeleteSocket K st2 sock
  let st3 := key_unlock r.1
  let c := close X st3 sock
  if c.2 = 0 then
    (rem_dec_tcp { c.1 with
        netbuffer_recv := nb_close c.1.netbuffer_recv sock,
        netbuffer_send := nb_close c.1.netbuffer_send sock }, r.2)
  else
    (c.1, r.2)

/-- Source function `_push_request` (lines 747-756). -/
def _push_request (K : Consts) (st : State) (request type : List Char) : State :=
  let msg := snprintf K.OS_MAXSTR (type ++ ':' :: request)
  { st with key_request_queue := (queue_push_ex st.key_request_queue msg).1 }

/-- Source macro `push_request` (line 68). -/
def push_request (K : Consts) (st : State) (x y : List Char) : State :=
  if st.key_request_available then _push_request K st x y else st

/-! ## Event-loop handlers -/

/-- Source function `handle_new_tcp_connection` (lines 244-269); `sock_client` is what
`accept` returned and `wnotify_ret` what `wnotify_add` returns. -/
def handle_new_tcp_connection (K : Consts) (X : Ext) (st : State) (sock_client : Int)
    (peer_info : sockaddr_storage) (wnotify_ret : Int) : State :=
  if 0 ≤ sock_client then
    let st1 := { st with
      netbuffer_recv := nb_open st.netbuffer_recv sock_client peer_info,
      netbuffer_send := nb_open st.netbuffer_send sock_client peer_info }
    let st2 := rem_inc_tcp st1
    let st3 := emit st2 (Ev.wnotify_add sock_client wnotify_ret)
    if wnotify_ret < 0 then (_close_sock K X st3 sock_client).1 else st3
  else
    st

/-- Source function `handle_incoming_data_from_tcp_socket` (lines 284-317); `recv_b`
is what `nb_recv` returned. -/
def handle_incoming_data_from_tcp_socket (K : Consts) (X : Ext) (st : State)
    (sock_client : Int) (recv_b : Int) : State :=
  if recv_b = -2 then (_close_sock K X st sock_client).1
  else if recv_b = -1 then (_close_sock K X st sock_client).1
  else if recv_b = 0 then (_close_sock K X st sock_client).1
  else st

/-! ## `HandleSecureMessage` -/

/-- Local `protocol` of `HandleSecureMessage` (line 427). -/
def protocol_of (K : Consts) (message : message_t) : Int :=
  if message.sock = K.USING_UDP_NO_CLIENT_SOCKET then K.REMOTED_NET_PROTOCOL_UDP
  else K.REMOTED_NET_PROTOCOL_TCP

/-- Entry `keys.keyentries[agentid]`, absent when the index is outside the array. -/
def entry_at (ks : keystore) (agentid : Int) : Option keyentry :=
  if 0 ≤ agentid then ks.keyentries[agentid.toNat]? else none

/-- Statement `if (message->sock >= 0) _close_sock(&keys, message->sock);`. -/
def close_message_sock (K : Consts) (X : Ext) (st : State) (message : message_t) :
    State :=
  if 0 ≤ message.sock then (_close_sock K X st message.sock).1 else st

/-- Condition of the "Agent key already in use" branch (lines 515 and 570). -/
def key_in_use (e : keyentry) (message : message_t) : Bool :=
  decide (0 ≤ e.sock) && decide (e.sock ≠ message.sock)

/-- Locals of `HandleSecureMessage` that are live after the lookup (line 590). -/
structure Frame where
  st : State
  srcip : List Char
  agentid : Int
  id : List Char
  tmp_msg : List Char
  recv_b : Int
  ip_found : Bool

/-- How the lookup part of `HandleSecureMessage` ends: it returned, it goes on to
the decryption, or it indexed `keyentries` outside the array. -/
inductive Resolved where
  | done (st : State)
  | cont (f : Frame)
  | fault

/-- Lines 513-530 and 568-587: the socket conflict test under the entry mutex. -/
def hsm_conflict (K : Consts) (X : Ext) (st : State) (message : message_t) (f : Frame) :
    Resolved :=
  match entry_at st.keys f.agentid with
  | none => Resolved.fault
  | some e =>
    let st1 := w_mutex_lock st f.agentid.toNat
    if key_in_use e message then
      let st2 := w_mutex_unlock st1 f.agentid.toNat
      let st3 := key_unlock st2
      let st4 := close_message_sock K X st3 message
      Resolved.done (rem_inc_recv_unknown st4)
    else
      Resolved.cont { f with st := w_mutex_unlock st1 f.agentid.toNat }

/-- Lines 461-530: the payload starts with `'!'`; `rest` is the buffer after it. -/
def hsm_lookup_id (K : Consts) (X : Ext) (st : State) (message : message_t)
    (srcip rest : List Char) : Resolved :=
  let digits := rest.takeWhile Char.isDigit
  let after := rest.dropWhile Char.isDigit
  let recv_b : Int := (message.size : Int) - (digits.length : Int)
  if after.head? ≠ some '!' then
    let st1 := close_message_sock K X st message
    Resolved.done (rem_inc_recv_unknown st1)
  else
    let tmp_msg := after.tail
    let recv_b2 := recv_b - 2
    let st1 := key_lock_read st
    let st2 := emit st1 (Ev.OS_IsAllowedDynamicID digits srcip)
    let agentid := X.OS_IsAllowedDynamicID st2.keys digits srcip
    if agentid = -1 then
      let st3 := key_unlock st2
      let st4 := push_request K st3 digits ['i', 'd']
      let st5 := close_message_sock K X st4 message
      Resolved.done (rem_inc_recv_unknown st5)
    else
      hsm_conflict K X st2 message
        { st := st2, srcip := srcip, agentid := agentid, id := digits,
          tmp_msg := tmp_msg, recv_b := recv_b2, ip_found := false }

/-- Lines 531-548: the payload starts with `#ping`. -/
def hsm_ping (K : Consts) (X : Ext) (st : State) (message : message_t) : State :=
  let msg := ['#', 'p', 'o', 'n', 'g']
  let msg_size : Int := msg.length
  if protocol_of K message = K.REMOTED_NET_PROTOCOL_UDP then
    let sent := X.sendto msg message.addr
    let retval : Int := if sent = msg_size then 0 else -1
    rem_inc_recv_ping (emit st (Ev.sendto msg message.addr retval))
  else
    let retval := X.OS_SendSecureTCP message.sock msg
    rem_inc_recv_ping (emit st (Ev.OS_SendSecureTCP message.sock msg retval))

/-- Lines 549-590: the payload is addressed by source IP. -/
def hsm_lookup_ip (K : Consts) (X : Ext) (st : State) (message : message_t)
    (srcip : List Char) : Resolved :=
  let st1 := key_lock_read st
  let st2 := emit st1 (Ev.OS_IsAllowedIP srcip)
  let agentid := X.OS_IsAllowedIP st2.keys srcip
  if agentid < 0 then
    let st3 := key_unlock st2
    let st4 := push_request K st3 srcip ['i', 'p']
    let st5 := close_message_sock K X st4 message
    Resolved.done (rem_inc_recv_unknown st5)
  else
    hsm_conflict K X st2 message
      { st := st2, srcip := srcip, agentid := agentid, id := message.buffer.tail,
        tmp_msg := message.buffer, recv_b := (message.size : Int), ip_found := true }

/-- Lines 440-452: the source IP, absent for an unsupported address family. -/
def hsm_srcip (K : Consts) (X : Ext) (message : message_t) : Option (List Char) :=
  if message.addr.ss_family = K.AF_INET then some (X.get_ipv4_string message.addr)
  else if message.addr.ss_family = K.AF_INET6 then some (X.get_ipv6_string message.addr)
  else none

/-- Lines 440-590 of `HandleSecureMessage`: source IP and agent lookup. -/
def hsm_lookup (K : Consts) (X : Ext) (st : State) (message : message_t) : Resolved :=
  match hsm_srcip K X message with
  | none => Resolved.done (rem_inc_recv_unknown st)
  | some srcip =>
    if message.buffer.head? = some '!' then
      hsm_lookup_id K X st message srcip message.buffer.tail
    else if strncmp_eq message.buffer ['#', 'p', 'i', 'n', 'g'] 5 then
      Resolved.done (hsm_ping K X st message)
    else
      hsm_lookup_ip K X st message srcip

/-- How the decryption part ends: it returned, or it goes on with the cleartext
`tmp_msg` and its length `msg_length`. -/
inductive Decrypted where
  | done (st : State)
  | cont (st : State) (tmp_msg : List Char) (msg_length : Nat)

/-- Lines 592-623 of `HandleSecureMessage`: empty check and decryption. -/
def hsm_decrypt (K : Consts) (X : Ext) (message : message_t) (f : Frame) : Decrypted :=
  if f.recv_b ≤ 0 then
    let st1 := key_unlock f.st
    let st2 := close_message_sock K X st1 message
    Decrypted.done (rem_inc_recv_unknown st2)
  else
    let st1 := emit f.st (Ev.ReadSecMSG f.agentid.toNat)
    let res := X.ReadSecMSG st1.keys f.tmp_msg f.agentid.toNat (f.recv_b - 1) f.srcip
    if res.r ≠ K.KS_VALID then
      let st2 := key_unlock st1
      let st3 :=
        if res.r = K.KS_ENCKEY then
          (if f.ip_found then push_request K st2 f.srcip ['i', 'p']
           else push_request K st2 f.id ['i', 'd'])
        else st2
      let st4 := close_message_sock K X st3 message
      Decrypted.done (rem_inc_recv_unknown st4)
    else
      Decrypted.cont st1 res.final_msg res.msg_length

/-- Condition of line 629: the control message is let through. -/
def let_through (K : Consts) (st : State) (message : message_t) (tmp_msg : List Char) : Bool :=
  decide (message.sock = K.USING_UDP_NO_CLIENT_SOCKET)
    || decide (rem_getCounter st message.sock < message.counter)
    || strncmp_eq tmp_msg K.HC_SHUTDOWN K.HC_SHUTDOWN.length

/-- Store `e` at index `i` of the entry array. -/
def set_entry (st : State) (i : Nat) (e : keyentry) : State :=
  { st with keys := { st.keys with keyentries := st.keys.keyentries.set i e } }

/-- The difference `a - b` of two `size_t` values as the source computes it: modulo
`SIZE_MAX + 1`. -/
def size_t_sub (K : Consts) (a b : Nat) : Int :=
  ((a : Int) - (b : Int)) % ((K.SIZE_MAX : Int) + 1)

/-- Lines 629-678 of `HandleSecureMessage`: a control message whose header test
left `tmp_msg`. -/
def hsm_control (K : Consts) (X : Ext) (st : State) (message : message_t)
    (agentid : Int) (tmp_msg : List Char) (msg_length : Nat) : Option State :=
  if let_through K st message tmp_msg then
    match entry_at st.keys agentid with
    | none => none
    | some e =>
      let i := agentid.toNat
      let st1 := w_mutex_lock st i
      let key : keyentry :=
        { e with net_protocol := protocol_of K message, rcvd := X.time,
                 peer_info := message.addr }
      let st2 := set_entry st1 i key
      let st3 :=
        if protocol_of K message = K.REMOTED_NET_PROTOCOL_TCP then
          let st2a :=
            if rem_getCounter st2 message.sock < message.counter then
              set_entry st2 i { key with sock := message.sock }
            else st2
          let st2b := w_mutex_unlock st2a i
          if strncmp_eq tmp_msg K.HC_SHUTDOWN K.HC_SHUTDOWN.length = false then
            OS_AddSocket st2b i message.sock
          else st2b
        else
          w_mutex_unlock
            (set_entry st2 i { key with sock := K.USING_UDP_NO_CLIENT_SOCKET }) i
      let st4 := key_unlock st3
      let st5 := emit st4 (Ev.save_controlmsg key tmp_msg (size_t_sub K msg_length 3))
      some (rem_inc_recv_ctrl st5 key.id)
  else
    some (rem_inc_recv_dequeued (key_unlock st))

/-- Text of the source tag, `"[%s] (%s) %s"` of id, name and ip (line 683). -/
def srcmsg_text (e : keyentry) : List Char :=
  '[' :: e.id ++ ']' :: ' ' :: '(' :: e.name ++ ')' :: ' ' :: e.ip

/-- Lines 681-712 of `HandleSecureMessage`: an event message. -/
def hsm_event (K : Consts) (X : Ext) (st : State) (agentid : Int)
    (tmp_msg : List Char) : Option State :=
  match entry_at st.keys agentid with
  | none => none
  | some e =>
    let srcmsg := snprintf K.OS_FLSIZE (srcmsg_text e)
    let agentid_str := e.id
    let st1 := key_unlock st
    let rc0 := X.SendMSG 0
    let st2 := emit st1 (Ev.SendMSG st1.m_queue tmp_msg srcmsg K.SECURE_MQ rc0)
    if rc0 < 0 then
      let st3 := emit { st2 with m_queue := X.StartMQ } Ev.StartMQ
      let rc1 := X.SendMSG 1
      let st4 := emit st3 (Ev.SendMSG st3.m_queue tmp_msg srcmsg K.SECURE_MQ rc1)
      if rc1 < 0 then some st4 else some (rem_inc_recv_evt st4 agentid_str)
    else
      some (rem_inc_recv_evt st2 agentid_str)

/-- Source function `HandleSecureMessage` (lines 425-712). The result is absent when
the function indexes `keys.keyentries` outside the array. -/
def HandleSecureMessage (K : Consts) (X : Ext) (st : State) (message : message_t) :
    Option State :=
  match hsm_lookup K X st message with
  | Resolved.done st1 => some st1
  | Resolved.fault => none
  | Resolved.cont f =>
    match hsm_decrypt K X message f with
    | Decrypted.done st1 => some st1
    | Decrypted.cont st1 tmp_msg msg_length =>
      match X.IsValidHeader tmp_msg with
      | some tmp_msg2 => hsm_control K X st1 message f.agentid tmp_msg2 msg_length
      | none => hsm_event K X st1 f.agentid tmp_msg

/-- Entry left in the store by an accepted control message. -/
def accepted_entry (K : Consts) (X : Ext) (st : State) (m : message_t) (e : keyentry) :
    keyentry :=
  { e with
    net_protocol := protocol_of K m, rcvd := X.time, peer_info := m.addr,
    sock :=
      if protocol_of K m = K.REMOTED_NET_PROTOCOL_TCP then
        (if rem_getCounter st m.sock < m.counter then m.sock else e.sock)
      else K.USING_UDP_NO_CLIENT_SOCKET }

/-! ## Reading the trace, and the conditions the theorems are stated with -/

/-- Number of calls to `save_controlmsg` in a trace. -/
def n_save_controlmsg (tr : List Ev) : Nat :=
  tr.countP (fun e => match e with | Ev.save_controlmsg _ _ _ => true | _ => false)

/-- Number of calls to `_close_sock` on `sock` in a trace. -/
def n_close_sock (tr : List Ev) (sock : Int) : Nat := tr.count (Ev.close_sock sock)

/-- The lookup of a message yields entry index `a`: by the id of a well-formed
`!<digits>!` envelope (lines 461-489) or by the source IP (lines 549-552). -/
def resolves_to (K : Consts) (X : Ext) (st : State) (m : message_t) (a : Int) : Prop :=
  ∃ srcip, hsm_srcip K X m = some srcip ∧
    ((m.buffer.head? = some '!' ∧
        (m.buffer.tail.dropWhile Char.isDigit).head? = some '!' ∧
        X.OS_IsAllowedDynamicID st.keys (m.buffer.tail.takeWhile Char.isDigit) srcip = a ∧
        a ≠ -1) ∨
     (m.buffer.head? ≠ some '!' ∧ strncmp_eq m.buffer ['#', 'p', 'i', 'n', 'g'] 5 = false ∧
        X.OS_IsAllowedIP st.keys srcip = a ∧ 0 ≤ a))

/-- Whether a call is one of the two agent lookups. -/
def is_lookup : Ev → Bool
  | Ev.OS_IsAllowedDynamicID _ _ => true
  | Ev.OS_IsAllowedIP _ => true
  | _ => false

/-- State in which the "Agent key already in use" branch returns (lines 516-526):
both locks released, the incoming socket closed if it is one, one more message
counted under `recv_unknown`. -/
def key_in_use_exit (K : Consts) (X : Ext) (st : State) (m : message_t) (ev : Ev)
    (i : Nat) : State :=
  rem_inc_recv_unknown (close_message_sock K X
    { st with trace := st.trace ++
        [Ev.key_lock_read, ev, Ev.mutex_lock i, Ev.mutex_unlock i, Ev.key_unlock] } m)

/-- The reply to a ping (lines 536-540): `#pong` by `sendto` to the peer address on
the UDP listener, or by `OS_SendSecureTCP` on the socket of the message. -/
def pong_call (K : Consts) (X : Ext) (m : message_t) : Ev :=
  if m.sock = K.USING_UDP_NO_CLIENT_SOCKET then
    Ev.sendto ['#', 'p', 'o', 'n', 'g'] m.addr
      (if X.sendto ['#', 'p', 'o', 'n', 'g'] m.addr = 5 then 0 else -1)
  else
    Ev.OS_SendSecureTCP m.sock ['#', 'p', 'o', 'n', 'g']
      (X.OS_SendSecureTCP m.sock ['#', 'p', 'o', 'n', 'g'])

/-- Number of calls to `SendMSG` in a trace that did not fail (result >= 0). -/
def n_SendMSG_ok (tr : List Ev) : Nat :=
  tr.countP (fun e => match e with | Ev.SendMSG _ _ _ _ ret => decide (0 ≤ ret) | _ => false)

/-- The lookup of a message finds no entry: the id of a well-formed `!<digits>!`
envelope is not allowed for the source IP (line 491), or the message is addressed by
source IP and that IP has no entry (line 554). `type` and `request` are the
arguments of the key request the branch makes. -/
def unknown_endpoint (K : Consts) (X : Ext) (st : State) (m : message_t)
    (type request : List Char) : Prop :=
  ∃ srcip, hsm_srcip K X m = some srcip ∧
    ((m.buffer.head? = some '!' ∧
        (m.buffer.tail.dropWhile Char.isDigit).head? = some '!' ∧
        X.OS_IsAllowedDynamicID st.keys (m.buffer.tail.takeWhile Char.isDigit) srcip = -1 ∧
        type = ['i', 'd'] ∧ request = m.buffer.tail.takeWhile Char.isDigit) ∨
     (m.buffer.head? ≠ some '!' ∧ strncmp_eq m.buffer ['#', 'p', 'i', 'n', 'g'] 5 = false ∧
        X.OS_IsAllowedIP st.keys srcip < 0 ∧
        type = ['i', 'p'] ∧ request = srcip))

/-- State in which the unknown-endpoint branches return (lines 500-511, 555-566). -/
def unknown_exit (K : Consts) (X : Ext) (st : State) (m : message_t) (ev : Ev)
    (type request : List Char) : State :=
  rem_inc_recv_unknown (close_message_sock K X
    (push_request K
      { st with trace := st.trace ++ [Ev.key_lock_read, ev, Ev.key_unlock] } request type) m)

/-- A protocol violation in the id envelope of a message from an IPv4 or IPv6 peer
(lines 461-482, 592-601): the payload starts with `!` and either the digits that
follow are not closed by `!` (malformed), or they are and nothing is left after
them (empty payload: `size - digits - 2 <= 0`) while the id lookup returns -1 or
the index of an entry. -/
def envelope_violation (K : Consts) (X : Ext) (st : State) (m : message_t) : Prop :=
  ∃ srcip, hsm_srcip K X m = some srcip ∧ m.buffer.head? = some '!' ∧
    ((m.buffer.tail.dropWhile Char.isDigit).head? ≠ some '!' ∨
     ((m.buffer.tail.dropWhile Char.isDigit).head? = some '!' ∧
      (m.size : Int) - ((m.buffer.tail.takeWhile Char.isDigit).length : Int) - 2 ≤ 0 ∧
      (X.OS_IsAllowedDynamicID st.keys (m.buffer.tail.takeWhile Char.isDigit) srcip = -1 ∨
       (entry_at st.keys
         (X.OS_IsAllowedDynamicID st.keys (m.buffer.tail.takeWhile Char.isDigit) srcip)).isSome
         = true)))

/-- The descriptors that have a slot in a buffer table. -/
def fds (t : List sockbuffer_t) : List Int := t.map (fun b => b.fd)

/-- What the steps other than the accept handler and `_close_sock` leave untouched. -/
def same_sockets (a b : State) : Prop :=
  b.netbuffer_recv = a.netbuffer_recv ∧ b.netbuffer_send = a.netbuffer_send ∧
  b.remoted_state.tcp_active = a.remoted_state.tcp_active

/-- States reachable from an initial state (empty buffer tables, gauge 0) by
`handle_new_tcp_connection`, by `_close_sock` on any socket, by the receive handler
and the worker (which reach the tables through `_close_sock`), with any outcome of
the outside calls, and by steps that touch neither the tables nor the gauge. -/
inductive Reachable : State → Prop where
  | init (st : State) (hrecv : st.netbuffer_recv = []) (hsend : st.netbuffer_send = [])
      (hgauge : st.remoted_state.tcp_active = 0) : Reachable st
  | new_connection (K : Consts) (X : Ext) (st : State) (sock_client : Int)
      (peer_info : sockaddr_storage) (wnotify_ret : Int) (h : Reachable st) :
      Reachable (handle_new_tcp_connection K X st sock_client peer_info wnotify_ret)
  | close_sock (K : Consts) (X : Ext) (st : State) (sock : Int) (h : Reachable st) :
      Reachable (_close_sock K X st sock).1
  | incoming_data (K : Consts) (X : Ext) (st : State) (sock_client recv_b : Int)
      (h : Reachable st) :
      Reachable (handle_incoming_data_from_tcp_socket K X st sock_client recv_b)
  | handle_message (K : Consts) (X : Ext) (st : State) (message : message_t) (st2 : State)
      (hret : HandleSecureMessage K X st message = some st2) (h : Reachable st) : Reachable st2
  | other (st st2 : State) (hsame : same_sockets st st2) (h : Reachable st) : Reachable st2

/-- In the state `st`, `close(sock)` returns 0 only if `sock` has a slot in the
receive table. -/
def close_owned (X : Ext) (st : State) (sock : Int) : Prop :=
  X.close_error sock = false → sock ∈ fds st.netbuffer_recv

/-- The states of `Reachable` that are reached by runs in which the descriptors of
the client sockets go with the slots of the receive table: `accept` returns a
descriptor that has no slot, and each `close` the step makes returns 0 only for a
descriptor that has one. -/
inductive Reachable_owned : State → Prop where
  | init (st : State) (hrecv : st.netbuffer_recv = []) (hsend : st.netbuffer_send = [])
      (hgauge : st.remoted_state.tcp_active = 0) : Reachable_owned st
  | new_connection (K : Consts) (X : Ext) (st : State) (sock_client : Int)
      (peer_info : sockaddr_storage) (wnotify_ret : Int)
      (hfresh : sock_client ∉ fds st.netbuffer_recv) (h : Reachable_owned st) :
      Reachable_owned (handle_new_tcp_connection K X st sock_client peer_info wnotify_ret)
  | close_sock (K : Consts) (X : Ext) (st : State) (sock : Int)
      (hclose : close_owned X st sock) (h : Reachable_owned st) :
      Reachable_owned (_close_sock K X st sock).1
  | incoming_data (K : Consts) (X : Ext) (st : State) (sock_client recv_b : Int)
      (hclose : close_owned X st sock_client) (h : Reachable_owned st) :
      Reachable_owned (handle_incoming_data_from_tcp_socket K X st sock_client recv_b)
  | handle_message (K : Consts) (X : Ext) (st : State) (message : message_t) (st2 : State)
      (hret : HandleSecureMessage K X st message = some st2)
      (hclose : close_owned X st message.sock) (h : Reachable_owned st) :
      Reachable_owned st2
  | other (st st2 : State) (hsame : same_sockets st st2) (h : Reachable_owned st) :
      Reachable_owned st2

/-- The invariant behind P5: the receive table holds each descriptor at most once,
and the gauge counts its slots. -/
def socket_inv (st : State) : Prop :=
  (fds st.netbuffer_recv).Nodup ∧
  st.remoted_state.tcp_active = (st.netbuffer_recv.length : Int)

/-- The invariant while the message `m` is handled: `socket_inv`, and closing the
socket of the message can succeed only if it has a slot. -/
def message_inv (X : Ext) (m : message_t) (st : State) : Prop :=
  socket_inv st ∧ close_owned X st m.sock

/-- The invariant at the end of the lookup part of a message `m`. -/
def resolved_inv (X : Ext) (m : message_t) : Resolved → Prop
  | Resolved.done st => socket_inv st
  | Resolved.cont f => message_inv X m f.st
  | Resolved.fault => True

/-- The invariant at the end of the decryption part of a message `m`. -/
def decrypted_inv (X : Ext) (m : message_t) : Decrypted → Prop
  | Decrypted.done st => socket_inv st
  | Decrypted.cont st _ _ => message_inv X m st

/-! ## Example data

The header values, a key store with two agents and outcomes of the outside calls
that the worked examples below are evaluated on. -/

/-- Header values used in the examples. -/
def wazuh : Consts :=
  { USING_UDP_NO_CLIENT_SOCKET := -1, REMOTED_NET_PROTOCOL_UDP := 2,
    REMOTED_NET_PROTOCOL_TCP := 1, AF_INET := 2, AF_INET6 := 10, OS_MAXSTR := 65536,
    OS_FLSIZE := 256, KS_VALID := 0, KS_ENCKEY := -5,
    HC_SHUTDOWN := "agent shutdown ".toList, SECURE_MQ := '4', OS_SOCKBUSY := -5,
    SIZE_MAX := 18446744073709551615 }

/-- IPv4 peer 10.0.0.5. -/
def peer5 : sockaddr_storage := ⟨2, [10, 0, 0, 5]⟩

/-- IPv4 peer 10.0.0.6. -/
def peer6 : sockaddr_storage := ⟨2, [10, 0, 0, 6]⟩

/-- IPv4 peer 192.168.9.9, known to no entry. -/
def peer9 : sockaddr_storage := ⟨2, [192, 168, 9, 9]⟩

/-- Peer address of a family other than IPv4 and IPv6. -/
def peer_unix : sockaddr_storage := ⟨1, []⟩

/-- Agent 002 at 10.0.0.5, bound to no socket. -/
def agent002 : keyentry :=
  { id := "002".toList, name := "agentB".toList, ip := "10.0.0.5".toList, sock := -1,
    net_protocol := 0, rcvd := 0, peer_info := ⟨0, []⟩, fp := none, updating_time := 0,
    rids_node := none }

/-- Agent 003 at 10.0.0.6, bound to TCP socket 10. -/
def agent003 : keyentry :=
  { id := "003".toList, name := "agentC".toList, ip := "10.0.0.6".toList, sock := 10,
    net_protocol := 1, rcvd := 500, peer_info := peer6, fp := none, updating_time := 0,
    rids_node := none }

/-- State with the two agents, buffer slots for the client sockets 7, 10 and 11, and
the counter 5 recorded against socket 7. -/
def st0 : State :=
  { keys := ⟨[agent002, agent003], [(10, 1)], []⟩,
    netbuffer_recv := [⟨7, peer5⟩, ⟨10, peer6⟩, ⟨11, peer6⟩],
    netbuffer_send := [⟨7, peer5⟩, ⟨10, peer6⟩, ⟨11, peer6⟩],
    global_counter := 9, rem_counter := [(7, 5)], remoted_state := ⟨0, 0, 0, [], [], 3⟩,
    key_request_available := true, key_request_queue := ⟨1024, []⟩, m_queue := 3,
    trace := [] }

/-- Outcomes of the outside calls: lookups that know agents 002 and 003, a
decryption that succeeds and returns its input, the header test `#!-`, sends that
succeed. -/
def ext0 : Ext :=
  { get_ipv4_string := fun a =>
      if a.data = [10, 0, 0, 5] then "10.0.0.5".toList
      else if a.data = [10, 0, 0, 6] then "10.0.0.6".toList else "192.168.9.9".toList,
    get_ipv6_string := fun _ => "::1".toList,
    OS_IsAllowedDynamicID := fun _ id _ =>
      if id = "002".toList then 0 else if id = "003".toList then 1 else -1,
    OS_IsAllowedIP := fun _ ip =>
      if ip = "10.0.0.5".toList then 0 else if ip = "10.0.0.6".toList then 1 else -1,
    ReadSecMSG := fun _ msg _ _ _ => ⟨0, msg, msg.length⟩,
    IsValidHeader := fun s => if "#!-".toList.isPrefixOf s then some (s.drop 3) else none,
    time := 1000, sendto := fun msg _ => msg.length, OS_SendSecureTCP := fun _ _ => 0,
    SendMSG := fun _ => 0, StartMQ := 4, close_error := fun _ => false,
    OS_ConnectUnixDomain := fun _ => 20, OS_SetSendTimeout := fun _ => 0,
    OS_SendUnix := fun _ => 0 }

/-- Outcomes as in `ext0`, except that every `close` fails. -/
def ext_close_fails : Ext := { ext0 with close_error := fun _ => true }

/-- An initial state: `st0` before any connection. -/
def st_init : State :=
  { st0 with netbuffer_recv := [], netbuffer_send := [],
             remoted_state := ⟨0, 0, 0, [], [], 0⟩ }

/-- The state after a connection was accepted on descriptor 7 and `_close_sock(7)` was
called twice, `close` returning 0 both times. -/
def st_closed_twice : State :=
  (_close_sock wazuh ext0
    (_close_sock wazuh ext0 (handle_new_tcp_connection wazuh ext0 st_init 7 peer5 0) 7).1 7).1

/-- The state after a connection was accepted on descriptor 7, `_close_sock(7)` was
called with `close` failing, and `accept` returned descriptor 7 again. -/
def st_accepted_twice : State :=
  handle_new_tcp_connection wazuh ext0
    (_close_sock wazuh ext_close_fails
      (handle_new_tcp_connection wazuh ext0 st_init 7 peer5 0) 7).1 7 peer5 0

/-- Scenario 2 of the spec: agent 002 sends `!002!#!-agent startup` on TCP socket 7. -/
def msg_startup : message_t := ⟨"!002!#!-agent startup".toList, 7, peer5, 6⟩

/-- Locals after the lookup of `msg_startup` in `st0`. -/
def frame_startup : Frame :=
  { st := { st0 with trace :=
      [Ev.key_lock_read, Ev.OS_IsAllowedDynamicID "002".toList "10.0.0.5".toList,
       Ev.mutex_lock 0, Ev.mutex_unlock 0] },
    srcip := "10.0.0.5".toList, agentid := 0, id := "002".toList,
    tmp_msg := "#!-agent startup".toList, recv_b := 16, ip_found := false }

/-- Scenario 4 of the spec: a new connection on socket 11 delivers a message for
agent 003, whose entry is bound to socket 10. -/
def msg_collision : message_t := ⟨"!003!abcdef".toList, 11, peer6, 100⟩

/-- A UDP datagram for agent 003, whose entry is bound to TCP socket 10. -/
def msg_udp003 : message_t := ⟨"!003!abcdef".toList, -1, peer6, 100⟩

/-- A `#ping` on TCP socket 7 whose peer address is of an unsupported family. -/
def msg_ping_unix : message_t := ⟨"#ping".toList, 7, peer_unix, 1⟩

/-- A `#ping` on TCP socket 7 from 10.0.0.5. -/
def msg_ping : message_t := ⟨"#ping".toList, 7, peer5, 1⟩

/-- Scenario 1 of the spec, over TCP: agent 002 sends an event on socket 7. -/
def msg_event : message_t := ⟨"!002!1:some event".toList, 7, peer5, 6⟩

/-- Locals after the lookup of `msg_event` in `st0`. -/
def frame_event : Frame :=
  { st := { st0 with trace :=
      [Ev.key_lock_read, Ev.OS_IsAllowedDynamicID "002".toList "10.0.0.5".toList,
       Ev.mutex_lock 0, Ev.mutex_unlock 0] },
    srcip := "10.0.0.5".toList, agentid := 0, id := "002".toList,
    tmp_msg := "1:some event".toList, recv_b := 12, ip_found := false }

/-- Scenario 5 of the spec: a UDP datagram from 192.168.9.9, known to no entry. -/
def msg_unknown_ip : message_t := ⟨"hello".toList, -1, peer9, 1⟩

/-- A message on TCP socket 7 with an id that is not allowed for its source IP. -/
def msg_unknown_id : message_t := ⟨"!777!abc".toList, 7, peer9, 1⟩

/-- A message on TCP socket 7 made of `!`, `n` digits and `!`. -/
def msg_long_id (n : Nat) : message_t := ⟨'!' :: (List.replicate n '7' ++ ['!']), 7, peer9, 1⟩

/-- A malformed id envelope on TCP socket 7: the digits are not closed by `!`. -/
def msg_malformed : message_t := ⟨"!002abc".toList, 7, peer5, 1⟩

/-- The same malformed envelope on TCP socket 7, from a peer whose address family is
neither IPv4 nor IPv6. -/
def msg_malformed_unix : message_t := ⟨"!002abc".toList, 7, peer_unix, 1⟩

/-- An id envelope with nothing after it, on TCP socket 7. -/
def msg_empty : message_t := ⟨"!002!".toList, 7, peer5, 1⟩

/-! ## Counters and locks along one call of `HandleSecureMessage` -/

/-- Sum of the five message counters `recv_unknown`, `recv_ping`, `recv_dequeued`,
`recv_ctrl` and `recv_evt` (the last two over all agents). -/
def n_counted (rs : remoted_state_t) : Nat :=
  rs.recv_unknown + rs.recv_ping + rs.recv_dequeued + rs.recv_ctrl.length + rs.recv_evt.length

/-- No message counter of `a` is above its value in `b`. -/
def counters_le (a b : remoted_state_t) : Prop :=
  a.recv_unknown ≤ b.recv_unknown ∧ a.recv_ping ≤ b.recv_ping ∧
  a.recv_dequeued ≤ b.recv_dequeued ∧ a.recv_ctrl <:+ b.recv_ctrl ∧ a.recv_evt <:+ b.recv_evt

/-- The five message counters of `a` and `b` are equal. -/
def counters_eq (a b : remoted_state_t) : Prop :=
  b.recv_unknown = a.recv_unknown ∧ b.recv_ping = a.recv_ping ∧
  b.recv_dequeued = a.recv_dequeued ∧ b.recv_ctrl = a.recv_ctrl ∧ b.recv_evt = a.recv_evt

/-- The message is an event and both submissions to the bus fail (lines 693-703). -/
def bus_down_event (K : Consts) (X : Ext) (st : State) (m : message_t) : Prop :=
  ∃ f st1 tmp_msg msg_length, hsm_lookup K X st m = Resolved.cont f ∧
    hsm_decrypt K X m f = Decrypted.cont st1 tmp_msg msg_length ∧
    X.IsValidHeader tmp_msg = none ∧ X.SendMSG 0 < 0 ∧ X.SendMSG 1 < 0

/-- The agent lookups answer with "no entry" or with an index inside the entry array. -/
def lookups_valid (X : Ext) (st : State) : Prop :=
  (∀ id ip, X.OS_IsAllowedDynamicID st.keys id ip = -1 ∨
    (entry_at st.keys (X.OS_IsAllowedDynamicID st.keys id ip)).isSome = true) ∧
  (∀ ip, X.OS_IsAllowedIP st.keys ip < 0 ∨
    (entry_at st.keys (X.OS_IsAllowedIP st.keys ip)).isSome = true)

/-- What a reader of the trace knows about the locks: whether the store read-lock is
held, how many times the handler itself took it, which entry mutex is held, and
whether the trace is inside `_close_sock` (between its entry and its `close`). -/
structure LockState where
  read_held : Bool
  acquired : Nat
  mutex : Option Nat
  in_close_sock : Bool
deriving DecidableEq, Repr

/-- One call of the trace, checked against the lock discipline; absent when the call
breaks it: the read-lock taken while held or released while not held, a mutex
taken while one is held or released while another (or none) is held, `_close_sock`
entered with the read-lock held. -/
def lock_step (s : LockState) : Ev → Option LockState
  | Ev.key_lock_read =>
    if s.read_held then none
    else some { s with read_held := true,
                       acquired := if s.in_close_sock then s.acquired else s.acquired + 1 }
  | Ev.key_unlock => if s.read_held then some { s with read_held := false } else none
  | Ev.mutex_lock i => if s.mutex.isSome then none else some { s with mutex := some i }
  | Ev.mutex_unlock i => if s.mutex = some i then some { s with mutex := none } else none
  | Ev.close_sock _ =>
    if s.read_held || s.in_close_sock then none else some { s with in_close_sock := true }
  | Ev.close _ _ => some { s with in_close_sock := false }
  | _ => some s

/-- The lock discipline checked along a trace. -/
def lock_run (s : LockState) : List Ev → Option LockState
  | [] => some s
  | e :: tr =>
    match lock_step s e with
    | none => none
    | some s2 => lock_run s2 tr

/-- No lock held, nothing acquired. -/
def locks_free : LockState := ⟨false, 0, none, false⟩

/-- From `st` the handler has reached `st2`: the trace grew by calls that respect the
lock discipline and lead from lock state `S` to `S2`, and `k` was added to the
message counters, none of which went down. -/
def progress (st st2 : State) (S S2 : LockState) (k : Nat) : Prop :=
  (∃ tr, st2.trace = st.trace ++ tr ∧ lock_run S tr = some S2) ∧
  n_counted st2.remoted_state = n_counted st.remoted_state + k ∧
  counters_le st.remoted_state st2.remoted_state

/-- Outcomes as in `ext0`, except that every submission to the bus fails. -/
def ext_bus_down : Ext := { ext0 with SendMSG := fun _ => -1 }

/-- Exactly one of the five message counters of `a` is one higher in `b` (for the
per-agent counters: for one agent), and the other four are equal. -/
def one_counted (a b : remoted_state_t) : Prop :=
  (b.recv_unknown = a.recv_unknown + 1 ∧ b.recv_ping = a.recv_ping ∧
    b.recv_dequeued = a.recv_dequeued ∧ b.recv_ctrl = a.recv_ctrl ∧ b.recv_evt = a.recv_evt) ∨
  (b.recv_unknown = a.recv_unknown ∧ b.recv_ping = a.recv_ping + 1 ∧
    b.recv_dequeued = a.recv_dequeued ∧ b.recv_ctrl = a.recv_ctrl ∧ b.recv_evt = a.recv_evt) ∨
  (b.recv_unknown = a.recv_unknown ∧ b.recv_ping = a.recv_ping ∧
    b.recv_dequeued = a.recv_dequeued + 1 ∧ b.recv_ctrl = a.recv_ctrl ∧
    b.recv_evt = a.recv_evt) ∨
  (b.recv_unknown = a.recv_unknown ∧ b.recv_ping = a.recv_ping ∧
    b.recv_dequeued = a.recv_dequeued ∧ (∃ id, b.recv_ctrl = id :: a.recv_ctrl) ∧
    b.recv_evt = a.recv_evt) ∨
  (b.recv_unknown = a.recv_unknown ∧ b.recv_ping = a.recv_ping ∧
    b.recv_dequeued = a.recv_dequeued ∧ b.recv_ctrl = a.recv_ctrl ∧
    (∃ id, b.recv_evt = id :: a.recv_evt))

/-! ## The rids closer: the inner loop of `close_fp_main` -/

/-- Modelled from the spec: `linked_queue_pop_ex` on the queue of opened rids files,
removing the first node and returning its data; no data when the queue is empty (the
call would wait). -/
def linked_queue_pop_ex (st : State) : State × Option Nat :=
  match st.keys.opened_fp_queue with
  | [] => (st, none)
  | i :: rest => ({ st with keys := { st.keys with opened_fp_queue := rest } }, some i)

/-- The value an `int` (32 bits) takes when a wider value is assigned to it: the
value modulo 2^32, in the range of `int`. -/
def int_cast (x : Int) : Int := (x + 2147483648) % 4294967296 - 2147483648

/-- Whether a value is in the range of `int` (32 bits). -/
def int_range (x : Int) : Bool := decide (-2147483648 ≤ x) && decide (x ≤ 2147483647)

/-- Body of `while (flag)` in `close_fp_main` (lines 392-414) for `seconds =
logr.rids_closing_time`: the state after one turn and the value of `flag`. The clock
`time(0)` is `X.time` and `int now = time(0)` its value as an `int`; the `int`
difference `now - seconds` is compared with the `time_t` value `updating_time`. The
result is absent when a node of the queue is not an entry of the array, or when
`now - seconds` overflows `int`. -/
def close_fp_main_body (X : Ext) (seconds : Int) (st : State) : Option (State × Bool) :=
  match st.keys.opened_fp_queue.head? with
  | none => some (st, false)
  | some first_node =>
    let now := int_cast X.time
    match st.keys.keyentries[first_node]? with
    | none => none
    | some first_node_key =>
      if int_range (now - seconds) = false then none
      else if now - seconds > first_node_key.updating_time then
        let p := linked_queue_pop_ex st
        match p.2 with
        | none => none
        | some i =>
          match p.1.keys.keyentries[i]? with
          | none => none
          | some key =>
            let st1 := w_mutex_lock p.1 i
            let st2 := match key.fp with
              | some fp => emit st1 (Ev.fclose fp)
              | none => st1
            let st3 := set_entry st2 i
              { key with fp := none, updating_time := 0, rids_node := none }
            some (w_mutex_unlock st3 i, true)
      else some (st, false)

/-- The loop `while (flag)` of `close_fp_main` (lines 391-415), run for at most `fuel`
turns; the result is absent when the fuel runs out before `flag` is cleared. -/
def close_fp_main_loop (X : Ext) (seconds : Int) : Nat → State → Option State
  | 0, _ => none
  | fuel + 1, st =>
    match close_fp_main_body X seconds st with
    | none => none
    | some (st1, true) => close_fp_main_loop X seconds fuel st1
    | some (st1, false) => some st1

/-- The state `st0` with both agents in the rids queue: agent 002 touched its rids
file (handle 31) at time 100, agent 003 (handle 32) at time 950. -/
def st_rids : State :=
  { st0 with keys :=
      ⟨[{ agent002 with fp := some 31, updating_time := 100, rids_node := some 0 },
        { agent003 with fp := some 32, updating_time := 950, rids_node := some 1 }],
       [(10, 1)], [0, 1]⟩ }

/-- Outcomes as in `ext0`, with the clock at 2^31 + 1000. -/
def ext_late : Ext := { ext0 with time := 2147484648 }

/-- Source constant `max_attempts` of `key_request_reconnect` (line 760). -/
def max_attempts : Nat := 4

/-- Source constant `KEY_RECONNECT_INTERVAL` (line 71), in seconds. -/
def KEY_RECONNECT_INTERVAL : Nat := 300

/-- State of the key-request thread: the globals, the locals `msg` and `socket` of
`key_request_thread`, and the numbers of connection attempts and of sends made so
far, which select the outcomes of the outside calls in `Ext`. -/
structure key_request_thread_state where
  st : State
  msg : Option (List Char)
  socket : Int
  attempts_made : Nat
  sends_made : Nat
deriving DecidableEq, Repr

/-- Modelled from the spec: `sleep` (recorded). -/
def sleep (st : State) (seconds : Nat) : State := emit st (Ev.sleep seconds)

/-- Modelled from the spec: `queue_pop_ex`, taking the oldest element of the queue; no
result while the queue is empty (the call waits there). -/
def queue_pop_ex (q : w_queue_t) : Option (w_queue_t × List Char) :=
  match q.data with
  | [] => none
  | m :: rest => some ({ q with data := rest }, m)

/-- Source function `key_request_connect` (lines 735-741, the branch taken outside
Windows): the result of `OS_ConnectUnixDomain`. -/
def key_request_connect (X : Ext) (t : key_request_thread_state) :
    key_request_thread_state × Int :=
  let fd := X.OS_ConnectUnixDomain t.attempts_made
  ({ t with st := emit t.st (Ev.OS_ConnectUnixDomain fd) }, fd)

/-- Source function `send_key_request` (lines 743-745): the result of `OS_SendUnix`. -/
def send_key_request (X : Ext) (t : key_request_thread_state) (socket : Int)
    (msg : List Char) : key_request_thread_state × Int :=
  let rc := X.OS_SendUnix t.sends_made
  ({ t with st := emit t.st (Ev.OS_SendUnix socket msg rc),
            sends_made := t.sends_made + 1 }, rc)

/-- The loop `for (attempts = 0; attempts < max_attempts; attempts++)` of
`key_request_reconnect` (lines 764-775) with `left` turns to go: the state, and the
socket returned from inside the loop if any. -/
def key_request_reconnect_for (X : Ext) :
    Nat → key_request_thread_state → key_request_thread_state × Option Int
  | 0, t => (t, none)
  | left + 1, t =>
    let c := key_request_connect X t
    let socket := c.2
    let t1 := { c.1 with attempts_made := t.attempts_made + 1 }
    if socket < 0 then
      key_request_reconnect_for X left { t1 with st := sleep t1.st 1 }
    else
      let r := X.OS_SetSendTimeout t.attempts_made
      let t2 := { t1 with st := emit t1.st (Ev.OS_SetSendTimeout socket 5 r) }
      if r < 0 then
        key_request_reconnect_for X left { t2 with st := (close X t2.st socket).1 }
      else
        ({ t2 with st := { t2.st with key_request_available := true } }, some socket)

/-- Source function `key_request_reconnect` (lines 758-779), for at most `fuel` rounds
of its `while (1)`; the result is absent when the fuel runs out before it returns. -/
def key_request_reconnect (X : Ext) :
    Nat → key_request_thread_state → Option (key_request_thread_state × Int)
  | 0, _ => none
  | fuel + 1, t =>
    match key_request_reconnect_for X max_attempts t with
    | (t1, some socket) => some (t1, socket)
    | (t1, none) =>
      key_request_reconnect X fuel { t1 with st := sleep t1.st KEY_RECONNECT_INTERVAL }

/-- How one turn of the loop of `key_request_thread` ends. -/
inductive Turn where
  | done (t : key_request_thread_state)
  | waiting (t : key_request_thread_state)
  | reconnecting
deriving DecidableEq, Repr

/-- Lines 793-806 of `key_request_thread`: sending the pending message `m` (the value
of `msg`) and acting on the result. `os_free(msg)` is modelled from the spec: it
releases the message and clears `msg`. -/
def key_request_thread_send (K : Consts) (X : Ext) (t : key_request_thread_state)
    (m : List Char) : key_request_thread_state :=
  let s := send_key_request X t t.socket m
  let rc := s.2
  if rc < 0 then
    if rc = K.OS_SOCKBUSY then
      { s.1 with st := sleep s.1.st 1 }
    else if 0 ≤ s.1.socket then
      { s.1 with
        st := (close X { s.1.st with key_request_available := false } s.1.socket).1,
        socket := -1 }
    else s.1
  else { s.1 with msg := none }

/-- Body of `while(1)` in `key_request_thread` (lines 786-808). `done` is the end of the
body; `waiting` is `queue_pop_ex` on the empty queue; `reconnecting` is
`key_request_reconnect` not returning within `fuel` rounds. -/
def key_request_thread_body (K : Consts) (X : Ext) (fuel : Nat)
    (t : key_request_thread_state) : Turn :=
  match (if t.socket < 0 then
      (key_request_reconnect X fuel t).map (fun r => { r.1 with socket := r.2 })
    else some t) with
  | none => Turn.reconnecting
  | some t1 =>
    match t1.msg with
    | some m => Turn.done (key_request_thread_send K X t1 m)
    | none =>
      match queue_pop_ex t1.st.key_request_queue with
      | none => Turn.waiting t1
      | some (q, m) =>
        Turn.done (key_request_thread_send K X
          { t1 with st := { t1.st with key_request_queue := q }, msg := some m } m)

/-- Source function `key_request_thread` (lines 781-810), for `turns` turns of its
loop from the state `t`. -/
def key_request_thread (K : Consts) (X : Ext) (fuel : Nat) :
    Nat → key_request_thread_state → Turn
  | 0, t => Turn.done t
  | turns + 1, t =>
    match key_request_thread_body K X fuel t with
    | Turn.done t1 => key_request_thread K X fuel turns t1
    | r => r

/-- The locals of `key_request_thread` at its start (lines 782-783). -/
def key_request_thread_start (st : State) : key_request_thread_state :=
  { st := st, msg := none, socket := -1, attempts_made := 0, sends_made := 0 }

/-- Checking the connection attempts of a trace: the number of `OS_ConnectUnixDomain`
calls since the last `sleep(KEY_RECONNECT_INTERVAL)` (or since the start), absent
once that number would exceed `max_attempts`. -/
def attempts_step (c : Nat) : Ev → Option Nat
  | Ev.sleep s => some (if s = KEY_RECONNECT_INTERVAL then 0 else c)
  | Ev.OS_ConnectUnixDomain _ => if c < max_attempts then some (c + 1) else none
  | _ => some c

/-- The check `attempts_step` along a trace. -/
def attempts_run (c : Nat) : List Ev → Option Nat
  | [] => some c
  | e :: tr =>
    match attempts_step c e with
    | none => none
    | some c2 => attempts_run c2 tr

/-- Outcomes as in `ext0`, except that the first connection attempt of the
key-request thread fails, and its first send fails with -1 and its second with
`OS_SOCKBUSY` (-5). -/
def ext_req : Ext :=
  { ext0 with
    OS_ConnectUnixDomain := fun n => if n = 0 then -1 else 20 + n,
    OS_SendUnix := fun n => if n = 0 then -1 else if n = 1 then -5 else 0 }

/-- The key-request thread at its start, with two requests in the queue. -/
def req_start : key_request_thread_state :=
  key_request_thread_start
    { st0 with key_request_available := false,
               key_request_queue := ⟨1024, ["id:009".toList, "ip:10.0.0.9".toList]⟩ }

/-- The key-request thread after its first turn from `req_start` under `ext_req`: the
send failed, the socket is closed, the request `id:009` is still pending. -/
def req_failed : key_request_thread_state :=
  { st := { st0 with
      key_request_available := false,
      key_request_queue := ⟨1024, ["ip:10.0.0.9".toList]⟩,
      trace := [Ev.OS_ConnectUnixDomain (-1), Ev.sleep 1, Ev.OS_ConnectUnixDomain 21,
        Ev.OS_SetSendTimeout 21 5 0, Ev.OS_SendUnix 21 "id:009".toList (-1),
        Ev.close 21 0] },
    msg := some "id:009".toList, socket := -1, attempts_made := 2, sends_made := 1 }

/-! # Theorems -/

/-! ## Shape of the state where the lookup and the decryption go on -/

theorem hsm_conflict_cont {K : Consts} {X : Ext} {st : State} {m : message_t} {f0 f : Frame}
    (h : hsm_conflict K X st m f0 = Resolved.cont f) :
    ∃ e, entry_at st.keys f0.agentid = some e ∧ key_in_use e m = false ∧
      f = { f0 with st := { st with trace := st.trace ++
              [Ev.mutex_lock f0.agentid.toNat, Ev.mutex_unlock f0.agentid.toNat] } } := by
  unfold hsm_conflict at h
  cases he : entry_at st.keys f0.agentid with
  | none => simp [he] at h
  | some e =>
    simp only [he] at h
    by_cases hk : key_in_use e m = true
    · simp [hk] at h
    · simp only [hk] at h
      refine ⟨e, rfl, by simpa using hk, ?_⟩
      simp [w_mutex_unlock, w_mutex_lock, emit] at h
      rw [← h]

theorem hsm_lookup_cont {K : Consts} {X : Ext} {st : State} {m : message_t} {f : Frame}
    (h : hsm_lookup K X st m = Resolved.cont f) :
    ∃ e ev, entry_at st.keys f.agentid = some e ∧ key_in_use e m = false ∧
      hsm_srcip K X m = some f.srcip ∧
      (ev = Ev.OS_IsAllowedDynamicID f.id f.srcip ∨ ev = Ev.OS_IsAllowedIP f.srcip) ∧
      f.st = { st with trace := st.trace ++
        [Ev.key_lock_read, ev, Ev.mutex_lock f.agentid.toNat, Ev.mutex_unlock f.agentid.toNat] } := by
  unfold hsm_lookup at h
  cases hs : hsm_srcip K X m with
  | none => simp [hs] at h
  | some srcip =>
    simp only [hs] at h
    split at h
    · unfold hsm_lookup_id at h
      simp only at h
      split at h
      · simp at h
      · split at h
        · simp at h
        · obtain ⟨e, he, hk, hf⟩ := hsm_conflict_cont h
          subst hf
          exact ⟨e, Ev.OS_IsAllowedDynamicID (m.buffer.tail.takeWhile Char.isDigit) srcip,
            by simpa [key_lock_read, emit] using he, hk, rfl, Or.inl rfl,
            by simp [key_lock_read, emit]⟩
    · split at h
      · simp at h
      · unfold hsm_lookup_ip at h
        simp only at h
        split at h
        · simp at h
        · obtain ⟨e, he, hk, hf⟩ := hsm_conflict_cont h
          subst hf
          exact ⟨e, Ev.OS_IsAllowedIP srcip,
            by simpa [key_lock_read, emit] using he, hk, rfl, Or.inr rfl,
            by simp [key_lock_read, emit]⟩

theorem hsm_decrypt_cont {K : Consts} {X : Ext} {m : message_t} {f : Frame} {st1 : State}
    {tmp_msg : List Char} {msg_length : Nat}
    (h : hsm_decrypt K X m f = Decrypted.cont st1 tmp_msg msg_length) :
    0 < f.recv_b ∧
      st1 = { f.st with trace := f.st.trace ++ [Ev.ReadSecMSG f.agentid.toNat] } ∧
      (X.ReadSecMSG f.st.keys f.tmp_msg f.agentid.toNat (f.recv_b - 1) f.srcip).r = K.KS_VALID ∧
      tmp_msg = (X.ReadSecMSG f.st.keys f.tmp_msg f.agentid.toNat (f.recv_b - 1) f.srcip).final_msg
      := by
  unfold hsm_decrypt at h
  split at h
  · simp at h
  · simp only at h
    split at h
    · simp at h
    · rename_i h1 h2
      simp only [Decrypted.cont.injEq] at h
      refine ⟨by omega, ?_, ?_, ?_⟩
      · rw [← h.1]; rfl
      · simpa [emit] using h2
      · rw [← h.2.1]; rfl

/-! ## Control messages -/

theorem strncmp_eq_prefix (s p : List Char) :
    strncmp_eq s p p.length = true ↔ p <+: s := by
  unfold strncmp_eq
  rw [List.prefix_iff_eq_take]
  simp [eq_comm]

theorem let_through_iff (K : Consts) (st : State) (m : message_t) (t : List Char) :
    let_through K st m t = true ↔
      (m.sock = K.USING_UDP_NO_CLIENT_SOCKET ∨ rem_getCounter st m.sock < m.counter ∨
        K.HC_SHUTDOWN <+: t) := by
  unfold let_through
  simp only [Bool.or_eq_true, decide_eq_true_eq, strncmp_eq_prefix, or_assoc]

/-- The state in which the classification of the cleartext starts. -/
theorem front_state {K : Consts} {X : Ext} {st : State} {m : message_t} {f : Frame}
    {st1 : State} {tmp_msg : List Char} {msg_length : Nat}
    (hres : hsm_lookup K X st m = Resolved.cont f)
    (hdec : hsm_decrypt K X m f = Decrypted.cont st1 tmp_msg msg_length) :
    ∃ e ev, entry_at st.keys f.agentid = some e ∧ key_in_use e m = false ∧
      (ev = Ev.OS_IsAllowedDynamicID f.id f.srcip ∨ ev = Ev.OS_IsAllowedIP f.srcip) ∧
      st1 = { st with trace := st.trace ++
        [Ev.key_lock_read, ev, Ev.mutex_lock f.agentid.toNat, Ev.mutex_unlock f.agentid.toNat,
         Ev.ReadSecMSG f.agentid.toNat] } := by
  obtain ⟨e, ev, he, hk, _, hev, hst⟩ := hsm_lookup_cont hres
  obtain ⟨_, h1, _, _⟩ := hsm_decrypt_cont hdec
  refine ⟨e, ev, he, hk, hev, ?_⟩
  rw [h1, hst]
  simp


/-- The accepting branch of `hsm_control`, as one state update. -/
theorem hsm_control_accept {K : Consts} {X : Ext} {st : State} {m : message_t} {a : Int}
    {t : List Char} {n : Nat} {e : keyentry}
    (hc : let_through K st m t = true) (he : entry_at st.keys a = some e) :
    ∃ st', hsm_control K X st m a t n = some st' ∧
      entry_at st'.keys a = some (accepted_entry K X st m e) ∧
      st'.keys.keyentries = st.keys.keyentries.set a.toNat (accepted_entry K X st m e) ∧
      st'.remoted_state =
        { st.remoted_state with recv_ctrl := e.id :: st.remoted_state.recv_ctrl } ∧
      st'.trace = st.trace ++ [Ev.mutex_lock a.toNat, Ev.mutex_unlock a.toNat] ++
        (if protocol_of K m = K.REMOTED_NET_PROTOCOL_TCP ∧ ¬ K.HC_SHUTDOWN <+: t
          then [Ev.OS_AddSocket a.toNat m.sock] else []) ++
        [Ev.key_unlock,
         Ev.save_controlmsg
           { e with net_protocol := protocol_of K m, rcvd := X.time, peer_info := m.addr }
           t (size_t_sub K n 3)] := by
  have hsh : ∀ b : Bool, (strncmp_eq t K.HC_SHUTDOWN K.HC_SHUTDOWN.length = b) →
      (K.HC_SHUTDOWN <+: t ↔ b = true) := by
    intro b hb; rw [← hb, strncmp_eq_prefix]
  have h0 : 0 ≤ a := by
    unfold entry_at at he
    by_contra hneg
    simp [hneg] at he
  have hlt : a.toNat < st.keys.keyentries.length := by
    unfold entry_at at he
    simp only [h0, if_true] at he
    exact (List.getElem?_eq_some.mp he).1
  have hg : ∀ (i : Nat) (x : keyentry),
      rem_getCounter (set_entry (w_mutex_lock st i) i x) m.sock = rem_getCounter st m.sock :=
    fun _ _ => rfl
  unfold hsm_control
  simp only [hc, if_true, he, hg]
  refine ⟨_, rfl, ?_, ?_, ?_, ?_⟩
  · unfold accepted_entry entry_at
    simp only [h0, if_true]
    by_cases hp : protocol_of K m = K.REMOTED_NET_PROTOCOL_TCP <;>
    by_cases hq : rem_getCounter st m.sock < m.counter <;>
    cases hb : strncmp_eq t K.HC_SHUTDOWN K.HC_SHUTDOWN.length <;>
      simp [hp, hq, rem_inc_recv_ctrl, emit, key_unlock, w_mutex_unlock, w_mutex_lock,
        set_entry, OS_AddSocket, hlt]
  · unfold accepted_entry
    by_cases hp : protocol_of K m = K.REMOTED_NET_PROTOCOL_TCP <;>
    by_cases hq : rem_getCounter st m.sock < m.counter <;>
    cases hb : strncmp_eq t K.HC_SHUTDOWN K.HC_SHUTDOWN.length <;>
      simp [hp, hq, rem_inc_recv_ctrl, emit, key_unlock, w_mutex_unlock, w_mutex_lock,
        set_entry, OS_AddSocket, hlt]
  · by_cases hp : protocol_of K m = K.REMOTED_NET_PROTOCOL_TCP <;>
    by_cases hq : rem_getCounter st m.sock < m.counter <;>
    cases hb : strncmp_eq t K.HC_SHUTDOWN K.HC_SHUTDOWN.length <;>
      simp [hp, hq, rem_inc_recv_ctrl, emit, key_unlock, w_mutex_unlock, w_mutex_lock,
        set_entry, OS_AddSocket]
  · by_cases hp : protocol_of K m = K.REMOTED_NET_PROTOCOL_TCP <;>
    by_cases hq : rem_getCounter st m.sock < m.counter <;>
    cases hb : strncmp_eq t K.HC_SHUTDOWN K.HC_SHUTDOWN.length <;>
    have hpre := hsh _ hb <;>
      simp [hp, hq, hpre, rem_inc_recv_ctrl, emit, key_unlock, w_mutex_unlock, w_mutex_lock,
        set_entry, OS_AddSocket]

/-- C1: a decrypted control message is accepted exactly when it came by UDP, or its
counter exceeds the counter stored for its socket, or its text starts with the
shutdown header; a message that is not accepted leaves the key store as it was,
does not reach `save_controlmsg`, and adds one to `recv_dequeued` only. -/
theorem C1_control_accepted_iff (K : Consts) (X : Ext) (st : State) (m : message_t)
    (f : Frame) (st1 : State) (tmp_msg : List Char) (msg_length : Nat) (tmp2 : List Char)
    (hres : hsm_lookup K X st m = Resolved.cont f)
    (hdec : hsm_decrypt K X m f = Decrypted.cont st1 tmp_msg msg_length)
    (hctl : X.IsValidHeader tmp_msg = some tmp2) :
    ∃ st' e, HandleSecureMessage K X st m = some st' ∧ entry_at st.keys f.agentid = some e ∧
      (((∃ e', entry_at st'.keys f.agentid = some e' ∧ e'.net_protocol = protocol_of K m ∧
            e'.rcvd = X.time ∧ e'.peer_info = m.addr) ∧
          n_save_controlmsg st'.trace = n_save_controlmsg st.trace + 1 ∧
          recv_ctrl_of st'.remoted_state e.id = recv_ctrl_of st.remoted_state e.id + 1) ↔
        (m.sock = K.USING_UDP_NO_CLIENT_SOCKET ∨ rem_getCounter st m.sock < m.counter ∨
          K.HC_SHUTDOWN <+: tmp2)) ∧
      (¬ (m.sock = K.USING_UDP_NO_CLIENT_SOCKET ∨ rem_getCounter st m.sock < m.counter ∨
          K.HC_SHUTDOWN <+: tmp2) →
        st'.keys = st.keys ∧ n_save_controlmsg st'.trace = n_save_controlmsg st.trace ∧
        st'.remoted_state =
          { st.remoted_state with recv_dequeued := st.remoted_state.recv_dequeued + 1 }) := by
  obtain ⟨e, ev, he, _, hev, hst1⟩ := front_state hres hdec
  have hlt : let_through K st1 m tmp2 = let_through K st m tmp2 := by
    rw [hst1]; rfl
  have he1 : entry_at st1.keys f.agentid = some e := by rw [hst1]; exact he
  have hfront : ∀ rest : List Ev, n_save_controlmsg (st1.trace ++ rest) =
      n_save_controlmsg st.trace + n_save_controlmsg rest := by
    intro rest
    rw [hst1]
    rcases hev with h | h <;> subst h <;>
      simp [n_save_controlmsg, List.countP_append, List.countP_cons]
  by_cases hc : let_through K st m tmp2 = true
  · have hcond := (let_through_iff K st m tmp2).mp hc
    obtain ⟨st', hst', hent, _, hrs, htr⟩ :=
      hsm_control_accept (X := X) (n := msg_length) (hlt.symm ▸ hc) he1
    refine ⟨st', e, by simp only [HandleSecureMessage, hres, hdec, hctl, hst'], he, ?_,
      fun hn => absurd hcond hn⟩
    refine iff_of_true ⟨⟨_, hent, rfl, rfl, rfl⟩, ?_, ?_⟩ hcond
    · rw [htr, List.append_assoc, List.append_assoc, hfront]
      split_ifs <;> simp [n_save_controlmsg, List.countP_cons]
    · rw [hrs, hst1]
      simp [recv_ctrl_of]
  · have hcond : ¬ _ := fun h => hc ((let_through_iff K st m tmp2).mpr h)
    have hn : n_save_controlmsg (rem_inc_recv_dequeued (key_unlock st1)).trace =
        n_save_controlmsg st.trace := by
      have h1 : (rem_inc_recv_dequeued (key_unlock st1)).trace = st1.trace ++ [Ev.key_unlock] :=
        rfl
      rw [h1, hfront]
      simp [n_save_controlmsg, List.countP_cons]
    refine ⟨_, e, by simp only [HandleSecureMessage, hres, hdec, hctl, hsm_control, hlt, hc]; rfl,
      he, iff_of_false ?_ hcond, fun _ => ⟨?_, hn, ?_⟩⟩
    · rintro ⟨_, h2, _⟩
      omega
    · rw [hst1]; rfl
    · rw [hst1]; rfl

/-- Worked example for C1: the startup message of agent 002 on TCP socket 7, whose counter 6 exceeds the counter 5 stored for the socket. -/
theorem C1_control_accepted_iff_witness :
    hsm_lookup wazuh ext0 st0 msg_startup = Resolved.cont frame_startup ∧
    ∃ st' e, HandleSecureMessage wazuh ext0 st0 msg_startup = some st' ∧
      entry_at st0.keys frame_startup.agentid = some e ∧
      (((∃ e', entry_at st'.keys frame_startup.agentid = some e' ∧
            e'.net_protocol = protocol_of wazuh msg_startup ∧
            e'.rcvd = ext0.time ∧ e'.peer_info = msg_startup.addr) ∧
          n_save_controlmsg st'.trace = n_save_controlmsg st0.trace + 1 ∧
          recv_ctrl_of st'.remoted_state e.id = recv_ctrl_of st0.remoted_state e.id + 1) ↔
        (msg_startup.sock = wazuh.USING_UDP_NO_CLIENT_SOCKET ∨
          rem_getCounter st0 msg_startup.sock < msg_startup.counter ∨
          wazuh.HC_SHUTDOWN <+: "agent startup".toList)) ∧
      (¬ (msg_startup.sock = wazuh.USING_UDP_NO_CLIENT_SOCKET ∨
          rem_getCounter st0 msg_startup.sock < msg_startup.counter ∨
          wazuh.HC_SHUTDOWN <+: "agent startup".toList) →
        st'.keys = st0.keys ∧ n_save_controlmsg st'.trace = n_save_controlmsg st0.trace ∧
        st'.remoted_state =
          { st0.remoted_state with
            recv_dequeued := st0.remoted_state.recv_dequeued + 1 }) :=
  ⟨by rfl,
   C1_control_accepted_iff wazuh ext0 st0 msg_startup frame_startup
    (emit frame_startup.st (Ev.ReadSecMSG 0)) "#!-agent startup".toList 16
    "agent startup".toList (by rfl) (by rfl) (by rfl)⟩

/-- C2: an accepted control message that arrives on a TCP socket and is not the
shutdown header has a counter above the one stored for its socket; afterwards the
entry is bound to that socket with protocol TCP, the current time and the peer
address of the message, `OS_AddSocket` and `save_controlmsg` were each called once
(the latter with the snapshot taken before the socket was assigned), and the
control counter of the agent grew by one while no other counter moved. -/
theorem C2_tcp_control_binds (K : Consts) (X : Ext) (st : State) (m : message_t)
    (f : Frame) (st1 : State) (tmp_msg : List Char) (msg_length : Nat) (tmp2 : List Char)
    (hres : hsm_lookup K X st m = Resolved.cont f)
    (hdec : hsm_decrypt K X m f = Decrypted.cont st1 tmp_msg msg_length)
    (hctl : X.IsValidHeader tmp_msg = some tmp2)
    (htcp : m.sock ≠ K.USING_UDP_NO_CLIENT_SOCKET)
    (hnot : ¬ K.HC_SHUTDOWN <+: tmp2)
    (hacc : m.sock = K.USING_UDP_NO_CLIENT_SOCKET ∨ rem_getCounter st m.sock < m.counter ∨
      K.HC_SHUTDOWN <+: tmp2) :
    ∃ st' e ev, HandleSecureMessage K X st m = some st' ∧
      entry_at st.keys f.agentid = some e ∧
      rem_getCounter st m.sock < m.counter ∧
      entry_at st'.keys f.agentid = some
        { e with sock := m.sock, net_protocol := K.REMOTED_NET_PROTOCOL_TCP, rcvd := X.time,
                 peer_info := m.addr } ∧
      (ev = Ev.OS_IsAllowedDynamicID f.id f.srcip ∨ ev = Ev.OS_IsAllowedIP f.srcip) ∧
      st'.trace = st.trace ++
        [Ev.key_lock_read, ev, Ev.mutex_lock f.agentid.toNat, Ev.mutex_unlock f.agentid.toNat,
         Ev.ReadSecMSG f.agentid.toNat,
         Ev.mutex_lock f.agentid.toNat, Ev.mutex_unlock f.agentid.toNat,
         Ev.OS_AddSocket f.agentid.toNat m.sock, Ev.key_unlock,
         Ev.save_controlmsg
           { e with net_protocol := K.REMOTED_NET_PROTOCOL_TCP, rcvd := X.time,
                    peer_info := m.addr }
           tmp2 (size_t_sub K msg_length 3)] ∧
      recv_ctrl_of st'.remoted_state e.id = recv_ctrl_of st.remoted_state e.id + 1 ∧
      st'.remoted_state =
        { st.remoted_state with recv_ctrl := e.id :: st.remoted_state.recv_ctrl } := by
  obtain ⟨e, ev, he, _, hev, hst1⟩ := front_state hres hdec
  have hgt : rem_getCounter st m.sock < m.counter := by
    rcases hacc with h | h | h
    · exact absurd h htcp
    · exact h
    · exact absurd h hnot
  have hlt : let_through K st1 m tmp2 = true := by
    rw [hst1]; exact (let_through_iff K st m tmp2).mpr hacc
  have he1 : entry_at st1.keys f.agentid = some e := by rw [hst1]; exact he
  have hp : protocol_of K m = K.REMOTED_NET_PROTOCOL_TCP := by
    simp [protocol_of, htcp]
  have hg1 : rem_getCounter st1 m.sock = rem_getCounter st m.sock := by rw [hst1]; rfl
  obtain ⟨st', hst', hent, _, hrs, htr⟩ :=
    hsm_control_accept (X := X) (n := msg_length) hlt he1
  refine ⟨st', e, ev, by simp only [HandleSecureMessage, hres, hdec, hctl, hst'], he, hgt, ?_,
    hev, ?_, ?_, ?_⟩
  · rw [hent]
    simp [accepted_entry, hp, hg1, hgt]
  · rw [htr, hst1]
    simp [hp, hnot]
  · rw [hrs, hst1]
    simp [recv_ctrl_of]
  · rw [hrs, hst1]
/-- Worked example for C2: after the startup message of agent 002 on TCP socket 7 the entry is bound to socket 7. -/
theorem C2_tcp_control_binds_witness :
    ∃ st' e ev, HandleSecureMessage wazuh ext0 st0 msg_startup = some st' ∧
      entry_at st0.keys frame_startup.agentid = some e ∧
      rem_getCounter st0 msg_startup.sock < msg_startup.counter ∧
      entry_at st'.keys frame_startup.agentid = some
        { e with sock := msg_startup.sock, net_protocol := wazuh.REMOTED_NET_PROTOCOL_TCP,
                 rcvd := ext0.time, peer_info := msg_startup.addr } ∧
      (ev = Ev.OS_IsAllowedDynamicID frame_startup.id frame_startup.srcip ∨
        ev = Ev.OS_IsAllowedIP frame_startup.srcip) ∧
      st'.trace = st0.trace ++
        [Ev.key_lock_read, ev, Ev.mutex_lock frame_startup.agentid.toNat,
         Ev.mutex_unlock frame_startup.agentid.toNat,
         Ev.ReadSecMSG frame_startup.agentid.toNat,
         Ev.mutex_lock frame_startup.agentid.toNat, Ev.mutex_unlock frame_startup.agentid.toNat,
         Ev.OS_AddSocket frame_startup.agentid.toNat msg_startup.sock, Ev.key_unlock,
         Ev.save_controlmsg
           { e with net_protocol := wazuh.REMOTED_NET_PROTOCOL_TCP, rcvd := ext0.time,
                    peer_info := msg_startup.addr }
           "agent startup".toList (size_t_sub wazuh 16 3)] ∧
      recv_ctrl_of st'.remoted_state e.id = recv_ctrl_of st0.remoted_state e.id + 1 ∧
      st'.remoted_state =
        { st0.remoted_state with recv_ctrl := e.id :: st0.remoted_state.recv_ctrl } :=
  C2_tcp_control_binds wazuh ext0 st0 msg_startup frame_startup
    (emit frame_startup.st (Ev.ReadSecMSG 0)) "#!-agent startup".toList 16
    "agent startup".toList (by rfl) (by rfl) (by rfl) (by decide) (by decide)
    (Or.inr (Or.inl (by decide)))

/-! ## Socket conflicts -/

theorem entry_at_map (ks ks2 : keystore) (g : keyentry → keyentry)
    (h : ks2.keyentries = ks.keyentries.map g) (a : Int) :
    entry_at ks2 a = (entry_at ks a).map g := by
  unfold entry_at
  split_ifs
  · rw [h, List.getElem?_map]
  · rfl

theorem unbind_entry_ne (K : Consts) (sock : Int) (e : keyentry) (h : e.sock ≠ sock) :
    unbind_entry K sock e = e := by
  unfold unbind_entry
  rw [if_neg h]

/-- What `_close_sock` leaves untouched, and what it adds to the trace. -/
theorem close_sock_frame (K : Consts) (X : Ext) (st : State) (sock : Int) :
    (_close_sock K X st sock).1.keys.keyentries =
      st.keys.keyentries.map (unbind_entry K sock) ∧
    (_close_sock K X st sock).1.key_request_queue = st.key_request_queue ∧
    (_close_sock K X st sock).1.key_request_available = st.key_request_available ∧
    (_close_sock K X st sock).1.global_counter = st.global_counter ∧
    (_close_sock K X st sock).1.m_queue = st.m_queue ∧
    (_close_sock K X st sock).1.remoted_state.recv_unknown = st.remoted_state.recv_unknown ∧
    (_close_sock K X st sock).1.remoted_state.recv_ping = st.remoted_state.recv_ping ∧
    (_close_sock K X st sock).1.remoted_state.recv_dequeued = st.remoted_state.recv_dequeued ∧
    (_close_sock K X st sock).1.remoted_state.recv_ctrl = st.remoted_state.recv_ctrl ∧
    (_close_sock K X st sock).1.remoted_state.recv_evt = st.remoted_state.recv_evt ∧
    ∃ rc, (rc = 0 ∨ rc = -1) ∧ (_close_sock K X st sock).1.trace = st.trace ++
      [Ev.close_sock sock, Ev.key_lock_read, Ev.OS_DeleteSocket sock, Ev.key_unlock,
       Ev.close sock rc] := by
  unfold _close_sock close
  simp only
  split_ifs <;>
    simp [rem_dec_tcp, emit, key_unlock, key_lock_read, OS_DeleteSocket, rem_setCounter] at *

/-- The socket conflict test when the key is in use (lines 515-527, 570-582). -/
theorem hsm_conflict_in_use {K : Consts} {X : Ext} {st : State} {m : message_t} {f : Frame} {e : keyentry}
    (he : entry_at st.keys f.agentid = some e) (hk : key_in_use e m = true) :
    hsm_conflict K X st m f = Resolved.done (rem_inc_recv_unknown (close_message_sock K X
      { st with trace := st.trace ++
          [Ev.mutex_lock f.agentid.toNat, Ev.mutex_unlock f.agentid.toNat, Ev.key_unlock] }
      m)) := by
  unfold hsm_conflict
  simp [he, hk, key_unlock, w_mutex_unlock, w_mutex_lock, emit]

/-- The lookup of a message that resolves to an entry, up to the conflict test. -/
theorem hsm_lookup_resolved {K : Consts} {X : Ext} {st : State} {m : message_t} {a : Int}
    (h : resolves_to K X st m a) :
    ∃ ev f, is_lookup ev = true ∧ f.agentid = a ∧
      f.st = { st with trace := st.trace ++ [Ev.key_lock_read, ev] } ∧
      hsm_lookup K X st m = hsm_conflict K X f.st m f ∧
      (m.buffer.head? = some '!' → f.recv_b =
        (m.size : Int) - ((m.buffer.tail.takeWhile Char.isDigit).length : Int) - 2) := by
  obtain ⟨srcip, hs, h | h⟩ := h
  · obtain ⟨h1, h2, h3, h4⟩ := h
    refine ⟨Ev.OS_IsAllowedDynamicID (m.buffer.tail.takeWhile Char.isDigit) srcip,
      { st := { st with trace := st.trace ++ [Ev.key_lock_read,
            Ev.OS_IsAllowedDynamicID (m.buffer.tail.takeWhile Char.isDigit) srcip] },
        srcip := srcip, agentid := a, id := m.buffer.tail.takeWhile Char.isDigit,
        tmp_msg := (m.buffer.tail.dropWhile Char.isDigit).tail,
        recv_b := (m.size : Int) - ((m.buffer.tail.takeWhile Char.isDigit).length : Int) - 2,
        ip_found := false }, rfl, rfl, rfl, ?_, fun _ => rfl⟩
    unfold hsm_lookup
    simp only [hs, h1, if_true]
    unfold hsm_lookup_id
    have h3' : X.OS_IsAllowedDynamicID
        (emit (key_lock_read st) (Ev.OS_IsAllowedDynamicID
          (m.buffer.tail.takeWhile Char.isDigit) srcip)).keys
        (m.buffer.tail.takeWhile Char.isDigit) srcip = a := h3
    simp only [h2, ne_eq, not_true_eq_false, if_false, h3', h4]
    simp [key_lock_read, emit]
  · obtain ⟨h1, h2, h3, h4⟩ := h
    refine ⟨Ev.OS_IsAllowedIP srcip,
      { st := { st with trace := st.trace ++ [Ev.key_lock_read, Ev.OS_IsAllowedIP srcip] },
        srcip := srcip, agentid := a, id := m.buffer.tail,
        tmp_msg := m.buffer, recv_b := (m.size : Int), ip_found := true }, rfl, rfl, rfl, ?_,
      fun hc => absurd hc h1⟩
    unfold hsm_lookup
    simp only [hs, h1, if_false, h2]
    unfold hsm_lookup_ip
    have h3' : X.OS_IsAllowedIP (emit (key_lock_read st) (Ev.OS_IsAllowedIP srcip)).keys srcip
        = a := h3
    simp only [h3', not_lt.mpr h4, if_false]
    simp [key_lock_read, emit]

/-- C3: a message that resolves to an entry bound to socket `s >= 0` and arrives on
another TCP socket `s2 >= 0` is dropped before decryption, whatever its counter:
the handler closes `s2` through `_close_sock`, which detaches `s2` from the entries
bound to it and leaves every other entry of the store as it was (so the entry stays
bound to `s`), sends nothing downstream, and counts the message under
`recv_unknown`. -/
theorem C3_collision_keeps_binding (K : Consts) (X : Ext) (st : State) (m : message_t)
    (a : Int) (e : keyentry) (s : Int)
    (hres : resolves_to K X st m a) (he : entry_at st.keys a = some e)
    (hs : e.sock = s) (hs0 : 0 ≤ s) (hm0 : 0 ≤ m.sock) (hne : m.sock ≠ s) :
    ∃ st' ev rc, HandleSecureMessage K X st m = some st' ∧ is_lookup ev = true ∧
      st'.trace = st.trace ++
        [Ev.key_lock_read, ev, Ev.mutex_lock a.toNat, Ev.mutex_unlock a.toNat, Ev.key_unlock,
         Ev.close_sock m.sock, Ev.key_lock_read, Ev.OS_DeleteSocket m.sock, Ev.key_unlock,
         Ev.close m.sock rc] ∧
      st'.keys.keyentries = st.keys.keyentries.map (unbind_entry K m.sock) ∧
      entry_at st'.keys a = some e ∧
      st'.remoted_state.recv_unknown = st.remoted_state.recv_unknown + 1 ∧
      st'.remoted_state.recv_ctrl = st.remoted_state.recv_ctrl ∧
      st'.remoted_state.recv_evt = st.remoted_state.recv_evt := by
  obtain ⟨ev, f, hev, hfa, hfst, hl, _⟩ := hsm_lookup_resolved hres
  have he' : entry_at f.st.keys f.agentid = some e := by rw [hfst, hfa]; exact he
  have hk : key_in_use e m = true := by
    simp [key_in_use, hs, hs0, Ne.symm hne]
  rw [hsm_conflict_in_use he' hk] at hl
  obtain ⟨c1, _, _, _, _, c6, _, _, c9, c10, rc, _, ctr⟩ := close_sock_frame K X
    { f.st with trace := f.st.trace ++
        [Ev.mutex_lock f.agentid.toNat, Ev.mutex_unlock f.agentid.toNat, Ev.key_unlock] } m.sock
  have hkeys : (rem_inc_recv_unknown (close_message_sock K X
      { f.st with trace := f.st.trace ++
          [Ev.mutex_lock f.agentid.toNat, Ev.mutex_unlock f.agentid.toNat, Ev.key_unlock] }
      m)).keys.keyentries = st.keys.keyentries.map (unbind_entry K m.sock) := by
    simp only [close_message_sock, hm0, if_true, rem_inc_recv_unknown, c1]
    rw [hfst]
  refine ⟨_, ev, rc, by unfold HandleSecureMessage; rw [hl], hev, ?_, hkeys, ?_, ?_, ?_, ?_⟩
  · simp only [close_message_sock, hm0, if_true, rem_inc_recv_unknown, ctr]
    rw [hfst, hfa]; simp
  · rw [entry_at_map st.keys _ _ hkeys a, he, Option.map_some',
      unbind_entry_ne K m.sock e (by rw [hs]; exact fun h => hne h.symm)]
  · simp only [close_message_sock, hm0, if_true, rem_inc_recv_unknown, c6]
    rw [hfst]
  · simp only [close_message_sock, hm0, if_true, rem_inc_recv_unknown, c9]
    rw [hfst]
  · simp only [close_message_sock, hm0, if_true, rem_inc_recv_unknown, c10]
    rw [hfst]
/-- Worked example for C3: agent 003 is bound to socket 10 and a message for it arrives on socket 11. -/
theorem C3_collision_keeps_binding_witness :
    ∃ st' ev rc, HandleSecureMessage wazuh ext0 st0 msg_collision = some st' ∧
      is_lookup ev = true ∧
      st'.trace = st0.trace ++
        [Ev.key_lock_read, ev, Ev.mutex_lock (1 : Int).toNat, Ev.mutex_unlock (1 : Int).toNat,
         Ev.key_unlock, Ev.close_sock msg_collision.sock, Ev.key_lock_read,
         Ev.OS_DeleteSocket msg_collision.sock, Ev.key_unlock,
         Ev.close msg_collision.sock rc] ∧
      st'.keys.keyentries = st0.keys.keyentries.map (unbind_entry wazuh msg_collision.sock) ∧
      entry_at st'.keys 1 = some agent003 ∧
      st'.remoted_state.recv_unknown = st0.remoted_state.recv_unknown + 1 ∧
      st'.remoted_state.recv_ctrl = st0.remoted_state.recv_ctrl ∧
      st'.remoted_state.recv_evt = st0.remoted_state.recv_evt :=
  C3_collision_keeps_binding wazuh ext0 st0 msg_collision 1 agent003 10
    ⟨"10.0.0.6".toList, by rfl, Or.inl ⟨by rfl, by rfl, by rfl, by decide⟩⟩
    (by rfl) (by rfl) (by decide) (by decide) (by decide)

/-- C4 as stated fails: a UDP datagram (socket -1) for agent 003, whose entry is
bound to TCP socket 10, takes the "Agent key already in use" branch; the handler
returns without decrypting, having counted the message under `recv_unknown`. -/
theorem C4_udp_to_bound_entry_counterexample :
    msg_udp003.sock = wazuh.USING_UDP_NO_CLIENT_SOCKET ∧ msg_udp003.sock < 0 ∧
    resolves_to wazuh ext0 st0 msg_udp003 1 ∧ entry_at st0.keys 1 = some agent003 ∧
    key_in_use agent003 msg_udp003 = true ∧
    (HandleSecureMessage wazuh ext0 st0 msg_udp003).map
        (fun s => (s.trace, s.remoted_state.recv_unknown)) =
      some ([Ev.key_lock_read, Ev.OS_IsAllowedDynamicID "003".toList "10.0.0.6".toList,
             Ev.mutex_lock 1, Ev.mutex_unlock 1, Ev.key_unlock], 1) :=
  ⟨by rfl, by decide,
   ⟨"10.0.0.6".toList, by rfl, Or.inl ⟨by rfl, by rfl, by rfl, by decide⟩⟩,
   by rfl, by rfl, by rfl⟩

/-- C4, amended: for a message that resolves to an entry, the "Agent key already in
use" branch is taken exactly when the entry's socket is nonnegative and differs
from `message.sock`; otherwise the handler goes on towards the decryption. A message
with a negative socket (UDP) is therefore rejected, with nothing closed, whenever
the entry is bound to a socket. -/
theorem C4_key_in_use_iff (K : Consts) (X : Ext) (st : State) (m : message_t)
    (a : Int) (e : keyentry)
    (hres : resolves_to K X st m a) (he : entry_at st.keys a = some e) :
    ((0 ≤ e.sock ∧ e.sock ≠ m.sock) ↔
      ∃ ev, is_lookup ev = true ∧
        hsm_lookup K X st m = Resolved.done (key_in_use_exit K X st m ev a.toNat)) ∧
    (¬ (0 ≤ e.sock ∧ e.sock ≠ m.sock) ↔
      ∃ f, hsm_lookup K X st m = Resolved.cont f ∧ f.agentid = a) ∧
    (m.sock < 0 → 0 ≤ e.sock →
      ∃ ev, is_lookup ev = true ∧
        HandleSecureMessage K X st m = some (rem_inc_recv_unknown
          { st with trace := st.trace ++
              [Ev.key_lock_read, ev, Ev.mutex_lock a.toNat, Ev.mutex_unlock a.toNat,
               Ev.key_unlock] })) := by
  obtain ⟨ev, f, hev, hfa, hfst, hl, _⟩ := hsm_lookup_resolved hres
  have he' : entry_at f.st.keys f.agentid = some e := by rw [hfst, hfa]; exact he
  by_cases hc : 0 ≤ e.sock ∧ e.sock ≠ m.sock
  · have hk : key_in_use e m = true := by simp [key_in_use, hc.1, hc.2]
    have hdone : hsm_lookup K X st m = Resolved.done (key_in_use_exit K X st m ev a.toNat) := by
      rw [hl, hsm_conflict_in_use he' hk, hfst, hfa]
      simp [key_in_use_exit]
    refine ⟨iff_of_true hc ⟨ev, hev, hdone⟩, iff_of_false (not_not.mpr hc) ?_,
      fun hneg _ => ?_⟩
    · rintro ⟨f2, h2, _⟩
      rw [hdone] at h2
      exact Resolved.noConfusion h2
    · refine ⟨ev, hev, ?_⟩
      unfold HandleSecureMessage
      rw [hdone]
      simp [key_in_use_exit, close_message_sock, not_le.mpr hneg]
  · have hk : key_in_use e m = false := by
      simp only [key_in_use, Bool.and_eq_false_iff, decide_eq_false_iff_not]
      by_cases h0 : 0 ≤ e.sock
      · exact Or.inr (fun h => hc ⟨h0, h⟩)
      · exact Or.inl h0
    have hcont : hsm_lookup K X st m = Resolved.cont
        { f with st := w_mutex_unlock (w_mutex_lock f.st f.agentid.toNat) f.agentid.toNat } := by
      rw [hl]
      unfold hsm_conflict
      simp [he', hk]
    refine ⟨iff_of_false hc ?_, iff_of_true hc ⟨_, hcont, hfa⟩, fun hneg h0 => ?_⟩
    · rintro ⟨ev2, _, h2⟩
      rw [hcont] at h2
      exact Resolved.noConfusion h2
    · exact absurd ⟨h0, fun h => by omega⟩ hc

/-- Worked example for C4: a UDP datagram for agent 003, bound to socket 10, is rejected as key in use. -/
theorem C4_key_in_use_iff_witness :
    ((0 ≤ agent003.sock ∧ agent003.sock ≠ msg_udp003.sock) ↔
      ∃ ev, is_lookup ev = true ∧
        hsm_lookup wazuh ext0 st0 msg_udp003 =
          Resolved.done (key_in_use_exit wazuh ext0 st0 msg_udp003 ev (1 : Int).toNat)) ∧
    (¬ (0 ≤ agent003.sock ∧ agent003.sock ≠ msg_udp003.sock) ↔
      ∃ f, hsm_lookup wazuh ext0 st0 msg_udp003 = Resolved.cont f ∧ f.agentid = 1) ∧
    (∃ ev, is_lookup ev = true ∧
      HandleSecureMessage wazuh ext0 st0 msg_udp003 = some (rem_inc_recv_unknown
        { st0 with trace := st0.trace ++
            [Ev.key_lock_read, ev, Ev.mutex_lock (1 : Int).toNat,
             Ev.mutex_unlock (1 : Int).toNat, Ev.key_unlock] })) :=
  have h := C4_key_in_use_iff wazuh ext0 st0 msg_udp003 1 agent003
    ⟨"10.0.0.6".toList, by rfl, Or.inl ⟨by rfl, by rfl, by rfl, by decide⟩⟩ (by rfl)
  ⟨h.1, h.2.1, h.2.2 (by decide) (by decide)⟩

/-! ## Address family, ping -/

theorem hsm_srcip_supported {K : Consts} (X : Ext) {m : message_t}
    (h : m.addr.ss_family = K.AF_INET ∨ m.addr.ss_family = K.AF_INET6) :
    ∃ srcip, hsm_srcip K X m = some srcip := by
  unfold hsm_srcip
  split_ifs with h1 h2
  · exact ⟨_, rfl⟩
  · exact ⟨_, rfl⟩
  · exact absurd h (not_or.mpr ⟨h1, h2⟩)

theorem hsm_srcip_unsupported {K : Consts} (X : Ext) {m : message_t}
    (h : ¬ (m.addr.ss_family = K.AF_INET ∨ m.addr.ss_family = K.AF_INET6)) :
    hsm_srcip K X m = none := by
  unfold hsm_srcip
  simp only [not_or] at h
  simp [h.1, h.2]

/-- C5 as stated fails: a `#ping` whose peer address is neither IPv4 nor IPv6 gets no
reply; the handler returns at the address-family switch, leaves `recv_ping` as it
was and adds one to `recv_unknown`. -/
theorem C5_ping_unsupported_family_counterexample :
    "#ping".toList <+: msg_ping_unix.buffer ∧
    HandleSecureMessage wazuh ext0 st0 msg_ping_unix =
      some { st0 with remoted_state :=
        { st0.remoted_state with recv_unknown := st0.remoted_state.recv_unknown + 1 } } ∧
    (HandleSecureMessage wazuh ext0 st0 msg_ping_unix).map
        (fun s => (s.trace, s.remoted_state.recv_ping, s.remoted_state.recv_unknown)) =
      some ([], 0, 1) :=
  ⟨by decide, by rfl, by rfl⟩

/-- C5, amended: a message from an IPv4 or IPv6 peer whose payload begins with
`#ping` makes exactly one outside call, the `#pong` reply on its own transport, and
adds one to `recv_ping` whatever the send returned; nothing else in the state
changes (no lock, no lookup, no close, no other counter). A `#ping` of any other
address family is only counted under `recv_unknown`. -/
theorem C5_ping_pong (K : Consts) (X : Ext) (st : State) (m : message_t)
    (hK : K.REMOTED_NET_PROTOCOL_TCP ≠ K.REMOTED_NET_PROTOCOL_UDP)
    (hping : ['#', 'p', 'i', 'n', 'g'] <+: m.buffer) :
    (m.addr.ss_family = K.AF_INET ∨ m.addr.ss_family = K.AF_INET6 →
      HandleSecureMessage K X st m =
        some { st with
          trace := st.trace ++ [pong_call K X m],
          remoted_state :=
            { st.remoted_state with recv_ping := st.remoted_state.recv_ping + 1 } }) ∧
    (¬ (m.addr.ss_family = K.AF_INET ∨ m.addr.ss_family = K.AF_INET6) →
      HandleSecureMessage K X st m =
        some { st with remoted_state :=
          { st.remoted_state with
            recv_unknown := st.remoted_state.recv_unknown + 1 } }) := by
  obtain ⟨rest, hb⟩ := hping
  have hhead : m.buffer.head? = some '#' := by rw [← hb]; rfl
  have hcmp : strncmp_eq m.buffer ['#', 'p', 'i', 'n', 'g'] 5 = true := by
    rw [← hb]; simp [strncmp_eq]
  constructor
  · intro hfam
    obtain ⟨srcip, hs⟩ := hsm_srcip_supported X hfam
    unfold HandleSecureMessage hsm_lookup
    simp only [hs, hhead, hcmp]
    by_cases hu : m.sock = K.USING_UDP_NO_CLIENT_SOCKET
    · simp [hsm_ping, pong_call, protocol_of, hu, rem_inc_recv_ping, emit]
    · simp [hsm_ping, pong_call, protocol_of, hu, hK, rem_inc_recv_ping, emit]
  · intro hfam
    have hs := hsm_srcip_unsupported X hfam
    unfold HandleSecureMessage hsm_lookup
    simp [hs, rem_inc_recv_unknown]

/-- Worked example for C5: a ping on TCP socket 7 from 10.0.0.5. -/
theorem C5_ping_pong_witness :
    HandleSecureMessage wazuh ext0 st0 msg_ping =
      some { st0 with
        trace := st0.trace ++ [Ev.OS_SendSecureTCP 7 "#pong".toList 0],
        remoted_state :=
          { st0.remoted_state with recv_ping := st0.remoted_state.recv_ping + 1 } } :=
  (C5_ping_pong wazuh ext0 st0 msg_ping (by decide) (by decide)).1 (Or.inl (by decide))

/-! ## Event messages -/

/-- Lines 681-712 as one state update. -/
theorem hsm_event_spec {K : Consts} {X : Ext} {st : State} {a : Int} {t : List Char}
    {e : keyentry} (he : entry_at st.keys a = some e) :
    ∃ st', hsm_event K X st a t = some st' ∧
      st'.trace = st.trace ++
        [Ev.key_unlock,
         Ev.SendMSG st.m_queue t ((srcmsg_text e).take (K.OS_FLSIZE - 1)) K.SECURE_MQ
           (X.SendMSG 0)] ++
        (if X.SendMSG 0 < 0 then
          [Ev.StartMQ,
           Ev.SendMSG X.StartMQ t ((srcmsg_text e).take (K.OS_FLSIZE - 1)) K.SECURE_MQ
             (X.SendMSG 1)]
         else []) ∧
      st'.remoted_state =
        (if 0 ≤ X.SendMSG 0 ∨ 0 ≤ X.SendMSG 1 then
          { st.remoted_state with recv_evt := e.id :: st.remoted_state.recv_evt }
         else st.remoted_state) ∧
      st'.keys = st.keys := by
  unfold hsm_event
  simp only [he]
  split_ifs with h0 h1 <;> refine ⟨_, rfl, ?_⟩ <;>
    simp [h0, snprintf, rem_inc_recv_evt, emit, key_unlock] <;> omega

/-- C6: a decrypted message that is not a control message is submitted to the bus
with the tag `[id] (name) ip` cut to `OS_FLSIZE - 1` characters and the `SECURE_MQ`
discriminator. One `SendMSG` is made; a second one, after `StartMQ`, is made exactly
when the first failed. At most one of them succeeds, and the event counter of the
agent grows by one exactly when one did; no other counter moves. -/
theorem C6_event_delivery (K : Consts) (X : Ext) (st : State) (m : message_t)
    (f : Frame) (st1 : State) (tmp_msg : List Char) (msg_length : Nat)
    (hres : hsm_lookup K X st m = Resolved.cont f)
    (hdec : hsm_decrypt K X m f = Decrypted.cont st1 tmp_msg msg_length)
    (hctl : X.IsValidHeader tmp_msg = none) :
    ∃ st' e ev srcmsg, HandleSecureMessage K X st m = some st' ∧
      entry_at st.keys f.agentid = some e ∧
      (ev = Ev.OS_IsAllowedDynamicID f.id f.srcip ∨ ev = Ev.OS_IsAllowedIP f.srcip) ∧
      srcmsg = (('[' :: e.id ++ ']' :: ' ' :: '(' :: e.name ++ ')' :: ' ' :: e.ip).take
        (K.OS_FLSIZE - 1)) ∧
      srcmsg.length ≤ K.OS_FLSIZE - 1 ∧
      st'.trace = st.trace ++
        [Ev.key_lock_read, ev, Ev.mutex_lock f.agentid.toNat, Ev.mutex_unlock f.agentid.toNat,
         Ev.ReadSecMSG f.agentid.toNat, Ev.key_unlock,
         Ev.SendMSG st.m_queue tmp_msg srcmsg K.SECURE_MQ (X.SendMSG 0)] ++
        (if X.SendMSG 0 < 0 then
          [Ev.StartMQ, Ev.SendMSG X.StartMQ tmp_msg srcmsg K.SECURE_MQ (X.SendMSG 1)]
         else []) ∧
      n_SendMSG_ok st'.trace = n_SendMSG_ok st.trace +
        (if 0 ≤ X.SendMSG 0 ∨ 0 ≤ X.SendMSG 1 then 1 else 0) ∧
      st'.remoted_state =
        (if 0 ≤ X.SendMSG 0 ∨ 0 ≤ X.SendMSG 1 then
          { st.remoted_state with recv_evt := e.id :: st.remoted_state.recv_evt }
         else st.remoted_state) ∧
      recv_evt_of st'.remoted_state e.id = recv_evt_of st.remoted_state e.id +
        (if 0 ≤ X.SendMSG 0 ∨ 0 ≤ X.SendMSG 1 then 1 else 0) ∧
      st'.keys = st.keys := by
  obtain ⟨e, ev, he, _, hev, hst1⟩ := front_state hres hdec
  have he1 : entry_at st1.keys f.agentid = some e := by rw [hst1]; exact he
  obtain ⟨st', hst', htr, hrs, hk⟩ := hsm_event_spec (K := K) (X := X) (t := tmp_msg) he1
  have htr' : st'.trace = st.trace ++
        [Ev.key_lock_read, ev, Ev.mutex_lock f.agentid.toNat, Ev.mutex_unlock f.agentid.toNat,
         Ev.ReadSecMSG f.agentid.toNat, Ev.key_unlock,
         Ev.SendMSG st.m_queue tmp_msg ((srcmsg_text e).take (K.OS_FLSIZE - 1)) K.SECURE_MQ
           (X.SendMSG 0)] ++
        (if X.SendMSG 0 < 0 then
          [Ev.StartMQ, Ev.SendMSG X.StartMQ tmp_msg ((srcmsg_text e).take (K.OS_FLSIZE - 1))
            K.SECURE_MQ (X.SendMSG 1)]
         else []) := by
    rw [htr, hst1]; simp
  have hrs' : st'.remoted_state =
        (if 0 ≤ X.SendMSG 0 ∨ 0 ≤ X.SendMSG 1 then
          { st.remoted_state with recv_evt := e.id :: st.remoted_state.recv_evt }
         else st.remoted_state) := by
    rw [hrs, hst1]
  refine ⟨st', e, ev, _, by simp only [HandleSecureMessage, hres, hdec, hctl, hst'],
    he, hev, rfl, by simp, htr', ?_, hrs', ?_, by rw [hk, hst1]⟩
  · rw [htr']
    by_cases h0 : X.SendMSG 0 < 0 <;> by_cases h1 : X.SendMSG 1 < 0 <;>
      rcases hev with h | h <;> subst h <;>
      simp [h0, h1, not_lt.mp, le_of_not_lt, n_SendMSG_ok, List.countP_append,
        List.countP_cons]
  · rw [hrs']
    split_ifs <;> simp [recv_evt_of]

/-- Worked example for C6: an event of agent 002 on TCP socket 7, delivered by the first `SendMSG`. -/
theorem C6_event_delivery_witness :
    ∃ st' e ev srcmsg, HandleSecureMessage wazuh ext0 st0 msg_event = some st' ∧
      entry_at st0.keys frame_event.agentid = some e ∧
      (ev = Ev.OS_IsAllowedDynamicID frame_event.id frame_event.srcip ∨
        ev = Ev.OS_IsAllowedIP frame_event.srcip) ∧
      srcmsg = (('[' :: e.id ++ ']' :: ' ' :: '(' :: e.name ++ ')' :: ' ' :: e.ip).take
        (wazuh.OS_FLSIZE - 1)) ∧
      srcmsg.length ≤ wazuh.OS_FLSIZE - 1 ∧
      st'.trace = st0.trace ++
        [Ev.key_lock_read, ev, Ev.mutex_lock frame_event.agentid.toNat,
         Ev.mutex_unlock frame_event.agentid.toNat,
         Ev.ReadSecMSG frame_event.agentid.toNat, Ev.key_unlock,
         Ev.SendMSG st0.m_queue "1:some event".toList srcmsg wazuh.SECURE_MQ
           (ext0.SendMSG 0)] ++
        (if ext0.SendMSG 0 < 0 then
          [Ev.StartMQ, Ev.SendMSG ext0.StartMQ "1:some event".toList srcmsg wazuh.SECURE_MQ
            (ext0.SendMSG 1)]
         else []) ∧
      n_SendMSG_ok st'.trace = n_SendMSG_ok st0.trace +
        (if 0 ≤ ext0.SendMSG 0 ∨ 0 ≤ ext0.SendMSG 1 then 1 else 0) ∧
      st'.remoted_state =
        (if 0 ≤ ext0.SendMSG 0 ∨ 0 ≤ ext0.SendMSG 1 then
          { st0.remoted_state with recv_evt := e.id :: st0.remoted_state.recv_evt }
         else st0.remoted_state) ∧
      recv_evt_of st'.remoted_state e.id = recv_evt_of st0.remoted_state e.id +
        (if 0 ≤ ext0.SendMSG 0 ∨ 0 ≤ ext0.SendMSG 1 then 1 else 0) ∧
      st'.keys = st0.keys :=
  C6_event_delivery wazuh ext0 st0 msg_event frame_event
    (emit frame_event.st (Ev.ReadSecMSG 0)) "1:some event".toList 12
    (by rfl) (by rfl) (by rfl)

/-! ## Unknown endpoints and key requests -/

theorem takeWhile_digits (ds rest : List Char) (hd : ∀ c ∈ ds, c.isDigit = true) :
    (ds ++ '!' :: rest).takeWhile Char.isDigit = ds := by
  induction ds with
  | nil => rfl
  | cons c cs ih =>
    have hc : c.isDigit = true := hd c (List.mem_cons_self _ _)
    simp only [List.cons_append, List.takeWhile_cons, hc, if_true]
    rw [ih (fun x hx => hd x (List.mem_cons_of_mem _ hx))]

theorem dropWhile_digits (ds rest : List Char) (hd : ∀ c ∈ ds, c.isDigit = true) :
    (ds ++ '!' :: rest).dropWhile Char.isDigit = '!' :: rest := by
  induction ds with
  | nil => rfl
  | cons c cs ih =>
    have hc : c.isDigit = true := hd c (List.mem_cons_self _ _)
    simp only [List.cons_append, List.dropWhile_cons, hc, if_true]
    exact ih (fun x hx => hd x (List.mem_cons_of_mem _ hx))

/-- The handler on a message whose lookup finds no entry. -/
theorem hsm_unknown_endpoint {K : Consts} {X : Ext} {st : State} {m : message_t}
    {type request : List Char} (h : unknown_endpoint K X st m type request) :
    ∃ ev, is_lookup ev = true ∧
      HandleSecureMessage K X st m = some (unknown_exit K X st m ev type request) := by
  obtain ⟨srcip, hs, h | h⟩ := h
  · obtain ⟨h1, h2, h3, h4, h5⟩ := h
    subst h4 h5
    refine ⟨Ev.OS_IsAllowedDynamicID (m.buffer.tail.takeWhile Char.isDigit) srcip, rfl, ?_⟩
    have h3' : X.OS_IsAllowedDynamicID
        (emit (key_lock_read st) (Ev.OS_IsAllowedDynamicID
          (m.buffer.tail.takeWhile Char.isDigit) srcip)).keys
        (m.buffer.tail.takeWhile Char.isDigit) srcip = -1 := h3
    unfold HandleSecureMessage hsm_lookup
    simp only [hs, h1, if_true]
    unfold hsm_lookup_id
    simp only [h2, ne_eq, not_true_eq_false, if_false, h3', if_true]
    simp [unknown_exit, key_lock_read, key_unlock, emit]
  · obtain ⟨h1, h2, h3, h4, h5⟩ := h
    subst h4 h5
    refine ⟨Ev.OS_IsAllowedIP request, rfl, ?_⟩
    have h3' : X.OS_IsAllowedIP (emit (key_lock_read st) (Ev.OS_IsAllowedIP request)).keys
        request < 0 := h3
    unfold HandleSecureMessage hsm_lookup
    simp only [hs, h1, if_false, h2]
    unfold hsm_lookup_ip
    simp only [h3', if_true]
    simp [unknown_exit, key_lock_read, key_unlock, emit]


theorem replicate_seven_digits (n : Nat) : ∀ c ∈ List.replicate n '7', c.isDigit = true := by
  intro c hc
  rw [List.eq_of_mem_replicate hc]
  decide

/-- A message `!7...7!` with more than three digits has an id unknown to `ext0`. -/
theorem long_id_unknown (n : Nat) (hn : 3 < n) :
    unknown_endpoint wazuh ext0 st0 (msg_long_id n) ['i', 'd'] (List.replicate n '7') := by
  have hd := replicate_seven_digits n
  have htail : (msg_long_id n).buffer.tail = List.replicate n '7' ++ '!' :: [] := rfl
  have hne : ∀ s : List Char, s.length = 3 → List.replicate n '7' ≠ s := by
    intro s hs h
    have h1 := congrArg List.length h
    rw [List.length_replicate, hs] at h1
    omega
  have hne2 : List.replicate n '7' ≠ "002".toList := hne _ rfl
  have hne3 : List.replicate n '7' ≠ "003".toList := hne _ rfl
  refine ⟨"192.168.9.9".toList, by rfl, Or.inl ⟨by rfl, ?_, ?_, rfl, ?_⟩⟩
  · rw [htail, dropWhile_digits _ _ hd]; rfl
  · rw [htail, takeWhile_digits _ _ hd]
    simp only [ext0, hne2, hne3, if_false]
  · rw [htail, takeWhile_digits _ _ hd]

/-- The key request that `msg_long_id n` leaves in the queue of `st0`. -/
theorem long_id_request (n : Nat) (hn : 3 < n) :
    ∃ st', HandleSecureMessage wazuh ext0 st0 (msg_long_id n) = some st' ∧
      st'.key_request_queue.data =
        [('i' :: 'd' :: ':' :: List.replicate n '7').take (wazuh.OS_MAXSTR - 1)] := by
  obtain ⟨ev, _, hH⟩ := hsm_unknown_endpoint (long_id_unknown n hn)
  refine ⟨_, hH, ?_⟩
  have hc := (close_sock_frame wazuh ext0 (push_request wazuh
    { st0 with trace := st0.trace ++ [Ev.key_lock_read, ev, Ev.key_unlock] }
    (List.replicate n '7') ['i', 'd']) 7).2.1
  have hm : (msg_long_id n).sock = 7 := rfl
  simp only [unknown_exit, close_message_sock, hm, rem_inc_recv_unknown]
  rw [if_pos (by decide), hc]
  rfl

theorem take_three_replicate (a b c x : Char) (n k : Nat) :
    (a :: b :: c :: List.replicate n x).take (k + 3) = a :: b :: c :: List.replicate (min k n) x := by
  rw [show k + 3 = k + 1 + 1 + 1 from rfl, List.take_succ_cons, List.take_succ_cons,
    List.take_succ_cons, List.take_replicate]

theorem cons3_length (a b c x : Char) (n : Nat) :
    (a :: b :: c :: List.replicate n x).length = n + 3 := by
  simp

theorem long_id_size (n : Nat) : (msg_long_id n).size = n + 2 := by
  simp [message_t.size, msg_long_id]

/-- C7 as stated fails: for a message of 65535 bytes, `!` followed by 65533 digits and
`!`, whose id is not allowed, the request that is pushed is not `id:` followed by
the digit string: `_push_request` formats it with `snprintf(msg, OS_MAXSTR, ...)`,
which keeps 65535 characters of the 65536. -/
theorem C7_long_id_request_cut_counterexample :
    (msg_long_id 65533).size ≤ wazuh.OS_MAXSTR ∧
    unknown_endpoint wazuh ext0 st0 (msg_long_id 65533) ['i', 'd'] (List.replicate 65533 '7') ∧
    st0.key_request_available = true ∧ queue_full st0.key_request_queue = false ∧
    ∃ st', HandleSecureMessage wazuh ext0 st0 (msg_long_id 65533) = some st' ∧
      st'.key_request_queue.data = ['i' :: 'd' :: ':' :: List.replicate 65532 '7'] ∧
      ('i' :: 'd' :: ':' :: List.replicate 65533 '7') ∉ st'.key_request_queue.data := by
  obtain ⟨st', hH, hq⟩ := long_id_request 65533 (by decide)
  have hk : wazuh.OS_MAXSTR - 1 = 65532 + 3 := by decide
  have hmin : min 65532 65533 = 65532 := by decide
  rw [hk, take_three_replicate, hmin] at hq
  refine ⟨?_, long_id_unknown 65533 (by decide), rfl, rfl, st', hH, hq, ?_⟩
  · rw [long_id_size]; decide
  · rw [hq]
    intro hmem
    have h1 := congrArg List.length (List.eq_of_mem_singleton hmem)
    rw [cons3_length, cons3_length] at h1
    omega

/-- C7, amended: when the lookup of a message from an IPv4 or IPv6 peer finds no
entry, the handler releases the read-lock, then (if the channel is marked available
and the queue has room) pushes exactly one key request, `id:<digits>` or
`ip:<source ip>` cut to `OS_MAXSTR - 1` characters, then closes the socket if
`message.sock >= 0`, and adds one to `recv_unknown` only; nothing is sent
downstream. The request is the uncut text whenever that is shorter than
`OS_MAXSTR`. When the channel is not marked available the queue is left as it was. -/
theorem C7_unknown_endpoint_key_request (K : Consts) (X : Ext) (st : State) (m : message_t)
    (type request : List Char) (h : unknown_endpoint K X st m type request) :
    ∃ st' ev rc, HandleSecureMessage K X st m = some st' ∧ is_lookup ev = true ∧
      (st.key_request_available = true → queue_full st.key_request_queue = false →
        st'.key_request_queue.data = st.key_request_queue.data ++
          [(type ++ ':' :: request).take (K.OS_MAXSTR - 1)]) ∧
      ((type ++ ':' :: request).length < K.OS_MAXSTR →
        (type ++ ':' :: request).take (K.OS_MAXSTR - 1) = type ++ ':' :: request) ∧
      (st.key_request_available = false → st'.key_request_queue = st.key_request_queue) ∧
      st'.trace = st.trace ++ [Ev.key_lock_read, ev, Ev.key_unlock] ++
        (if 0 ≤ m.sock then
          [Ev.close_sock m.sock, Ev.key_lock_read, Ev.OS_DeleteSocket m.sock, Ev.key_unlock,
           Ev.close m.sock rc]
         else []) ∧
      st'.remoted_state.recv_unknown = st.remoted_state.recv_unknown + 1 ∧
      st'.remoted_state.recv_ping = st.remoted_state.recv_ping ∧
      st'.remoted_state.recv_dequeued = st.remoted_state.recv_dequeued ∧
      st'.remoted_state.recv_ctrl = st.remoted_state.recv_ctrl ∧
      st'.remoted_state.recv_evt = st.remoted_state.recv_evt := by
  obtain ⟨ev, hev, hH⟩ := hsm_unknown_endpoint h
  have hpq : ∀ s : State, (push_request K s request type).key_request_queue =
      (if s.key_request_available = true then
        (queue_push_ex s.key_request_queue
          ((type ++ ':' :: request).take (K.OS_MAXSTR - 1))).1
       else s.key_request_queue) := by
    intro s
    unfold push_request _push_request snprintf
    split_ifs <;> rfl
  have hpt : ∀ s : State, (push_request K s request type).trace = s.trace ∧
      (push_request K s request type).remoted_state = s.remoted_state := by
    intro s
    unfold push_request _push_request
    split_ifs <;> exact ⟨rfl, rfl⟩
  have htake : (type ++ ':' :: request).length < K.OS_MAXSTR →
      (type ++ ':' :: request).take (K.OS_MAXSTR - 1) = type ++ ':' :: request :=
    fun hlen => List.take_of_length_le (by omega)
  by_cases hm : 0 ≤ m.sock
  · obtain ⟨_, c2, _, _, _, c6, c7, c8, c9, c10, rc, _, ctr⟩ := close_sock_frame K X
      (push_request K { st with trace := st.trace ++ [Ev.key_lock_read, ev, Ev.key_unlock] }
        request type) m.sock
    refine ⟨_, ev, rc, hH, hev, ?_, htake, ?_, ?_, ?_, ?_, ?_, ?_, ?_⟩
    · intro ha hq
      simp only [unknown_exit, close_message_sock, hm, if_true, rem_inc_recv_unknown, c2, hpq]
      simp [ha, queue_push_ex, hq]
    · intro ha
      simp only [unknown_exit, close_message_sock, hm, if_true, rem_inc_recv_unknown, c2, hpq]
      simp [ha]
    · simp only [unknown_exit, close_message_sock, hm, if_true, rem_inc_recv_unknown, ctr,
        (hpt _).1]
    · simp only [unknown_exit, close_message_sock, hm, if_true, rem_inc_recv_unknown, c6,
        (hpt _).2]
    · simp only [unknown_exit, close_message_sock, hm, if_true, rem_inc_recv_unknown, c7,
        (hpt _).2]
    · simp only [unknown_exit, close_message_sock, hm, if_true, rem_inc_recv_unknown, c8,
        (hpt _).2]
    · simp only [unknown_exit, close_message_sock, hm, if_true, rem_inc_recv_unknown, c9,
        (hpt _).2]
    · simp only [unknown_exit, close_message_sock, hm, if_true, rem_inc_recv_unknown, c10,
        (hpt _).2]
  · refine ⟨_, ev, 0, hH, hev, ?_, htake, ?_, ?_, ?_, ?_, ?_, ?_, ?_⟩
    · intro ha hq
      simp only [unknown_exit, close_message_sock, hm, if_false, rem_inc_recv_unknown, hpq]
      simp [ha, queue_push_ex, hq]
    · intro ha
      simp only [unknown_exit, close_message_sock, hm, if_false, rem_inc_recv_unknown, hpq]
      simp [ha]
    all_goals
      simp only [unknown_exit, close_message_sock, hm, if_false, rem_inc_recv_unknown,
        (hpt _).1, (hpt _).2, List.append_nil]

/-- Worked examples for C7: a datagram from an unknown IP and a TCP message with an unknown id. -/
theorem C7_unknown_endpoint_key_request_witness :
    (∃ st', HandleSecureMessage wazuh ext0 st0 msg_unknown_ip = some st' ∧
      st'.key_request_queue.data = ["ip:192.168.9.9".toList] ∧
      st'.remoted_state.recv_unknown = 1) ∧
    (∃ st', HandleSecureMessage wazuh ext0 st0 msg_unknown_id = some st' ∧
      st'.key_request_queue.data = ["id:777".toList] ∧
      st'.remoted_state.recv_unknown = 1) := by
  constructor
  · obtain ⟨st', _, _, hH, _, hq, hcut, _, _, hu, _⟩ :=
      C7_unknown_endpoint_key_request wazuh ext0 st0 msg_unknown_ip ['i', 'p']
        "192.168.9.9".toList ⟨"192.168.9.9".toList, by rfl, Or.inr ⟨by decide, by rfl, by decide,
          rfl, rfl⟩⟩
    refine ⟨st', hH, ?_, hu⟩
    rw [hq rfl rfl, hcut (by decide)]
    rfl
  · obtain ⟨st', _, _, hH, _, hq, hcut, _, _, hu, _⟩ :=
      C7_unknown_endpoint_key_request wazuh ext0 st0 msg_unknown_id ['i', 'd']
        "777".toList ⟨"192.168.9.9".toList, by rfl, Or.inl ⟨by rfl, by rfl, by rfl, rfl, by rfl⟩⟩
    refine ⟨st', hH, ?_, hu⟩
    rw [hq rfl rfl, hcut (by decide)]
    rfl

/-! ## Protocol violations -/

/-- The common tail of the rejecting branches: `if (message->sock >= 0)
_close_sock(...)` followed by `rem_inc_recv_unknown()`. -/
theorem reject_exit_spec (K : Consts) (X : Ext) (s : State) (m : message_t) :
    (rem_inc_recv_unknown (close_message_sock K X s m)).remoted_state.recv_unknown =
      s.remoted_state.recv_unknown + 1 ∧
    (rem_inc_recv_unknown (close_message_sock K X s m)).remoted_state.recv_ping =
      s.remoted_state.recv_ping ∧
    (rem_inc_recv_unknown (close_message_sock K X s m)).remoted_state.recv_dequeued =
      s.remoted_state.recv_dequeued ∧
    (rem_inc_recv_unknown (close_message_sock K X s m)).remoted_state.recv_ctrl =
      s.remoted_state.recv_ctrl ∧
    (rem_inc_recv_unknown (close_message_sock K X s m)).remoted_state.recv_evt =
      s.remoted_state.recv_evt ∧
    n_close_sock (rem_inc_recv_unknown (close_message_sock K X s m)).trace m.sock =
      n_close_sock s.trace m.sock + (if 0 ≤ m.sock then 1 else 0) := by
  by_cases hm : 0 ≤ m.sock
  · obtain ⟨_, _, _, _, _, c6, c7, c8, c9, c10, rc, _, ctr⟩ := close_sock_frame K X s m.sock
    simp only [close_message_sock, hm, if_true, rem_inc_recv_unknown, c6, c7, c8, c9, c10, ctr]
    simp [n_close_sock, List.count_cons]
  · simp [close_message_sock, hm, rem_inc_recv_unknown]

theorem n_close_sock_append (tr : List Ev) (s : Int) (tail : List Ev)
    (h : ∀ e ∈ tail, e ≠ Ev.close_sock s) :
    n_close_sock (tr ++ tail) s = n_close_sock tr s := by
  unfold n_close_sock
  rw [List.count_append]
  have : List.count (Ev.close_sock s) tail = 0 :=
    List.count_eq_zero.mpr (fun hmem => h _ hmem rfl)
  omega

/-- C8 as stated fails twice. For the oversize frame: when `nb_recv` returns -2 the
receive handler closes the socket through `_close_sock` but counts nothing under
`recv_unknown` (nor under any other message counter). For the malformed envelope:
when the peer address is neither IPv4 nor IPv6 the handler returns at the
address-family switch, so the message is counted under `recv_unknown` but its TCP
socket 7 is not closed. -/
theorem C8_violations_counterexample :
    ((handle_incoming_data_from_tcp_socket wazuh ext0 st0 7 (-2)).remoted_state.recv_unknown =
        st0.remoted_state.recv_unknown ∧
      (handle_incoming_data_from_tcp_socket wazuh ext0 st0 7 (-2)).trace =
        [Ev.close_sock 7, Ev.key_lock_read, Ev.OS_DeleteSocket 7, Ev.key_unlock,
         Ev.close 7 0] ∧
      (handle_incoming_data_from_tcp_socket wazuh ext0 st0 7 (-2)).remoted_state =
        { st0.remoted_state with tcp_active := st0.remoted_state.tcp_active - 1 }) ∧
    (msg_malformed_unix.buffer.head? = some '!' ∧
      (msg_malformed_unix.buffer.tail.dropWhile Char.isDigit).head? ≠ some '!' ∧
      0 ≤ msg_malformed_unix.sock ∧
      HandleSecureMessage wazuh ext0 st0 msg_malformed_unix =
        some { st0 with remoted_state :=
          { st0.remoted_state with recv_unknown := st0.remoted_state.recv_unknown + 1 } } ∧
      (HandleSecureMessage wazuh ext0 st0 msg_malformed_unix).map
        (fun s => n_close_sock s.trace 7) = some 0) :=
  ⟨⟨by rfl, by rfl, by rfl⟩, by rfl, by decide, by decide, by rfl, by rfl⟩

/-- Every envelope violation ends in the rejecting tail, entered with the counters
as they were and with no `_close_sock` made so far. -/
theorem envelope_violation_exit {K : Consts} {X : Ext} {st : State} {m : message_t}
    (h : envelope_violation K X st m) :
    ∃ s, HandleSecureMessage K X st m =
        some (rem_inc_recv_unknown (close_message_sock K X s m)) ∧
      s.remoted_state = st.remoted_state ∧
      ∃ tail, s.trace = st.trace ++ tail ∧ ∀ e ∈ tail, e ≠ Ev.close_sock m.sock := by
  obtain ⟨srcip, hs, hh, hv⟩ := h
  rcases hv with hbad | ⟨hok, hempty, hid⟩
  · refine ⟨st, ?_, rfl, [], by simp, by simp⟩
    unfold HandleSecureMessage hsm_lookup
    simp only [hs, hh, if_true]
    unfold hsm_lookup_id
    simp only [hbad, ne_eq, not_false_eq_true, if_true]
  · rcases hid with hneg | hsome
    · obtain ⟨ev, hev, hH⟩ := @hsm_unknown_endpoint K X st m ['i', 'd']
        (m.buffer.tail.takeWhile Char.isDigit)
        ⟨srcip, hs, Or.inl ⟨hh, hok, hneg, rfl, rfl⟩⟩
      refine ⟨_, hH, ?_, [Ev.key_lock_read, ev, Ev.key_unlock], ?_, ?_⟩
      · unfold push_request _push_request
        split_ifs <;> rfl
      · unfold push_request _push_request
        split_ifs <;> rfl
      · intro e he
        simp only [List.mem_cons, List.mem_singleton, List.not_mem_nil, or_false] at he
        rcases he with rfl | rfl | rfl
        · simp
        · intro hc; rw [hc] at hev; simp [is_lookup] at hev
        · simp
    · have hne : X.OS_IsAllowedDynamicID st.keys (m.buffer.tail.takeWhile Char.isDigit) srcip
          ≠ -1 := by
        intro hc
        rw [hc] at hsome
        simp [entry_at] at hsome
      obtain ⟨e, he⟩ := Option.isSome_iff_exists.mp hsome
      have hres : resolves_to K X st m
          (X.OS_IsAllowedDynamicID st.keys (m.buffer.tail.takeWhile Char.isDigit) srcip) :=
        ⟨srcip, hs, Or.inl ⟨hh, hok, rfl, hne⟩⟩
      obtain ⟨ev, f, hev, hfa, hfst, hl, hrb⟩ := hsm_lookup_resolved hres
      have hrb' := hrb hh
      have he' : entry_at f.st.keys f.agentid = some e := by rw [hfst, hfa]; exact he
      have hnc : ∀ x ∈ [Ev.key_lock_read, ev], x ≠ Ev.close_sock m.sock := by
        intro x hx
        simp only [List.mem_cons, List.mem_singleton, List.not_mem_nil, or_false] at hx
        rcases hx with rfl | rfl
        · simp
        · intro hc; rw [hc] at hev; simp [is_lookup] at hev
      by_cases hk : key_in_use e m = true
      · rw [hsm_conflict_in_use he' hk] at hl
        refine ⟨_, by unfold HandleSecureMessage; rw [hl], by rw [hfst],
          [Ev.key_lock_read, ev, Ev.mutex_lock f.agentid.toNat, Ev.mutex_unlock f.agentid.toNat,
            Ev.key_unlock], by rw [hfst]; simp, ?_⟩
        intro x hx
        simp only [List.mem_cons, List.mem_singleton, List.not_mem_nil, or_false] at hx
        rcases hx with rfl | rfl | rfl | rfl | rfl
        · simp
        · exact hnc _ (by simp)
        · simp
        · simp
        · simp
      · have hk' : key_in_use e m = false := by simpa using hk
        have hcont : hsm_lookup K X st m = Resolved.cont
            { f with st := w_mutex_unlock (w_mutex_lock f.st f.agentid.toNat) f.agentid.toNat }
            := by
          rw [hl]
          unfold hsm_conflict
          simp [he', hk']
        have hle : f.recv_b ≤ 0 := by rw [hrb']; exact hempty
        refine ⟨key_unlock (w_mutex_unlock (w_mutex_lock f.st f.agentid.toNat) f.agentid.toNat),
          by unfold HandleSecureMessage; rw [hcont]; simp only [hsm_decrypt, hle, if_true],
          by rw [hfst]; rfl,
          [Ev.key_lock_read, ev, Ev.mutex_lock f.agentid.toNat, Ev.mutex_unlock f.agentid.toNat,
            Ev.key_unlock], by rw [hfst]; simp [key_unlock, w_mutex_unlock, w_mutex_lock, emit],
          ?_⟩
        intro x hx
        simp only [List.mem_cons, List.mem_singleton, List.not_mem_nil, or_false] at hx
        rcases hx with rfl | rfl | rfl | rfl | rfl
        · simp
        · exact hnc _ (by simp)
        · simp
        · simp
        · simp

/-- C8, amended: (a) an oversize frame (`nb_recv` returning -2) makes the receive
handler call `_close_sock` once on the socket and leaves `recv_unknown` as it was;
(b), (c) a malformed id envelope or an empty payload after a well-formed one, in a
message from an IPv4 or IPv6 peer, calls `_close_sock` once when
`message.sock >= 0` and not at all otherwise, and adds one to `recv_unknown` and to
no other message counter. -/
theorem C8_protocol_violations (K : Consts) (X : Ext) (st : State) :
    (∀ sock_client : Int,
      handle_incoming_data_from_tcp_socket K X st sock_client (-2) =
        (_close_sock K X st sock_client).1 ∧
      n_close_sock (handle_incoming_data_from_tcp_socket K X st sock_client (-2)).trace
        sock_client = n_close_sock st.trace sock_client + 1 ∧
      (handle_incoming_data_from_tcp_socket K X st sock_client (-2)).remoted_state.recv_unknown
        = st.remoted_state.recv_unknown) ∧
    (∀ m : message_t, envelope_violation K X st m →
      ∃ st', HandleSecureMessage K X st m = some st' ∧
        n_close_sock st'.trace m.sock =
          n_close_sock st.trace m.sock + (if 0 ≤ m.sock then 1 else 0) ∧
        st'.remoted_state.recv_unknown = st.remoted_state.recv_unknown + 1 ∧
        st'.remoted_state.recv_ping = st.remoted_state.recv_ping ∧
        st'.remoted_state.recv_dequeued = st.remoted_state.recv_dequeued ∧
        st'.remoted_state.recv_ctrl = st.remoted_state.recv_ctrl ∧
        st'.remoted_state.recv_evt = st.remoted_state.recv_evt) := by
  constructor
  · intro s
    have h1 : handle_incoming_data_from_tcp_socket K X st s (-2) = (_close_sock K X st s).1 := by
      simp [handle_incoming_data_from_tcp_socket]
    obtain ⟨_, _, _, _, _, c6, _, _, _, _, rc, _, ctr⟩ := close_sock_frame K X st s
    refine ⟨h1, ?_, ?_⟩
    · rw [h1, ctr]
      simp [n_close_sock, List.count_cons]
    · rw [h1, c6]
  · intro m hv
    obtain ⟨s, hH, hrs, tail, htr, hnc⟩ := envelope_violation_exit hv
    obtain ⟨r1, r2, r3, r4, r5, r6⟩ := reject_exit_spec K X s m
    refine ⟨_, hH, ?_, ?_, ?_, ?_, ?_, ?_⟩
    · rw [r6, htr, n_close_sock_append _ _ _ hnc]
    · rw [r1, hrs]
    · rw [r2, hrs]
    · rw [r3, hrs]
    · rw [r4, hrs]
    · rw [r5, hrs]

/-- Worked examples for C8: a malformed envelope and an empty payload on TCP socket 7. -/
theorem C8_protocol_violations_witness :
    (∃ st', HandleSecureMessage wazuh ext0 st0 msg_malformed = some st' ∧
      n_close_sock st'.trace 7 = 1 ∧ st'.remoted_state.recv_unknown = 1) ∧
    (∃ st', HandleSecureMessage wazuh ext0 st0 msg_empty = some st' ∧
      n_close_sock st'.trace 7 = 1 ∧ st'.remoted_state.recv_unknown = 1) := by
  have h := (C8_protocol_violations wazuh ext0 st0).2
  constructor
  · obtain ⟨st', hH, hc, hu, _⟩ := h msg_malformed
      ⟨"10.0.0.5".toList, by rfl, by rfl, Or.inl (by decide)⟩
    exact ⟨st', hH, hc, hu⟩
  · obtain ⟨st', hH, hc, hu, _⟩ := h msg_empty
      ⟨"10.0.0.5".toList, by rfl, by rfl, Or.inr ⟨by rfl, by decide, Or.inr (by rfl)⟩⟩
    exact ⟨st', hH, hc, hu⟩

/-! ## `_close_sock`: binding, buffers, counter -/

theorem lookup_filter_ne (l : List (Int × Nat)) (s : Int) :
    (l.filter (fun p => decide (p.1 ≠ s))).lookup s = none := by
  induction l with
  | nil => rfl
  | cons p l ih =>
    obtain ⟨a, b⟩ := p
    by_cases hp : a = s
    · rw [List.filter_cons]
      simp only [hp, ne_eq, not_true_eq_false, decide_False]
      exact ih
    · have hne : (s == a) = false := by
        rw [beq_eq_false_iff_ne]
        exact fun h => hp h.symm
      rw [List.filter_cons]
      simp only [hp, ne_eq, not_false_eq_true, decide_True, if_true]
      rw [List.lookup_cons, hne]
      exact ih

/-- The state `_close_sock` returns, spelled out for the two outcomes of `close`. -/
theorem close_sock_eq (K : Consts) (X : Ext) (st : State) (s : Int) :
    (_close_sock K X st s).1 =
      if X.close_error s = true then
        { st with
          keys := { st.keys with
            keyentries := st.keys.keyentries.map (unbind_entry K s),
            keytree_sock := st.keys.keytree_sock.filter (fun p => decide (p.1 ≠ s)) },
          rem_counter := (s, st.global_counter) :: st.rem_counter,
          trace := st.trace ++
            [Ev.close_sock s, Ev.key_lock_read, Ev.OS_DeleteSocket s, Ev.key_unlock,
             Ev.close s (-1)] }
      else
        { st with
          keys := { st.keys with
            keyentries := st.keys.keyentries.map (unbind_entry K s),
            keytree_sock := st.keys.keytree_sock.filter (fun p => decide (p.1 ≠ s)) },
          rem_counter := (s, st.global_counter) :: st.rem_counter,
          netbuffer_recv := nb_close st.netbuffer_recv s,
          netbuffer_send := nb_close st.netbuffer_send s,
          remoted_state :=
            { st.remoted_state with tcp_active := st.remoted_state.tcp_active - 1 },
          trace := st.trace ++
            [Ev.close_sock s, Ev.key_lock_read, Ev.OS_DeleteSocket s, Ev.key_unlock,
             Ev.close s 0] } := by
  unfold _close_sock close
  by_cases hc : X.close_error s = true
  · simp only [hc, if_true]
    simp [emit, key_unlock, key_lock_read, OS_DeleteSocket, rem_setCounter]
  · simp only [hc, if_false]
    simp [rem_dec_tcp, emit, key_unlock, key_lock_read, OS_DeleteSocket, rem_setCounter]

theorem has_slot_nb_close (t : List sockbuffer_t) (s : Int) :
    has_slot (nb_close t s) s = false := by
  unfold has_slot nb_close
  simp

theorem unbind_entry_sock (K : Consts) (s : Int) (e : keyentry)
    (hK : K.USING_UDP_NO_CLIENT_SOCKET < 0) :
    ¬ (0 ≤ (unbind_entry K s e).sock ∧ (unbind_entry K s e).sock = s) := by
  unfold unbind_entry
  split_ifs with h
  · exact fun hc => absurd hc.1 (not_le.mpr hK)
  · exact fun hc => h hc.2

/-- C9 as stated fails: when `close` fails, `_close_sock` leaves the slots of the
socket in both buffer tables (and the gauge as it was). -/
theorem C9_close_failure_keeps_slots_counterexample :
    has_slot st0.netbuffer_recv 7 = true ∧
    has_slot (_close_sock wazuh ext_close_fails st0 7).1.netbuffer_recv 7 = true ∧
    has_slot (_close_sock wazuh ext_close_fails st0 7).1.netbuffer_send 7 = true ∧
    (_close_sock wazuh ext_close_fails st0 7).1.trace =
      [Ev.close_sock 7, Ev.key_lock_read, Ev.OS_DeleteSocket 7, Ev.key_unlock,
       Ev.close 7 (-1)] :=
  ⟨by rfl, by rfl, by rfl, by rfl⟩

/-- C9, amended: after `_close_sock(keys, s)`, for every `s`, `s` is bound to no agent
entry: the socket index has no binding for it and no entry has a socket (`sock >= 0`,
the test of lines 515 and 570) that is `s`, the entries that were bound to it being
detached and the others left as they were (`OS_DeleteSocket` was called between
`key_lock_read` and `key_unlock`; the sentinel for no socket is negative); and the
counter stored for `s` is the `global_counter` of the call. If `close(s)` returned 0,
`s` has no slot in the receive or the send buffer table and the gauge went down by
one; if it failed, both tables and the gauge are as they were. -/
theorem C9_close_sock_unbinds (K : Consts) (X : Ext) (st : State) (s : Int)
    (hK : K.USING_UDP_NO_CLIENT_SOCKET < 0) :
    bound_entry (_close_sock K X st s).1.keys s = none ∧
    (∀ e ∈ (_close_sock K X st s).1.keys.keyentries, ¬ (0 ≤ e.sock ∧ e.sock = s)) ∧
    (_close_sock K X st s).1.keys.keyentries =
      st.keys.keyentries.map (unbind_entry K s) ∧
    rem_getCounter (_close_sock K X st s).1 s = st.global_counter ∧
    ∃ rc, (rc = 0 ↔ X.close_error s = false) ∧
      (_close_sock K X st s).1.trace = st.trace ++
        [Ev.close_sock s, Ev.key_lock_read, Ev.OS_DeleteSocket s, Ev.key_unlock,
         Ev.close s rc] ∧
      (rc = 0 →
        has_slot (_close_sock K X st s).1.netbuffer_recv s = false ∧
        has_slot (_close_sock K X st s).1.netbuffer_send s = false ∧
        (_close_sock K X st s).1.remoted_state.tcp_active = st.remoted_state.tcp_active - 1) ∧
      (rc ≠ 0 →
        (_close_sock K X st s).1.netbuffer_recv = st.netbuffer_recv ∧
        (_close_sock K X st s).1.netbuffer_send = st.netbuffer_send ∧
        (_close_sock K X st s).1.remoted_state = st.remoted_state) := by
  have hg : ∀ (l : List (Int × Nat)) (c : Nat), ((s, c) :: l).lookup s = some c := by
    intro l c
    rw [List.lookup_cons]
    simp
  have hent : ∀ e ∈ st.keys.keyentries.map (unbind_entry K s),
      ¬ (0 ≤ e.sock ∧ e.sock = s) := by
    intro e he
    obtain ⟨e0, _, rfl⟩ := List.mem_map.mp he
    exact unbind_entry_sock K s e0 hK
  rw [close_sock_eq]
  by_cases hc : X.close_error s = true
  · rw [if_pos hc]
    refine ⟨lookup_filter_ne _ _, hent, rfl, ?_, -1, by simp [hc], rfl,
      fun h => absurd h (by decide), fun _ => ⟨rfl, rfl, rfl⟩⟩
    simp only [rem_getCounter, hg]
  · rw [if_neg hc]
    refine ⟨lookup_filter_ne _ _, hent, rfl, ?_, 0, by simp [hc], rfl,
      fun _ => ⟨has_slot_nb_close _ _, has_slot_nb_close _ _, rfl⟩, fun h => absurd rfl h⟩
    simp only [rem_getCounter, hg]

/-- Worked example for C9: socket 10, to which agent 003 is bound, is closed. -/
theorem C9_close_sock_unbinds_witness :
    bound_entry (_close_sock wazuh ext0 st0 10).1.keys 10 = none ∧
    (∀ e ∈ (_close_sock wazuh ext0 st0 10).1.keys.keyentries,
      ¬ (0 ≤ e.sock ∧ e.sock = 10)) ∧
    (_close_sock wazuh ext0 st0 10).1.keys.keyentries =
      st0.keys.keyentries.map (unbind_entry wazuh 10) ∧
    rem_getCounter (_close_sock wazuh ext0 st0 10).1 10 = st0.global_counter ∧
    ∃ rc, (rc = 0 ↔ ext0.close_error 10 = false) ∧
      (_close_sock wazuh ext0 st0 10).1.trace = st0.trace ++
        [Ev.close_sock 10, Ev.key_lock_read, Ev.OS_DeleteSocket 10, Ev.key_unlock,
         Ev.close 10 rc] ∧
      (rc = 0 →
        has_slot (_close_sock wazuh ext0 st0 10).1.netbuffer_recv 10 = false ∧
        has_slot (_close_sock wazuh ext0 st0 10).1.netbuffer_send 10 = false ∧
        (_close_sock wazuh ext0 st0 10).1.remoted_state.tcp_active =
          st0.remoted_state.tcp_active - 1) ∧
      (rc ≠ 0 →
        (_close_sock wazuh ext0 st0 10).1.netbuffer_recv = st0.netbuffer_recv ∧
        (_close_sock wazuh ext0 st0 10).1.netbuffer_send = st0.netbuffer_send ∧
        (_close_sock wazuh ext0 st0 10).1.remoted_state = st0.remoted_state) :=
  C9_close_sock_unbinds wazuh ext0 st0 10 (by decide)

/-! ## The TCP gauge -/

theorem fds_nb_close (t : List sockbuffer_t) (s d : Int) :
    d ∈ fds (nb_close t s) ↔ d ∈ fds t ∧ d ≠ s := by
  unfold fds nb_close
  simp only [List.mem_map, List.mem_filter, decide_eq_true_eq]
  constructor
  · rintro ⟨b, ⟨hb, hne⟩, rfl⟩
    exact ⟨⟨b, hb, rfl⟩, hne⟩
  · rintro ⟨⟨b, hb, rfl⟩, hne⟩
    exact ⟨b, ⟨hb, hne⟩, rfl⟩

theorem nodup_nb_close (t : List sockbuffer_t) (s : Int) (h : (fds t).Nodup) :
    (fds (nb_close t s)).Nodup :=
  List.Nodup.sublist (List.Sublist.map _ (List.filter_sublist t)) h

theorem nb_close_absent (t : List sockbuffer_t) (s : Int) (h : s ∉ fds t) :
    nb_close t s = t := by
  unfold nb_close
  rw [List.filter_eq_self]
  intro b hb
  simp only [decide_eq_true_eq]
  intro hc
  exact h (List.mem_map.mpr ⟨b, hb, hc⟩)

theorem length_nb_close (t : List sockbuffer_t) (s : Int) (hn : (fds t).Nodup)
    (hs : s ∈ fds t) : ((nb_close t s).length : Int) = (t.length : Int) - 1 := by
  induction t with
  | nil => simp [fds] at hs
  | cons b t ih =>
    have hn' : b.fd ∉ fds t ∧ (fds t).Nodup := by
      simpa [fds] using hn
    by_cases hb : b.fd = s
    · have habs : s ∉ fds t := hb ▸ hn'.1
      have h1 : nb_close (b :: t) s = nb_close t s := by
        simp [nb_close, List.filter_cons, hb]
      rw [h1, nb_close_absent t s habs]
      simp
    · have hs' : s ∈ fds t := by
        have : s = b.fd ∨ s ∈ fds t := by simpa [fds] using hs
        rcases this with h | h
        · exact absurd h.symm hb
        · exact h
      have h1 : nb_close (b :: t) s = b :: nb_close t s := by
        simp [nb_close, List.filter_cons, hb]
      rw [h1]
      have := ih hn'.2 hs'
      simp only [List.length_cons, Nat.cast_add, Nat.cast_one]
      omega

/-- `_close_sock` keeps the invariant when its `close` returns 0 only for a
descriptor that has a slot. -/
theorem socket_inv_close_sock (K : Consts) (X : Ext) (st : State) (s : Int)
    (h : socket_inv st) (hc : close_owned X st s) : socket_inv (_close_sock K X st s).1 := by
  obtain ⟨hn, hg⟩ := h
  rw [close_sock_eq]
  by_cases he : X.close_error s = true
  · rw [if_pos he]
    exact ⟨hn, hg⟩
  · rw [if_neg he]
    have hs : s ∈ fds st.netbuffer_recv := hc (by simpa using he)
    refine ⟨nodup_nb_close _ _ hn, ?_⟩
    show st.remoted_state.tcp_active - 1 = ((nb_close st.netbuffer_recv s).length : Int)
    rw [length_nb_close _ _ hn hs, hg]

/-- `handle_new_tcp_connection` keeps the invariant when `accept` returns a
descriptor that has no slot. -/
theorem socket_inv_new_connection (K : Consts) (X : Ext) (st : State) (fd : Int)
    (peer : sockaddr_storage) (w : Int) (hfresh : fd ∉ fds st.netbuffer_recv)
    (h : socket_inv st) : socket_inv (handle_new_tcp_connection K X st fd peer w) := by
  obtain ⟨hn, hg⟩ := h
  unfold handle_new_tcp_connection
  by_cases h0 : 0 ≤ fd
  · have hr : nb_open st.netbuffer_recv fd peer = ⟨fd, peer⟩ :: st.netbuffer_recv := by
      unfold nb_open
      rw [show st.netbuffer_recv.filter (fun b => decide (b.fd ≠ fd)) =
        nb_close st.netbuffer_recv fd from rfl, nb_close_absent _ _ hfresh]
    have hopen : socket_inv (emit (rem_inc_tcp
        { st with
          netbuffer_recv := nb_open st.netbuffer_recv fd peer,
          netbuffer_send := nb_open st.netbuffer_send fd peer })
        (Ev.wnotify_add fd w)) := by
      simp only [emit, rem_inc_tcp, socket_inv, hr]
      refine ⟨?_, ?_⟩
      · simpa [fds] using ⟨fun x hx hxe => hfresh (List.mem_map.mpr ⟨x, hx, hxe⟩), hn⟩
      · simp only [List.length_cons, Nat.cast_add, Nat.cast_one]
        omega
    have hslot : close_owned X (emit (rem_inc_tcp
        { st with
          netbuffer_recv := nb_open st.netbuffer_recv fd peer,
          netbuffer_send := nb_open st.netbuffer_send fd peer })
        (Ev.wnotify_add fd w)) fd := by
      intro _
      simp only [emit, rem_inc_tcp, hr, fds, List.map_cons, List.mem_cons, true_or]
    simp only [h0, if_true]
    split_ifs
    · exact socket_inv_close_sock K X _ fd hopen hslot
    · exact hopen
  · simp only [h0, if_false]
    exact ⟨hn, hg⟩

theorem message_inv_push_request (K : Consts) (X : Ext) (m : message_t) (st : State)
    (x y : List Char) (h : message_inv X m st) : message_inv X m (push_request K st x y) := by
  unfold push_request
  split_ifs
  · exact h
  · exact h

theorem socket_inv_close_message_sock (K : Consts) (X : Ext) (st : State) (m : message_t)
    (h : message_inv X m st) : socket_inv (close_message_sock K X st m) := by
  unfold close_message_sock
  split_ifs
  · exact socket_inv_close_sock K X st m.sock h.1 h.2
  · exact h.1

theorem socket_inv_reject (K : Consts) (X : Ext) (st : State) (m : message_t)
    (h : message_inv X m st) :
    socket_inv (rem_inc_recv_unknown (close_message_sock K X st m)) :=
  socket_inv_close_message_sock K X st m h

theorem socket_inv_conflict (K : Consts) (X : Ext) (st : State) (m : message_t) (f : Frame)
    (h : message_inv X m st) : resolved_inv X m (hsm_conflict K X st m f) := by
  unfold hsm_conflict
  split
  · trivial
  · split_ifs
    · exact socket_inv_reject K X _ m h
    · exact h

theorem socket_inv_lookup (K : Consts) (X : Ext) (st : State) (m : message_t)
    (h : message_inv X m st) : resolved_inv X m (hsm_lookup K X st m) := by
  unfold hsm_lookup
  split
  · exact h.1
  · split_ifs
    · unfold hsm_lookup_id
      simp only
      split_ifs
      · exact socket_inv_reject K X st m h
      · exact socket_inv_reject K X _ m (message_inv_push_request K X m _ _ _ h)
      · exact socket_inv_conflict K X _ m _ h
    · unfold hsm_ping
      simp only
      split_ifs <;> exact h.1
    · unfold hsm_lookup_ip
      simp only
      split_ifs
      · exact socket_inv_reject K X _ m (message_inv_push_request K X m _ _ _ h)
      · exact socket_inv_conflict K X _ m _ h

theorem socket_inv_decrypt (K : Consts) (X : Ext) (m : message_t) (f : Frame)
    (h : message_inv X m f.st) : decrypted_inv X m (hsm_decrypt K X m f) := by
  unfold hsm_decrypt
  simp only
  split_ifs
  · exact socket_inv_reject K X _ m h
  · exact socket_inv_reject K X _ m (message_inv_push_request K X m _ _ _ h)
  · exact socket_inv_reject K X _ m (message_inv_push_request K X m _ _ _ h)
  · exact socket_inv_reject K X _ m h
  · exact h

theorem socket_inv_control (K : Consts) (X : Ext) (st : State) (m : message_t) (a : Int)
    (t : List Char) (n : Nat) (st' : State) (h : socket_inv st)
    (hr : hsm_control K X st m a t n = some st') : socket_inv st' := by
  unfold hsm_control at hr
  by_cases hc : let_through K st m t = true
  · rw [if_pos hc] at hr
    cases he : entry_at st.keys a with
    | none => simp [he] at hr
    | some e =>
      simp only [he, Option.some.injEq] at hr
      rw [← hr]
      split_ifs <;> exact h
  · rw [if_neg hc] at hr
    simp only [Option.some.injEq] at hr
    rw [← hr]
    exact h

theorem socket_inv_event (K : Consts) (X : Ext) (st : State) (a : Int)
    (t : List Char) (st' : State) (h : socket_inv st)
    (hr : hsm_event K X st a t = some st') : socket_inv st' := by
  unfold hsm_event at hr
  cases he : entry_at st.keys a with
  | none => simp [he] at hr
  | some e =>
    simp only [he] at hr
    split_ifs at hr <;> simp only [Option.some.injEq] at hr <;> rw [← hr] <;> exact h

/-- `HandleSecureMessage` keeps the invariant: it touches the tables and the gauge
through `_close_sock` on the socket of the message only. -/
theorem socket_inv_HandleSecureMessage (K : Consts) (X : Ext) (st : State) (m : message_t)
    (st' : State) (h : message_inv X m st) (hr : HandleSecureMessage K X st m = some st') :
    socket_inv st' := by
  unfold HandleSecureMessage at hr
  have h1 := socket_inv_lookup K X st m h
  split at hr
  · rename_i s1 heq
    rw [heq] at h1
    simp only [Option.some.injEq] at hr
    rw [← hr]; exact h1
  · exact Option.noConfusion hr
  · rename_i f heq
    rw [heq] at h1
    have h2 := socket_inv_decrypt K X m f h1
    split at hr
    · rename_i s2 heq2
      rw [heq2] at h2
      simp only [Option.some.injEq] at hr
      rw [← hr]; exact h2
    · rename_i s2 t n heq2
      rw [heq2] at h2
      split at hr
      · exact socket_inv_control K X s2 m f.agentid _ n st' h2.1 hr
      · exact socket_inv_event K X s2 f.agentid t st' h2.1 hr

theorem socket_inv_reachable (st : State) (h : Reachable_owned st) : socket_inv st := by
  induction h with
  | init st hrecv hsend hgauge =>
    simp [socket_inv, fds, hrecv, hgauge]
  | new_connection K X st fd peer w hfresh _ ih =>
    exact socket_inv_new_connection K X st fd peer w hfresh ih
  | close_sock K X st s hclose _ ih => exact socket_inv_close_sock K X st s ih hclose
  | incoming_data K X st s r hclose _ ih =>
    unfold handle_incoming_data_from_tcp_socket
    split_ifs
    · exact socket_inv_close_sock K X st s ih hclose
    · exact socket_inv_close_sock K X st s ih hclose
    · exact socket_inv_close_sock K X st s ih hclose
    · exact ih
  | handle_message K X st m st2 hret hclose _ ih =>
    exact socket_inv_HandleSecureMessage K X st m st2 ⟨ih, hclose⟩ hret
  | other st st2 hsame _ ih =>
    obtain ⟨h1, _, h3⟩ := hsame
    unfold socket_inv
    rw [h1, h3]
    exact ih

/-- C10 as stated fails. After an accepted connection on descriptor 7, two calls of
`_close_sock(7)` whose `close` both return 0 (the descriptor was handed out again in
between, as by `key_request_connect`) leave the gauge at -1 with an empty table; and
a connection accepted on a descriptor that still has its slot (after a `close` that
failed) leaves the gauge at 2 with one slot. -/
theorem C10_gauge_differs_counterexample :
    Reachable st_closed_twice ∧
    st_closed_twice.remoted_state.tcp_active = -1 ∧
    st_closed_twice.netbuffer_recv = [] ∧
    n_close_sock st_closed_twice.trace 7 = 2 ∧
    Reachable st_accepted_twice ∧
    st_accepted_twice.remoted_state.tcp_active = 2 ∧
    st_accepted_twice.netbuffer_recv = [⟨7, peer5⟩] :=
  ⟨Reachable.close_sock wazuh ext0 _ 7 (Reachable.close_sock wazuh ext0 _ 7
      (Reachable.new_connection wazuh ext0 st_init 7 peer5 0
        (Reachable.init st_init rfl rfl rfl))),
    by rfl, by rfl, by rfl,
    Reachable.new_connection wazuh ext0 _ 7 peer5 0
      (Reachable.close_sock wazuh ext_close_fails _ 7
        (Reachable.new_connection wazuh ext0 st_init 7 peer5 0
          (Reachable.init st_init rfl rfl rfl))),
    by rfl, by rfl⟩

/-- C10, amended: in every state reachable from an initial one (empty tables, gauge 0)
by `handle_new_tcp_connection` and `_close_sock` (called directly, or from the receive
handler or the worker), along runs in which `accept` returns only descriptors that
have no slot and `close` returns 0 only for descriptors that have one, `tcp_active` is
the number of slots of the receive-buffer table, which holds each descriptor at most
once. Under the same conditions this still holds after `_close_sock` is called twice
for the same socket, and when the first `close` returned 0 the second call changes
neither the gauge nor the table. -/
theorem C10_tcp_active_counts_slots (st : State) (h : Reachable_owned st) :
    st.remoted_state.tcp_active = (st.netbuffer_recv.length : Int) ∧
    (fds st.netbuffer_recv).Nodup ∧
    (∀ (K : Consts) (X1 X2 : Ext) (s : Int),
      close_owned X1 st s → close_owned X2 (_close_sock K X1 st s).1 s →
      (_close_sock K X2 (_close_sock K X1 st s).1 s).1.remoted_state.tcp_active =
        ((_close_sock K X2 (_close_sock K X1 st s).1 s).1.netbuffer_recv.length : Int) ∧
      (X1.close_error s = false →
        (_close_sock K X2 (_close_sock K X1 st s).1 s).1.remoted_state.tcp_active =
          (_close_sock K X1 st s).1.remoted_state.tcp_active ∧
        (_close_sock K X2 (_close_sock K X1 st s).1 s).1.netbuffer_recv =
          (_close_sock K X1 st s).1.netbuffer_recv)) := by
  have hinv := socket_inv_reachable st h
  refine ⟨hinv.2, hinv.1, fun K X1 X2 s h1 h2 => ⟨?_, fun herr => ?_⟩⟩
  · exact (socket_inv_reachable _
      (Reachable_owned.close_sock K X2 _ s h2 (Reachable_owned.close_sock K X1 st s h1 h))).2
  · have hclosed : s ∉ fds (_close_sock K X1 st s).1.netbuffer_recv := by
      rw [close_sock_eq, if_neg (by simp [herr])]
      intro hc
      exact ((fds_nb_close _ _ _).mp hc).2 rfl
    have hfail : X2.close_error s = true := by
      cases hx : X2.close_error s
      · exact absurd (h2 hx) hclosed
      · rfl
    rw [close_sock_eq K X2, if_pos hfail]
    exact ⟨rfl, rfl⟩

/-- Worked example for C10: a connection is accepted on descriptor 7 and closed again. -/
theorem C10_tcp_active_counts_slots_witness :
    (_close_sock wazuh ext0 (handle_new_tcp_connection wazuh ext0 st_init 7 peer5 0)
      7).1.remoted_state.tcp_active
      = ((_close_sock wazuh ext0 (handle_new_tcp_connection wazuh ext0 st_init 7 peer5 0)
          7).1.netbuffer_recv.length : Int) ∧
    (fds (_close_sock wazuh ext0 (handle_new_tcp_connection wazuh ext0 st_init 7 peer5 0)
      7).1.netbuffer_recv).Nodup ∧
    (handle_new_tcp_connection wazuh ext0 st_init 7 peer5 0).remoted_state.tcp_active = 1 ∧
    (_close_sock wazuh ext0 (handle_new_tcp_connection wazuh ext0 st_init 7 peer5 0)
      7).1.remoted_state.tcp_active = 0 :=
  have h := C10_tcp_active_counts_slots
    (_close_sock wazuh ext0 (handle_new_tcp_connection wazuh ext0 st_init 7 peer5 0) 7).1
    (Reachable_owned.close_sock wazuh ext0 _ 7 (fun _ => by decide)
      (Reachable_owned.new_connection wazuh ext0 st_init 7 peer5 0 (by decide)
        (Reachable_owned.init st_init rfl rfl rfl)))
  ⟨h.1, h.2.1, by rfl, by rfl⟩

/-! ## Every path of `HandleSecureMessage`: counters and locks -/

theorem lock_run_append (S : LockState) (a b : List Ev) :
    lock_run S (a ++ b) = (lock_run S a).bind (fun s => lock_run s b) := by
  induction a generalizing S with
  | nil => rfl
  | cons e a ih =>
    simp only [List.cons_append, lock_run]
    cases lock_step S e with
    | none => rfl
    | some s2 => exact ih s2

theorem counters_le_refl (a : remoted_state_t) : counters_le a a :=
  ⟨le_refl _, le_refl _, le_refl _, List.suffix_refl _, List.suffix_refl _⟩

theorem progress_refl (st : State) (S : LockState) : progress st st S S 0 :=
  ⟨⟨[], by simp, rfl⟩, rfl, counters_le_refl _⟩

/-- A step that leaves the trace and the message counters as they are. -/
theorem progress_same {st s s2 : State} {S S1 : LockState} {k : Nat}
    (h : progress st s S S1 k) (htr : s2.trace = s.trace)
    (hc : counters_eq s.remoted_state s2.remoted_state) : progress st s2 S S1 k := by
  obtain ⟨⟨tr, h1, h2⟩, h3, h4⟩ := h
  obtain ⟨c1, c2, c3, c4, c5⟩ := hc
  refine ⟨⟨tr, by rw [htr, h1], h2⟩, ?_, ?_⟩
  · rw [← h3]; simp only [n_counted, c1, c2, c3, c4, c5]
  · unfold counters_le at h4 ⊢
    rw [c1, c2, c3, c4, c5]; exact h4

/-- A recorded call that the lock discipline allows. -/
theorem progress_emit {st s : State} {S S1 S2 : LockState} {k : Nat} (e : Ev)
    (h : progress st s S S1 k) (hs : lock_step S1 e = some S2) :
    progress st (emit s e) S S2 k := by
  obtain ⟨⟨tr, h1, h2⟩, h3, h4⟩ := h
  refine ⟨⟨tr ++ [e], by simp [emit, h1], ?_⟩, h3, h4⟩
  rw [lock_run_append, h2]
  simp [lock_run, hs]

theorem progress_push_request {st s : State} {S S1 : LockState} {k : Nat} (K : Consts)
    (x y : List Char) (h : progress st s S S1 k) :
    progress st (push_request K s x y) S S1 k := by
  unfold push_request
  split_ifs
  · exact progress_same h rfl ⟨rfl, rfl, rfl, rfl, rfl⟩
  · exact h

/-- `_close_sock` entered with the read-lock free: it takes and releases the lock
itself and counts nothing. -/
theorem progress_close_sock {st s : State} {S : LockState} {k a : Nat} {mx : Option Nat}
    (K : Consts) (X : Ext) (sock : Int) (h : progress st s S ⟨false, a, mx, false⟩ k) :
    progress st (_close_sock K X s sock).1 S ⟨false, a, mx, false⟩ k := by
  obtain ⟨⟨tr, h1, h2⟩, h3, h4⟩ := h
  obtain ⟨_, _, _, _, _, c6, c7, c8, c9, c10, rc, _, ctr⟩ := close_sock_frame K X s sock
  refine ⟨⟨tr ++ [Ev.close_sock sock, Ev.key_lock_read, Ev.OS_DeleteSocket sock,
      Ev.key_unlock, Ev.close sock rc], by rw [ctr, h1, List.append_assoc], ?_⟩, ?_, ?_⟩
  · rw [lock_run_append, h2]
    rfl
  · rw [← h3]; simp only [n_counted, c6, c7, c8, c9, c10]
  · unfold counters_le at h4 ⊢
    rw [c6, c7, c8, c9, c10]; exact h4

theorem progress_close_message_sock {st s : State} {S : LockState} {k a : Nat}
    {mx : Option Nat} (K : Consts) (X : Ext) (m : message_t) (h : progress st s S ⟨false, a, mx, false⟩ k) :
    progress st (close_message_sock K X s m) S ⟨false, a, mx, false⟩ k := by
  unfold close_message_sock
  split_ifs
  · exact progress_close_sock K X m.sock h
  · exact h

/-- The rejecting tail entered with the read-lock free: one message counted. -/
theorem progress_reject {st s : State} {S : LockState} {k a : Nat} {mx : Option Nat}
    (K : Consts) (X : Ext) (m : message_t) (h : progress st s S ⟨false, a, mx, false⟩ k) :
    progress st (rem_inc_recv_unknown (close_message_sock K X s m)) S ⟨false, a, mx, false⟩
      (k + 1) := by
  obtain ⟨h1, h3, h4⟩ := progress_close_message_sock K X m h
  refine ⟨h1, ?_, ?_⟩
  · simp only [rem_inc_recv_unknown, n_counted] at h3 ⊢
    omega
  · obtain ⟨c1, c2, c3, c4, c5⟩ := h4
    exact ⟨Nat.le_succ_of_le c1, c2, c3, c4, c5⟩

theorem progress_conflict {st0 st : State} (K : Consts) (X : Ext) (m : message_t) (f : Frame)
    (h : progress st0 st locks_free ⟨true, 1, none, false⟩ 0) :
    (∀ s, hsm_conflict K X st m f = Resolved.done s →
      progress st0 s locks_free ⟨false, 1, none, false⟩ 1) ∧
    (∀ f2, hsm_conflict K X st m f = Resolved.cont f2 →
      progress st0 f2.st locks_free ⟨true, 1, none, false⟩ 0 ∧ f2.agentid = f.agentid ∧
      f2.st.keys = st.keys ∧ (entry_at st.keys f.agentid).isSome = true) := by
  unfold hsm_conflict
  cases he : entry_at st.keys f.agentid with
  | none => exact ⟨fun s hc => (by cases hc), fun f2 hc => (by cases hc)⟩
  | some e =>
    have hl : progress st0 (w_mutex_lock st f.agentid.toNat) locks_free
        ⟨true, 1, some f.agentid.toNat, false⟩ 0 := progress_emit _ h rfl
    have hu : progress st0 (w_mutex_unlock (w_mutex_lock st f.agentid.toNat) f.agentid.toNat)
        locks_free ⟨true, 1, none, false⟩ 0 := progress_emit _ hl (by simp [lock_step])
    by_cases hk : key_in_use e m = true
    · simp only [hk, if_true]
      refine ⟨fun s hc => ?_, fun f2 hc => (by cases hc)⟩
      simp only [Resolved.done.injEq] at hc
      rw [← hc]
      exact progress_reject K X m (progress_emit Ev.key_unlock hu rfl)
    · simp only [hk, Bool.false_eq_true, if_false]
      refine ⟨fun s hc => (by cases hc), fun f2 hc => ?_⟩
      simp only [Resolved.cont.injEq] at hc
      rw [← hc]
      exact ⟨hu, rfl, rfl, rfl⟩

theorem progress_ping (K : Consts) (X : Ext) (st : State) (m : message_t) :
    progress st (hsm_ping K X st m) locks_free locks_free 1 := by
  have key : ∀ e : Ev, lock_step locks_free e = some locks_free →
      progress st (rem_inc_recv_ping (emit st e)) locks_free locks_free 1 := by
    intro e he
    obtain ⟨p1, _, _⟩ := progress_emit e (progress_refl st locks_free) he
    refine ⟨p1, ?_, ?_⟩
    · simp only [rem_inc_recv_ping, n_counted, emit]; omega
    · exact ⟨le_refl _, Nat.le_succ _, le_refl _, List.suffix_refl _, List.suffix_refl _⟩
  unfold hsm_ping
  simp only
  split_ifs <;> exact key _ rfl

theorem progress_lookup (K : Consts) (X : Ext) (st : State) (m : message_t) :
    (∀ s, hsm_lookup K X st m = Resolved.done s →
      ∃ a, a ≤ 1 ∧ progress st s locks_free ⟨false, a, none, false⟩ 1) ∧
    (∀ f, hsm_lookup K X st m = Resolved.cont f →
      progress st f.st locks_free ⟨true, 1, none, false⟩ 0 ∧ f.st.keys = st.keys ∧
      (entry_at st.keys f.agentid).isSome = true) := by
  have h0 := progress_refl st locks_free
  unfold hsm_lookup
  cases hs : hsm_srcip K X m with
  | none =>
    refine ⟨fun s hc => ?_, fun f hc => (by cases hc)⟩
    simp only [Resolved.done.injEq] at hc
    rw [← hc]
    refine ⟨0, by omega, h0.1, ?_, ?_⟩
    · simp only [rem_inc_recv_unknown, n_counted]; omega
    · exact ⟨Nat.le_succ _, le_refl _, le_refl _, List.suffix_refl _, List.suffix_refl _⟩
  | some srcip =>
    simp only
    have hlock : ∀ ev, is_lookup ev = true → progress st (emit (key_lock_read st) ev)
        locks_free ⟨true, 1, none, false⟩ 0 := by
      intro ev hev
      refine progress_emit ev (progress_emit Ev.key_lock_read h0 rfl) ?_
      cases ev <;> simp [is_lookup] at hev <;> rfl
    split_ifs with h1 h2
    · unfold hsm_lookup_id
      simp only
      split_ifs with h3 h4
      · refine ⟨fun s hc => ?_, fun f hc => (by cases hc)⟩
        simp only [Resolved.done.injEq] at hc
        rw [← hc]
        exact ⟨0, by omega, progress_reject K X m h0⟩
      · refine ⟨fun s hc => ?_, fun f hc => (by cases hc)⟩
        simp only [Resolved.done.injEq] at hc
        rw [← hc]
        exact ⟨1, le_refl _, progress_reject K X m (progress_push_request K _ _
          (progress_emit Ev.key_unlock (hlock (Ev.OS_IsAllowedDynamicID
            (m.buffer.tail.takeWhile Char.isDigit) srcip) rfl) rfl))⟩
      · obtain ⟨c1, c2⟩ := progress_conflict K X m
          { st := emit (key_lock_read st) (Ev.OS_IsAllowedDynamicID
              (m.buffer.tail.takeWhile Char.isDigit) srcip),
            srcip := srcip,
            agentid := X.OS_IsAllowedDynamicID (emit (key_lock_read st)
              (Ev.OS_IsAllowedDynamicID (m.buffer.tail.takeWhile Char.isDigit) srcip)).keys
              (m.buffer.tail.takeWhile Char.isDigit) srcip,
            id := m.buffer.tail.takeWhile Char.isDigit,
            tmp_msg := (m.buffer.tail.dropWhile Char.isDigit).tail,
            recv_b := (m.size : Int) -
              ((m.buffer.tail.takeWhile Char.isDigit).length : Int) - 2,
            ip_found := false } (hlock (Ev.OS_IsAllowedDynamicID
              (m.buffer.tail.takeWhile Char.isDigit) srcip) rfl)
        refine ⟨fun s hc => ⟨1, le_refl _, c1 s hc⟩, fun f hc => ?_⟩
        obtain ⟨d1, d2, d3, d4⟩ := c2 f hc
        exact ⟨d1, d3, by rw [d2]; exact d4⟩
    · refine ⟨fun s hc => ?_, fun f hc => (by cases hc)⟩
      simp only [Resolved.done.injEq] at hc
      rw [← hc]
      exact ⟨0, by omega, progress_ping K X st m⟩
    · unfold hsm_lookup_ip
      simp only
      split_ifs with h3
      · refine ⟨fun s hc => ?_, fun f hc => (by cases hc)⟩
        simp only [Resolved.done.injEq] at hc
        rw [← hc]
        exact ⟨1, le_refl _, progress_reject K X m (progress_push_request K _ _
          (progress_emit Ev.key_unlock (hlock (Ev.OS_IsAllowedIP srcip) rfl) rfl))⟩
      · obtain ⟨c1, c2⟩ := progress_conflict K X m
          { st := emit (key_lock_read st) (Ev.OS_IsAllowedIP srcip), srcip := srcip,
            agentid := X.OS_IsAllowedIP (emit (key_lock_read st)
              (Ev.OS_IsAllowedIP srcip)).keys srcip,
            id := m.buffer.tail, tmp_msg := m.buffer, recv_b := (m.size : Int),
            ip_found := true } (hlock (Ev.OS_IsAllowedIP srcip) rfl)
        refine ⟨fun s hc => ⟨1, le_refl _, c1 s hc⟩, fun f hc => ?_⟩
        obtain ⟨d1, d2, d3, d4⟩ := c2 f hc
        exact ⟨d1, d3, by rw [d2]; exact d4⟩

theorem progress_decrypt {st0 : State} (K : Consts) (X : Ext) (m : message_t) (f : Frame)
    (h : progress st0 f.st locks_free ⟨true, 1, none, false⟩ 0) :
    (∀ s, hsm_decrypt K X m f = Decrypted.done s →
      progress st0 s locks_free ⟨false, 1, none, false⟩ 1) ∧
    (∀ s t n, hsm_decrypt K X m f = Decrypted.cont s t n →
      progress st0 s locks_free ⟨true, 1, none, false⟩ 0 ∧ s.keys = f.st.keys) := by
  have hu : ∀ s, progress st0 s locks_free ⟨true, 1, none, false⟩ 0 →
      progress st0 (key_unlock s) locks_free ⟨false, 1, none, false⟩ 0 :=
    fun s hs => progress_emit Ev.key_unlock hs rfl
  have hr : progress st0 (emit f.st (Ev.ReadSecMSG f.agentid.toNat)) locks_free
      ⟨true, 1, none, false⟩ 0 := progress_emit _ h rfl
  unfold hsm_decrypt
  simp only
  split_ifs
  · refine ⟨fun s hc => ?_, fun s t n hc => (by cases hc)⟩
    simp only [Decrypted.done.injEq] at hc
    rw [← hc]
    exact progress_reject K X m (hu _ h)
  · refine ⟨fun s hc => ?_, fun s t n hc => (by cases hc)⟩
    simp only [Decrypted.done.injEq] at hc
    rw [← hc]
    exact progress_reject K X m (progress_push_request K _ _ (hu _ hr))
  · refine ⟨fun s hc => ?_, fun s t n hc => (by cases hc)⟩
    simp only [Decrypted.done.injEq] at hc
    rw [← hc]
    exact progress_reject K X m (progress_push_request K _ _ (hu _ hr))
  · refine ⟨fun s hc => ?_, fun s t n hc => (by cases hc)⟩
    simp only [Decrypted.done.injEq] at hc
    rw [← hc]
    exact progress_reject K X m (hu _ hr)
  · refine ⟨fun s hc => (by cases hc), fun s t n hc => ?_⟩
    simp only [Decrypted.cont.injEq] at hc
    rw [← hc.1]
    exact ⟨hr, rfl⟩

theorem progress_control {st0 st s : State} (K : Consts) (X : Ext) (m : message_t) (a : Int)
    (t : List Char) (n : Nat) (h : progress st0 st locks_free ⟨true, 1, none, false⟩ 0)
    (hr : hsm_control K X st m a t n = some s) :
    progress st0 s locks_free ⟨false, 1, none, false⟩ 1 := by
  obtain ⟨⟨tr, h1, h2⟩, h3, h4⟩ := h
  by_cases hc : let_through K st m t = true
  · cases he : entry_at st.keys a with
    | none => simp [hsm_control, hc, he] at hr
    | some e =>
      obtain ⟨s2, hs2, _, _, hrs, htr⟩ := hsm_control_accept (X := X) (n := n) hc he
      rw [hs2] at hr
      simp only [Option.some.injEq] at hr
      subst hr
      refine ⟨⟨_, by rw [htr, h1, List.append_assoc, List.append_assoc, List.append_assoc], ?_⟩,
        ?_, ?_⟩
      · rw [lock_run_append, h2]
        split_ifs <;> simp [lock_run, lock_step]
      · rw [hrs]
        simp only [n_counted, List.length_cons] at h3 ⊢; omega
      · rw [hrs]
        obtain ⟨c1, c2, c3, c4, c5⟩ := h4
        exact ⟨c1, c2, c3, List.IsSuffix.trans c4 (List.suffix_cons _ _), c5⟩
  · simp only [hsm_control, hc, Bool.false_eq_true, if_false, Option.some.injEq] at hr
    subst hr
    obtain ⟨p1, p2, p3⟩ := progress_emit Ev.key_unlock
      (⟨⟨tr, h1, h2⟩, h3, h4⟩ : progress st0 st locks_free ⟨true, 1, none, false⟩ 0)
      (rfl : lock_step (LockState.mk true 1 none false) Ev.key_unlock =
        some (LockState.mk false 1 none false))
    refine ⟨p1, ?_, ?_⟩
    · simp only [rem_inc_recv_dequeued, key_unlock, emit, n_counted] at p2 ⊢
      omega
    · obtain ⟨c1, c2, c3, c4, c5⟩ := p3
      exact ⟨c1, c2, Nat.le_succ_of_le c3, c4, c5⟩

theorem progress_event {st0 st s : State} (K : Consts) (X : Ext) (a : Int) (t : List Char)
    (h : progress st0 st locks_free ⟨true, 1, none, false⟩ 0)
    (hr : hsm_event K X st a t = some s) :
    progress st0 s locks_free ⟨false, 1, none, false⟩
      (if 0 ≤ X.SendMSG 0 ∨ 0 ≤ X.SendMSG 1 then 1 else 0) := by
  obtain ⟨⟨tr, h1, h2⟩, h3, h4⟩ := h
  cases he : entry_at st.keys a with
  | none => simp [hsm_event, he] at hr
  | some e =>
    obtain ⟨s2, hs2, htr, hrs, _⟩ := hsm_event_spec (K := K) (X := X) (t := t) he
    rw [hs2] at hr
    simp only [Option.some.injEq] at hr
    subst hr
    refine ⟨⟨_, by rw [htr, h1, List.append_assoc, List.append_assoc], ?_⟩, ?_, ?_⟩
    · rw [lock_run_append, h2]
      split_ifs <;> simp [lock_run, lock_step]
    · rw [hrs]
      split_ifs <;> simp only [n_counted, List.length_cons] at h3 ⊢ <;> omega
    · rw [hrs]
      obtain ⟨c1, c2, c3, c4, c5⟩ := h4
      split_ifs
      · exact ⟨c1, c2, c3, c4, List.IsSuffix.trans c5 (List.suffix_cons _ _)⟩
      · exact ⟨c1, c2, c3, c4, c5⟩

/-- Every return of `HandleSecureMessage`: the calls it made respect the lock
discipline and leave no lock held, the read-lock was taken at most once by the
handler itself, and exactly one message was counted, unless the message is an event
that the bus refused twice, in which case none was. -/
theorem HandleSecureMessage_progress (K : Consts) (X : Ext) (st : State) (m : message_t)
    (st' : State) (hr : HandleSecureMessage K X st m = some st') :
    ∃ a k, a ≤ 1 ∧ progress st st' locks_free ⟨false, a, none, false⟩ k ∧
      ((¬ bus_down_event K X st m ∧ k = 1) ∨ (bus_down_event K X st m ∧ k = 0)) := by
  obtain ⟨l1, l2⟩ := progress_lookup K X st m
  unfold HandleSecureMessage at hr
  cases hl : hsm_lookup K X st m with
  | done s =>
    simp only [hl, Option.some.injEq] at hr
    subst hr
    obtain ⟨a, ha, hp⟩ := l1 _ hl
    refine ⟨a, 1, ha, hp, Or.inl ⟨?_, rfl⟩⟩
    rintro ⟨f, _, _, _, h, _⟩
    rw [hl] at h
    cases h
  | fault => simp [hl] at hr
  | cont f =>
    simp only [hl] at hr
    obtain ⟨hp, _, _⟩ := l2 f hl
    obtain ⟨d1, d2⟩ := progress_decrypt K X m f hp
    cases hd : hsm_decrypt K X m f with
    | done s =>
      simp only [hd, Option.some.injEq] at hr
      subst hr
      refine ⟨1, 1, le_refl _, d1 _ hd, Or.inl ⟨?_, rfl⟩⟩
      rintro ⟨f2, _, _, _, h, h2, _⟩
      rw [hl] at h
      simp only [Resolved.cont.injEq] at h
      subst h
      rw [hd] at h2
      cases h2
    | cont s t n =>
      simp only [hd] at hr
      obtain ⟨hp2, _⟩ := d2 s t n hd
      cases hv : X.IsValidHeader t with
      | some t2 =>
        simp only [hv] at hr
        refine ⟨1, 1, le_refl _, progress_control K X m f.agentid t2 n hp2 hr, Or.inl ⟨?_, rfl⟩⟩
        rintro ⟨f2, s2, t3, n3, h, h2, h3, _⟩
        rw [hl] at h
        simp only [Resolved.cont.injEq] at h
        subst h
        rw [hd] at h2
        simp only [Decrypted.cont.injEq] at h2
        rw [← h2.2.1, hv] at h3
        cases h3
      | none =>
        simp only [hv] at hr
        have he := progress_event K X f.agentid t hp2 hr
        by_cases hok : 0 ≤ X.SendMSG 0 ∨ 0 ≤ X.SendMSG 1
        · rw [if_pos hok] at he
          refine ⟨1, 1, le_refl _, he, Or.inl ⟨?_, rfl⟩⟩
          rintro ⟨_, _, _, _, _, _, _, h0, h1⟩
          rcases hok with h | h <;> omega
        · rw [if_neg hok] at he
          simp only [not_or, not_le] at hok
          exact ⟨1, 0, le_refl _, he, Or.inr ⟨⟨f, s, t, n, hl, hd, hv, hok.1, hok.2⟩, rfl⟩⟩

/-- `HandleSecureMessage` returns whenever the lookups answer within the entry array. -/
theorem HandleSecureMessage_returns (K : Consts) (X : Ext) (st : State) (m : message_t)
    (hv : lookups_valid X st) : ∃ st', HandleSecureMessage K X st m = some st' := by
  have hnf : hsm_lookup K X st m ≠ Resolved.fault := by
    have hcf : ∀ (s : State) (f : Frame), s.keys = st.keys →
        (entry_at st.keys f.agentid).isSome = true → hsm_conflict K X s m f ≠ Resolved.fault := by
      intro s f hk he
      obtain ⟨e, he⟩ := Option.isSome_iff_exists.mp he
      unfold hsm_conflict
      rw [hk, he]
      simp only
      split_ifs <;> simp
    unfold hsm_lookup
    split
    · simp
    · split_ifs with h1 h2
      · unfold hsm_lookup_id
        simp only
        split_ifs with h3 h4
        · simp
        · simp
        · refine hcf _ _ rfl ?_
          rcases hv.1 (m.buffer.tail.takeWhile Char.isDigit) _ with h | h
          · exact absurd h h4
          · exact h
      · simp
      · unfold hsm_lookup_ip
        simp only
        split_ifs with h3
        · simp
        · refine hcf _ _ rfl ?_
          rcases hv.2 _ with h | h
          · exact absurd h h3
          · exact h
  obtain ⟨_, l2⟩ := progress_lookup K X st m
  cases hl : hsm_lookup K X st m with
  | done s => exact ⟨s, by simp only [HandleSecureMessage, hl]⟩
  | fault => exact absurd hl hnf
  | cont f =>
    obtain ⟨hp, hk, he⟩ := l2 f hl
    obtain ⟨_, d2⟩ := progress_decrypt K X m f hp
    cases hd : hsm_decrypt K X m f with
    | done s => exact ⟨s, by simp only [HandleSecureMessage, hl, hd]⟩
    | cont s t n =>
      obtain ⟨_, hk2⟩ := d2 s t n hd
      obtain ⟨e, he⟩ := Option.isSome_iff_exists.mp he
      have he2 : entry_at s.keys f.agentid = some e := by rw [hk2, hk]; exact he
      cases hvh : X.IsValidHeader t with
      | some t2 =>
        by_cases hc : let_through K s m t2 = true
        · obtain ⟨s2, hs2, _⟩ := hsm_control_accept (X := X) (n := n) hc he2
          exact ⟨s2, by simp only [HandleSecureMessage, hl, hd, hvh, hs2]⟩
        · exact ⟨rem_inc_recv_dequeued (key_unlock s), by
            simp only [HandleSecureMessage, hl, hd, hvh, hsm_control, hc,
              Bool.false_eq_true, if_false]⟩
      | none =>
        obtain ⟨s2, hs2, _⟩ := hsm_event_spec (K := K) (X := X) (t := t) he2
        exact ⟨s2, by simp only [HandleSecureMessage, hl, hd, hvh, hs2]⟩

theorem suffix_length_eq {α : Type} {a b : List α} (h : a <:+ b) (hl : b.length = a.length) :
    b = a := by
  obtain ⟨p, hp⟩ := h
  have hlen := congrArg List.length hp
  rw [List.length_append] at hlen
  have h0 : p = [] := List.length_eq_zero.mp (by omega)
  rw [← hp, h0]; rfl

theorem suffix_length_succ {α : Type} {a b : List α} (h : a <:+ b)
    (hl : b.length = a.length + 1) : ∃ x, b = x :: a := by
  obtain ⟨p, hp⟩ := h
  have hlen := congrArg List.length hp
  rw [List.length_append] at hlen
  obtain ⟨x, hx⟩ := List.length_eq_one.mp (show p.length = 1 by omega)
  exact ⟨x, by rw [← hp, hx]; rfl⟩

/-- No counter went down and their sum is the same: all five are equal. -/
theorem counters_eq_of_sum {a b : remoted_state_t} (hle : counters_le a b)
    (hs : n_counted b = n_counted a + 0) : counters_eq a b := by
  obtain ⟨c1, c2, c3, c4, c5⟩ := hle
  have l4 := List.IsSuffix.length_le c4
  have l5 := List.IsSuffix.length_le c5
  simp only [n_counted] at hs
  exact ⟨by omega, by omega, by omega, suffix_length_eq c4 (by omega),
    suffix_length_eq c5 (by omega)⟩

/-- No counter went down and their sum is one higher: exactly one of them is. -/
theorem one_counted_of_sum {a b : remoted_state_t} (hle : counters_le a b)
    (hs : n_counted b = n_counted a + 1) : one_counted a b := by
  obtain ⟨c1, c2, c3, c4, c5⟩ := hle
  have l4 := List.IsSuffix.length_le c4
  have l5 := List.IsSuffix.length_le c5
  simp only [n_counted] at hs
  by_cases h1 : b.recv_unknown = a.recv_unknown + 1
  · exact Or.inl ⟨h1, by omega, by omega, suffix_length_eq c4 (by omega),
      suffix_length_eq c5 (by omega)⟩
  by_cases h2 : b.recv_ping = a.recv_ping + 1
  · exact Or.inr (Or.inl ⟨by omega, h2, by omega, suffix_length_eq c4 (by omega),
      suffix_length_eq c5 (by omega)⟩)
  by_cases h3 : b.recv_dequeued = a.recv_dequeued + 1
  · exact Or.inr (Or.inr (Or.inl ⟨by omega, by omega, h3, suffix_length_eq c4 (by omega),
      suffix_length_eq c5 (by omega)⟩))
  by_cases h4 : b.recv_ctrl.length = a.recv_ctrl.length + 1
  · exact Or.inr (Or.inr (Or.inr (Or.inl ⟨by omega, by omega, by omega,
      suffix_length_succ c4 h4, suffix_length_eq c5 (by omega)⟩)))
  · exact Or.inr (Or.inr (Or.inr (Or.inr ⟨by omega, by omega, by omega,
      suffix_length_eq c4 (by omega), suffix_length_succ c5 (by omega)⟩)))

/-- The lookups of `ext0` answer within the entry array of `st0`. -/
theorem ext0_lookups_valid : lookups_valid ext0 st0 := by
  refine ⟨fun id ip => ?_, fun ip => ?_⟩
  · show (if id = "002".toList then (0 : Int) else if id = "003".toList then 1 else -1) = -1 ∨
      (entry_at st0.keys
        (if id = "002".toList then (0 : Int) else if id = "003".toList then 1 else -1)).isSome
        = true
    split_ifs
    · exact Or.inr rfl
    · exact Or.inr rfl
    · exact Or.inl rfl
  · show (if ip = "10.0.0.5".toList then (0 : Int) else if ip = "10.0.0.6".toList then 1
        else -1) < 0 ∨
      (entry_at st0.keys
        (if ip = "10.0.0.5".toList then (0 : Int) else if ip = "10.0.0.6".toList then 1
          else -1)).isSome = true
    split_ifs
    · exact Or.inr rfl
    · exact Or.inr rfl
    · exact Or.inl (by decide)

/-- C11 as stated fails: when the bus refuses an event twice (both `SendMSG` return a
negative value), `HandleSecureMessage` returns with all five counters as they were. -/
theorem C11_bus_down_counts_nothing_counterexample :
    (HandleSecureMessage wazuh ext_bus_down st0 msg_event).map (fun s => s.remoted_state) =
      some st0.remoted_state ∧
    (HandleSecureMessage wazuh ext_bus_down st0 msg_event).map (fun s => s.trace) =
      some [Ev.key_lock_read, Ev.OS_IsAllowedDynamicID "002".toList "10.0.0.5".toList,
        Ev.mutex_lock 0, Ev.mutex_unlock 0, Ev.ReadSecMSG 0, Ev.key_unlock,
        Ev.SendMSG 3 "1:some event".toList "[002] (agentB) 10.0.0.5".toList '4' (-1),
        Ev.StartMQ,
        Ev.SendMSG 4 "1:some event".toList "[002] (agentB) 10.0.0.5".toList '4' (-1)] :=
  ⟨by rfl, by rfl⟩

/-- C11, amended: when the lookups answer within the entry array,
`HandleSecureMessage` returns, no counter goes down, and exactly one of
`recv_unknown`, `recv_ping`, `recv_dequeued`, `recv_ctrl`, `recv_evt` is incremented,
by one, on every path but one: when the message is an event and both `SendMSG` fail,
the five counters are left as they were. -/
theorem C11_one_counter_per_return (K : Consts) (X : Ext) (st : State) (m : message_t)
    (hv : lookups_valid X st) :
    ∃ st', HandleSecureMessage K X st m = some st' ∧
      (¬ bus_down_event K X st m → one_counted st.remoted_state st'.remoted_state) ∧
      (bus_down_event K X st m → counters_eq st.remoted_state st'.remoted_state) := by
  obtain ⟨st', hr⟩ := HandleSecureMessage_returns K X st m hv
  obtain ⟨a, k, _, ⟨_, hs, hle⟩, hk⟩ := HandleSecureMessage_progress K X st m st' hr
  refine ⟨st', hr, fun hn => ?_, fun hb => ?_⟩
  · rcases hk with ⟨_, rfl⟩ | ⟨hb, _⟩
    · exact one_counted_of_sum hle hs
    · exact absurd hb hn
  · rcases hk with ⟨hn, _⟩ | ⟨_, rfl⟩
    · exact absurd hb hn
    · exact counters_eq_of_sum hle hs

theorem C11_one_counter_per_return_witness :
    ∃ st', HandleSecureMessage wazuh ext0 st0 msg_event = some st' ∧
      (¬ bus_down_event wazuh ext0 st0 msg_event →
        one_counted st0.remoted_state st'.remoted_state) ∧
      (bus_down_event wazuh ext0 st0 msg_event →
        counters_eq st0.remoted_state st'.remoted_state) :=
  C11_one_counter_per_return wazuh ext0 st0 msg_event ext0_lookups_valid

/-- C12: when the lookups answer within the entry array, `HandleSecureMessage`
returns, and along the calls it made (`tr`) the lock discipline holds from start to
end: the read lock is acquired at most once (`a ≤ 1`) and never while held, it is
released only while held and is free at the end, each lock of an entry mutex is
followed by the unlock of the same mutex before any other mutex call, no mutex is held
at the end, and the read lock is not held when `_close_sock` is called. -/
theorem C12_lock_discipline (K : Consts) (X : Ext) (st : State) (m : message_t)
    (hv : lookups_valid X st) :
    ∃ st' tr a, HandleSecureMessage K X st m = some st' ∧ st'.trace = st.trace ++ tr ∧
      lock_run locks_free tr = some ⟨false, a, none, false⟩ ∧ a ≤ 1 := by
  obtain ⟨st', hr⟩ := HandleSecureMessage_returns K X st m hv
  obtain ⟨a, k, ha, ⟨⟨tr, h1, h2⟩, _, _⟩, _⟩ := HandleSecureMessage_progress K X st m st' hr
  exact ⟨st', tr, a, hr, h1, h2, ha⟩

theorem C12_lock_discipline_witness :
    ∃ st' tr a, HandleSecureMessage wazuh ext0 st0 msg_collision = some st' ∧
      st'.trace = st0.trace ++ tr ∧
      lock_run locks_free tr = some ⟨false, a, none, false⟩ ∧ a ≤ 1 :=
  C12_lock_discipline wazuh ext0 st0 msg_collision ext0_lookups_valid

/-! ## The rids closer -/

/-- With the clock at 2^31 + 1000 the `int` value of `now` is negative and the pass
pops nothing, although both entries were last touched long before. -/
theorem close_fp_main_loop_late_clock :
    int_cast ext_late.time = -2147482648 ∧
    (close_fp_main_loop ext_late 300 3 st_rids).map (fun s => s.keys.opened_fp_queue) =
      some [0, 1] :=
  ⟨by rfl, by rfl⟩

theorem attempts_run_append (c : Nat) (a b : List Ev) :
    attempts_run c (a ++ b) = (attempts_run c a).bind (fun c2 => attempts_run c2 b) := by
  induction a generalizing c with
  | nil => rfl
  | cons e a ih =>
    simp only [List.cons_append, attempts_run]
    cases attempts_step c e with
    | none => rfl
    | some c2 => exact ih c2

/-- What `close` leaves alone, and what it records. -/
theorem close_frame (X : Ext) (st : State) (fd : Int) :
    (∃ ret, (close X st fd).1.trace = st.trace ++ [Ev.close fd ret]) ∧
    (close X st fd).1.key_request_available = st.key_request_available ∧
    (close X st fd).1.key_request_queue = st.key_request_queue := by
  unfold close
  split_ifs
  · exact ⟨⟨-1, rfl⟩, rfl, rfl⟩
  · exact ⟨⟨0, rfl⟩, rfl, rfl⟩

theorem key_request_connect_trace (X : Ext) (t : key_request_thread_state) :
    (key_request_connect X t).1.st.trace =
      t.st.trace ++ [Ev.OS_ConnectUnixDomain (X.OS_ConnectUnixDomain t.attempts_made)] :=
  rfl

theorem key_request_connect_queue (X : Ext) (t : key_request_thread_state) :
    (key_request_connect X t).1.st.key_request_queue = t.st.key_request_queue :=
  rfl

/-- The loop `for` of `key_request_reconnect`: at most `left` connection attempts and
no long sleep; it leaves the loop early only with a socket `≥ 0` on which the send
timeout was set. -/
theorem key_request_reconnect_for_spec (X : Ext) :
    ∀ (left : Nat) (t : key_request_thread_state) (c : Nat), c + left ≤ max_attempts →
      ∃ tr k, (key_request_reconnect_for X left t).1.st.trace = t.st.trace ++ tr ∧
        attempts_run c tr = some (c + k) ∧ k ≤ left ∧
        (key_request_reconnect_for X left t).1.msg = t.msg ∧
        (key_request_reconnect_for X left t).1.socket = t.socket ∧
        (key_request_reconnect_for X left t).1.sends_made = t.sends_made ∧
        (key_request_reconnect_for X left t).1.st.key_request_queue =
          t.st.key_request_queue ∧
        ((key_request_reconnect_for X left t).2 = none →
          (key_request_reconnect_for X left t).1.attempts_made = t.attempts_made + left) ∧
        (∀ s, (key_request_reconnect_for X left t).2 = some s →
          0 ≤ s ∧ (key_request_reconnect_for X left t).1.st.key_request_available = true ∧
          ∃ tr0 ret, tr = tr0 ++ [Ev.OS_ConnectUnixDomain s, Ev.OS_SetSendTimeout s 5 ret] ∧
            0 ≤ ret)
  | 0, t, c, _ =>
    ⟨[], 0, by simp [key_request_reconnect_for], rfl, Nat.le_refl 0, rfl, rfl, rfl, rfl,
      fun _ => rfl, fun s hs => by simp [key_request_reconnect_for] at hs⟩
  | left + 1, t, c, hc => by
    have hlt : c < max_attempts := by omega
    have hc2 : (c + 1) + left ≤ max_attempts := by omega
    unfold key_request_reconnect_for
    simp only []
    by_cases h1 : (key_request_connect X t).2 < 0
    · rw [if_pos h1]
      obtain ⟨tr, k, e1, e2, e3, e4, e5, e6, e7, e8, e9⟩ :=
        key_request_reconnect_for_spec X left
          { st := sleep (key_request_connect X t).1.st 1,
            msg := (key_request_connect X t).1.msg,
            socket := (key_request_connect X t).1.socket,
            attempts_made := t.attempts_made + 1,
            sends_made := (key_request_connect X t).1.sends_made } (c + 1) hc2
      refine ⟨Ev.OS_ConnectUnixDomain (X.OS_ConnectUnixDomain t.attempts_made) ::
        Ev.sleep 1 :: tr, k + 1, ?_, ?_, by omega, e4, e5, e6, ?_, ?_, ?_⟩
      · rw [e1]; simp [sleep, emit, key_request_connect_trace]
      · simp only [attempts_run, attempts_step, if_pos hlt, KEY_RECONNECT_INTERVAL]
        simp only [show ((1 : Nat) = 300) = False from by simp, if_false]
        rw [e2]; exact congrArg some (by omega)
      · rw [e7]; simp only [sleep, emit, key_request_connect_queue]
      · intro hn; rw [e8 hn]; simp only []; omega
      · intro s hs
        obtain ⟨p1, p2, tr0, ret, p3, p4⟩ := e9 s hs
        exact ⟨p1, p2, Ev.OS_ConnectUnixDomain (X.OS_ConnectUnixDomain t.attempts_made) ::
          Ev.sleep 1 :: tr0, ret, by rw [p3]; rfl, p4⟩
    · rw [if_neg h1]
      by_cases h2 : X.OS_SetSendTimeout t.attempts_made < 0
      · rw [if_pos h2]
        obtain ⟨⟨cr, hcl⟩, hcl2, hcl3⟩ := close_frame X
          (emit (key_request_connect X t).1.st
            (Ev.OS_SetSendTimeout (key_request_connect X t).2 5
              (X.OS_SetSendTimeout t.attempts_made))) (key_request_connect X t).2
        obtain ⟨tr, k, e1, e2, e3, e4, e5, e6, e7, e8, e9⟩ :=
          key_request_reconnect_for_spec X left
            { st := (close X (emit (key_request_connect X t).1.st
                (Ev.OS_SetSendTimeout (key_request_connect X t).2 5
                  (X.OS_SetSendTimeout t.attempts_made))) (key_request_connect X t).2).1,
              msg := (key_request_connect X t).1.msg,
              socket := (key_request_connect X t).1.socket,
              attempts_made := t.attempts_made + 1,
              sends_made := (key_request_connect X t).1.sends_made } (c + 1) hc2
        refine ⟨Ev.OS_ConnectUnixDomain (X.OS_ConnectUnixDomain t.attempts_made) ::
          Ev.OS_SetSendTimeout (X.OS_ConnectUnixDomain t.attempts_made) 5
            (X.OS_SetSendTimeout t.attempts_made) ::
          Ev.close (X.OS_ConnectUnixDomain t.attempts_made) cr :: tr, k + 1,
          ?_, ?_, by omega, e4, e5, e6, ?_, ?_, ?_⟩
        · rw [e1]
          simp only []
          rw [hcl]
          simp [emit, key_request_connect_trace]; rfl
        · simp only [attempts_run, attempts_step, if_pos hlt]
          rw [e2]; exact congrArg some (by omega)
        · rw [e7]
          simp only []
          rw [hcl3]
          simp only [emit, key_request_connect_queue]
        · intro hn; rw [e8 hn]; simp only []; omega
        · intro s hs
          obtain ⟨p1, p2, tr0, ret, p3, p4⟩ := e9 s hs
          exact ⟨p1, p2, Ev.OS_ConnectUnixDomain (X.OS_ConnectUnixDomain t.attempts_made) ::
            Ev.OS_SetSendTimeout (X.OS_ConnectUnixDomain t.attempts_made) 5
              (X.OS_SetSendTimeout t.attempts_made) ::
            Ev.close (X.OS_ConnectUnixDomain t.attempts_made) cr :: tr0, ret,
            by rw [p3]; rfl, p4⟩
      · rw [if_neg h2]
        refine ⟨[Ev.OS_ConnectUnixDomain (X.OS_ConnectUnixDomain t.attempts_made),
          Ev.OS_SetSendTimeout (X.OS_ConnectUnixDomain t.attempts_made) 5
            (X.OS_SetSendTimeout t.attempts_made)], 1, ?_, ?_, by omega, rfl, rfl, rfl,
          ?_, ?_, ?_⟩
        · simp [emit, key_request_connect_trace]; rfl
        · simp only [attempts_run, attempts_step, if_pos hlt]
        · simp only [emit, key_request_connect_queue]
        · intro hn; cases hn
        · intro s hs
          simp only [Option.some.injEq] at hs
          subst hs
          exact ⟨not_lt.mp h1, rfl, [], X.OS_SetSendTimeout t.attempts_made, rfl,
            not_lt.mp h2⟩

/-- Whenever `key_request_reconnect` returns: the socket is `≥ 0`, the call before the
return is a successful `OS_SetSendTimeout(socket, 5)` right after the connection, the
flag is set, the locals of the thread and the queue are untouched, and no more than
`max_attempts` connections were attempted without a long sleep. -/
theorem key_request_reconnect_spec (X : Ext) :
    ∀ (fuel : Nat) (t : key_request_thread_state) (r : key_request_thread_state × Int),
      key_request_reconnect X fuel t = some r →
      0 ≤ r.2 ∧ r.1.st.key_request_available = true ∧ r.1.msg = t.msg ∧
      r.1.socket = t.socket ∧ r.1.sends_made = t.sends_made ∧
      r.1.st.key_request_queue = t.st.key_request_queue ∧
      ∃ tr ret c, r.1.st.trace = t.st.trace ++
          (tr ++ [Ev.OS_ConnectUnixDomain r.2, Ev.OS_SetSendTimeout r.2 5 ret]) ∧
        0 ≤ ret ∧
        attempts_run 0 (tr ++ [Ev.OS_ConnectUnixDomain r.2, Ev.OS_SetSendTimeout r.2 5 ret])
          = some c
  | 0, t, r, h => by simp [key_request_reconnect] at h
  | fuel + 1, t, r, h => by
    obtain ⟨tr, k, e1, e2, e3, e4, e5, e6, e7, e8, e9⟩ :=
      key_request_reconnect_for_spec X max_attempts t 0 (by omega)
    unfold key_request_reconnect at h
    cases hres : key_request_reconnect_for X max_attempts t with
    | mk t1 o =>
      rw [hres] at h e1 e4 e5 e6 e7 e8 e9
      simp only [] at e1 e4 e5 e6 e7 e8 e9
      cases o with
      | some s =>
        simp only [Option.some.injEq] at h
        subst h
        obtain ⟨p1, p2, tr0, ret, p3, p4⟩ := e9 s rfl
        refine ⟨p1, p2, e4, e5, e6, e7, tr0, ret, 0 + k, by rw [e1, p3], p4, ?_⟩
        rw [← p3]; exact e2
      | none =>
        simp only [] at h
        obtain ⟨q1, q2, q3, q4, q5, q6, tr2, ret, c, q7, q8, q9⟩ :=
          key_request_reconnect_spec X fuel _ r h
        simp only [sleep, emit] at q3 q4 q5 q6 q7
        refine ⟨q1, q2, q3.trans e4, q4.trans e5, q5.trans e6, q6.trans e7,
          tr ++ Ev.sleep KEY_RECONNECT_INTERVAL :: tr2, ret, c, ?_, q8, ?_⟩
        · rw [q7, e1]; simp
        · rw [List.append_assoc, attempts_run_append, e2]
          simp only [Option.bind_some, List.cons_append, attempts_run, attempts_step, if_true]
          exact q9

/-- The loop `for` leaves with a socket when one of its attempts succeeds. -/
theorem key_request_reconnect_for_returns (X : Ext) :
    ∀ (left : Nat) (t : key_request_thread_state) (n : Nat), n < left →
      0 ≤ X.OS_ConnectUnixDomain (t.attempts_made + n) →
      0 ≤ X.OS_SetSendTimeout (t.attempts_made + n) →
      ∃ s, (key_request_reconnect_for X left t).2 = some s
  | 0, _, n, hn, _, _ => by omega
  | left + 1, t, n, hn, hc, hs => by
    unfold key_request_reconnect_for
    simp only []
    by_cases h1 : (key_request_connect X t).2 < 0
    · rw [if_pos h1]
      have hn0 : n ≠ 0 := fun h0 => by
        subst h0
        have : X.OS_ConnectUnixDomain t.attempts_made < 0 := h1
        simp only [Nat.add_zero] at hc
        omega
      obtain ⟨m, rfl⟩ := Nat.exists_eq_succ_of_ne_zero hn0
      exact key_request_reconnect_for_returns X left _ m (by omega)
        (by simp only []; rw [show t.attempts_made + 1 + m = t.attempts_made + (m + 1) by omega]
            exact hc)
        (by simp only []; rw [show t.attempts_made + 1 + m = t.attempts_made + (m + 1) by omega]
            exact hs)
    · rw [if_neg h1]
      by_cases h2 : X.OS_SetSendTimeout t.attempts_made < 0
      · rw [if_pos h2]
        have hn0 : n ≠ 0 := fun h0 => by
          subst h0
          simp only [Nat.add_zero] at hs
          omega
        obtain ⟨m, rfl⟩ := Nat.exists_eq_succ_of_ne_zero hn0
        exact key_request_reconnect_for_returns X left _ m (by omega)
          (by simp only []
              rw [show t.attempts_made + 1 + m = t.attempts_made + (m + 1) by omega]
              exact hc)
          (by simp only []
              rw [show t.attempts_made + 1 + m = t.attempts_made + (m + 1) by omega]
              exact hs)
      · rw [if_neg h2]
        exact ⟨_, rfl⟩

/-- With a connection attempt that succeeds, `key_request_reconnect` returns once
the fuel covers the rounds up to that attempt. -/
theorem key_request_reconnect_returns (X : Ext) :
    ∀ (fuel : Nat) (t : key_request_thread_state) (n : Nat), n < max_attempts * fuel →
      0 ≤ X.OS_ConnectUnixDomain (t.attempts_made + n) →
      0 ≤ X.OS_SetSendTimeout (t.attempts_made + n) →
      ∃ r, key_request_reconnect X fuel t = some r
  | 0, _, n, hn, _, _ => by simp at hn
  | fuel + 1, t, n, hn, hc, hs => by
    unfold key_request_reconnect
    obtain ⟨_, _, _, _, _, _, _, _, _, e8, _⟩ :=
      key_request_reconnect_for_spec X max_attempts t 0 (by omega)
    cases hres : key_request_reconnect_for X max_attempts t with
    | mk t1 o =>
      rw [hres] at e8
      simp only [] at e8
      cases o with
      | some s => exact ⟨_, rfl⟩
      | none =>
        simp only []
        have hge : max_attempts ≤ n := by
          by_contra hlt
          obtain ⟨s, hs2⟩ := key_request_reconnect_for_returns X max_attempts t n
            (by omega) hc hs
          rw [hres] at hs2
          cases hs2
        have ha := e8 rfl
        refine key_request_reconnect_returns X fuel _ (n - max_attempts) ?_ ?_ ?_
        · have : max_attempts * (fuel + 1) = max_attempts * fuel + max_attempts := by ring
          omega
        · simp only [sleep, emit]
          rw [ha, show t.attempts_made + max_attempts + (n - max_attempts) =
            t.attempts_made + n by omega]
          exact hc
        · simp only [sleep, emit]
          rw [ha, show t.attempts_made + max_attempts + (n - max_attempts) =
            t.attempts_made + n by omega]
          exact hs

/-- The send of the pending message on a socket `≥ 0`, by the result of the send. -/
theorem key_request_thread_send_spec (K : Consts) (X : Ext) (t : key_request_thread_state)
    (m : List Char) (hs : 0 ≤ t.socket) (hb : K.OS_SOCKBUSY < 0) :
    ∃ tail, (key_request_thread_send K X t m).st.trace =
        t.st.trace ++ Ev.OS_SendUnix t.socket m (X.OS_SendUnix t.sends_made) :: tail ∧
      (key_request_thread_send K X t m).st.key_request_queue = t.st.key_request_queue ∧
      (key_request_thread_send K X t m).sends_made = t.sends_made + 1 ∧
      (0 ≤ X.OS_SendUnix t.sends_made →
        (key_request_thread_send K X t m).msg = none ∧
        (key_request_thread_send K X t m).socket = t.socket ∧
        (key_request_thread_send K X t m).st.key_request_available =
          t.st.key_request_available ∧ tail = []) ∧
      (X.OS_SendUnix t.sends_made = K.OS_SOCKBUSY →
        (key_request_thread_send K X t m).msg = t.msg ∧
        (key_request_thread_send K X t m).socket = t.socket ∧
        (key_request_thread_send K X t m).st.key_request_available =
          t.st.key_request_available ∧ tail = [Ev.sleep 1]) ∧
      (X.OS_SendUnix t.sends_made < 0 → X.OS_SendUnix t.sends_made ≠ K.OS_SOCKBUSY →
        (key_request_thread_send K X t m).msg = t.msg ∧
        (key_request_thread_send K X t m).socket = -1 ∧
        (key_request_thread_send K X t m).st.key_request_available = false ∧
        ∃ ret, tail = [Ev.close t.socket ret]) := by
  unfold key_request_thread_send
  simp only [send_key_request]
  by_cases h1 : X.OS_SendUnix t.sends_made < 0
  · rw [if_pos h1]
    by_cases h2 : X.OS_SendUnix t.sends_made = K.OS_SOCKBUSY
    · rw [if_pos h2]
      refine ⟨[Ev.sleep 1], by simp [sleep, emit], rfl, rfl, fun h => by omega,
        fun _ => ⟨rfl, rfl, rfl, rfl⟩, fun _ h => absurd h2 h⟩
    · rw [if_neg h2, if_pos hs]
      obtain ⟨⟨ret, c1⟩, c2, c3⟩ := close_frame X
        { emit t.st (Ev.OS_SendUnix t.socket m (X.OS_SendUnix t.sends_made)) with
          key_request_available := false } t.socket
      refine ⟨[Ev.close t.socket ret], ?_, ?_, rfl, fun h => by omega,
        fun h => absurd h h2, fun _ _ => ⟨rfl, rfl, ?_, ret, rfl⟩⟩
      · simp only []; rw [c1]; simp [emit]
      · simp only []; rw [c3]; rfl
      · simp only []; rw [c2]
  · rw [if_neg h1]
    refine ⟨[], by simp [emit], rfl, rfl, fun _ => ⟨rfl, rfl, rfl, rfl⟩,
      fun h => by omega, fun h => absurd h h1⟩

/-- The socket a turn of the thread sends on: the one it has, or the one
`key_request_reconnect` returns. -/
theorem key_request_thread_socket (X : Ext) (fuel : Nat)
    (t t1 : key_request_thread_state)
    (h : (if t.socket < 0 then
        (key_request_reconnect X fuel t).map (fun r => { r.1 with socket := r.2 })
      else some t) = some t1) :
    0 ≤ t1.socket ∧ t1.msg = t.msg ∧ t1.sends_made = t.sends_made ∧
      t1.st.key_request_queue = t.st.key_request_queue ∧
      (0 ≤ t.socket → t1 = t) ∧
      (t.socket < 0 → ∃ r, key_request_reconnect X fuel t = some r ∧
        t1.st = r.1.st ∧ t1.socket = r.2) := by
  by_cases h0 : t.socket < 0
  · rw [if_pos h0] at h
    cases hr : key_request_reconnect X fuel t with
    | none => rw [hr] at h; cases h
    | some r =>
      rw [hr] at h
      simp only [Option.map_some', Option.some.injEq] at h
      subst h
      obtain ⟨q1, _, q3, _, q5, q6, _⟩ := key_request_reconnect_spec X fuel t r hr
      exact ⟨q1, q3, q5, q6, fun h => by omega, fun _ => ⟨r, rfl, rfl, rfl⟩⟩
  · rw [if_neg h0] at h
    simp only [Option.some.injEq] at h
    subst h
    exact ⟨not_lt.mp h0, rfl, rfl, rfl, fun _ => rfl, fun h => absurd h h0⟩

/-- A turn of the thread that reaches its end sent one message: the pending one, or
else the one it popped. -/
theorem key_request_thread_body_done (K : Consts) (X : Ext) (fuel : Nat)
    (t t' : key_request_thread_state)
    (h : key_request_thread_body K X fuel t = Turn.done t') :
    ∃ t1 m, (if t.socket < 0 then
        (key_request_reconnect X fuel t).map (fun r => { r.1 with socket := r.2 })
      else some t) = some t1 ∧
      ((t1.msg = some m ∧ t' = key_request_thread_send K X t1 m) ∨
       (t1.msg = none ∧ ∃ q, queue_pop_ex t1.st.key_request_queue = some (q, m) ∧
          t' = key_request_thread_send K X
            { t1 with st := { t1.st with key_request_queue := q }, msg := some m } m)) := by
  unfold key_request_thread_body at h
  cases hs : (if t.socket < 0 then
        (key_request_reconnect X fuel t).map (fun r => { r.1 with socket := r.2 })
      else some t) with
  | none => rw [hs] at h; cases h
  | some t1 =>
    rw [hs] at h
    simp only [] at h
    cases hm : t1.msg with
    | some m =>
      rw [hm] at h
      simp only [Turn.done.injEq] at h
      exact ⟨t1, m, rfl, Or.inl ⟨hm, h.symm⟩⟩
    | none =>
      rw [hm] at h
      simp only [] at h
      cases hq : queue_pop_ex t1.st.key_request_queue with
      | none => rw [hq] at h; cases h
      | some p =>
        obtain ⟨q, m⟩ := p
        rw [hq] at h
        simp only [Turn.done.injEq] at h
        exact ⟨t1, m, rfl, Or.inr ⟨hm, q, hq, h.symm⟩⟩

theorem queue_pop_ex_some (q q2 : w_queue_t) (m : List Char)
    (h : queue_pop_ex q = some (q2, m)) : q.data = m :: q2.data := by
  unfold queue_pop_ex at h
  cases hd : q.data with
  | nil => rw [hd] at h; cases h
  | cons a rest =>
    rw [hd] at h
    simp only [Option.some.injEq, Prod.mk.injEq] at h
    obtain ⟨h1, h2⟩ := h
    subst h1; subst h2; rfl

/-- C14: `key_request_reconnect` returns only a socket `≥ 0`, right after a successful
`OS_SetSendTimeout(socket, 5)` on it and with the availability flag set, having made
at most 4 connection attempts since its start or its last 300-second sleep, and it
does return once an attempt succeeds. A turn of `key_request_thread` that reaches its
end reconnects exactly when `socket < 0`, sends the pending message, popping one only
when none is pending, and then: on a result `≥ 0` the message is released; on
`OS_SOCKBUSY` the message, the socket and the flag are kept and the thread sleeps one
second; on any other failure the message is kept, the flag is cleared, the socket is
closed and set to -1, and the next turn goes through `key_request_reconnect`, pops
nothing and sends the same message. -/
theorem C14_key_request_thread (K : Consts) (X : Ext) (fuel : Nat)
    (t t' : key_request_thread_state) (hb : K.OS_SOCKBUSY < 0)
    (h : key_request_thread_body K X fuel t = Turn.done t') :
    (∀ u fuel2 r, key_request_reconnect X fuel2 u = some r →
      0 ≤ r.2 ∧ r.1.st.key_request_available = true ∧
      ∃ tr ret c, r.1.st.trace = u.st.trace ++
          (tr ++ [Ev.OS_ConnectUnixDomain r.2, Ev.OS_SetSendTimeout r.2 5 ret]) ∧
        0 ≤ ret ∧
        attempts_run 0 (tr ++ [Ev.OS_ConnectUnixDomain r.2, Ev.OS_SetSendTimeout r.2 5 ret])
          = some c) ∧
    (∀ (u : key_request_thread_state) n fuel2,
      0 ≤ X.OS_ConnectUnixDomain (u.attempts_made + n) →
      0 ≤ X.OS_SetSendTimeout (u.attempts_made + n) → n < max_attempts * fuel2 →
      ∃ r, key_request_reconnect X fuel2 u = some r) ∧
    ∃ t1 m tail,
      (if t.socket < 0 then
          (key_request_reconnect X fuel t).map (fun r => { r.1 with socket := r.2 })
        else some t) = some t1 ∧
      0 ≤ t1.socket ∧
      ((t.msg = some m ∧ t'.st.key_request_queue = t.st.key_request_queue) ∨
       (t.msg = none ∧ t.st.key_request_queue.data = m :: t'.st.key_request_queue.data)) ∧
      t'.st.trace =
        t1.st.trace ++ Ev.OS_SendUnix t1.socket m (X.OS_SendUnix t.sends_made) :: tail ∧
      (0 ≤ X.OS_SendUnix t.sends_made →
        t'.msg = none ∧ t'.socket = t1.socket ∧
        t'.st.key_request_available = t1.st.key_request_available ∧ tail = []) ∧
      (X.OS_SendUnix t.sends_made = K.OS_SOCKBUSY →
        t'.msg = some m ∧ t'.socket = t1.socket ∧
        t'.st.key_request_available = t1.st.key_request_available ∧
        tail = [Ev.sleep 1]) ∧
      (X.OS_SendUnix t.sends_made < 0 → X.OS_SendUnix t.sends_made ≠ K.OS_SOCKBUSY →
        t'.msg = some m ∧ t'.socket = -1 ∧ t'.st.key_request_available = false ∧
        (∃ ret, tail = [Ev.close t1.socket ret]) ∧
        ∀ fuel2 t'', key_request_thread_body K X fuel2 t' = Turn.done t'' →
          ∃ r tail2, key_request_reconnect X fuel2 t' = some r ∧
            t''.st.key_request_queue = t'.st.key_request_queue ∧
            t''.st.trace = r.1.st.trace ++
              Ev.OS_SendUnix r.2 m (X.OS_SendUnix (t.sends_made + 1)) :: tail2) := by
  refine ⟨fun u fuel2 r hr => ?_, fun u n fuel2 hc hs hn =>
    key_request_reconnect_returns X fuel2 u n hn hc hs, ?_⟩
  · obtain ⟨q1, q2, _, _, _, _, q7⟩ := key_request_reconnect_spec X fuel2 u r hr
    exact ⟨q1, q2, q7⟩
  obtain ⟨t1, m, hsock, hmsg⟩ := key_request_thread_body_done K X fuel t t' h
  obtain ⟨s1, s2, s3, s4, _, _⟩ := key_request_thread_socket X fuel t t1 hsock
  -- the state the message is sent from
  obtain ⟨t2, ht', hm2, hsock2, hsm2, htr2, hfl2, hq2⟩ :
      ∃ t2 : key_request_thread_state, t' = key_request_thread_send K X t2 m ∧
        t2.msg = some m ∧ t2.socket = t1.socket ∧ t2.sends_made = t.sends_made ∧
        t2.st.trace = t1.st.trace ∧
        t2.st.key_request_available = t1.st.key_request_available ∧
        ((t.msg = some m ∧ t2.st.key_request_queue = t.st.key_request_queue) ∨
          (t.msg = none ∧ t.st.key_request_queue.data = m :: t2.st.key_request_queue.data)) := by
    rcases hmsg with ⟨hm, ht'⟩ | ⟨hm, q, hq, ht'⟩
    · exact ⟨t1, ht', hm, rfl, s3, rfl, rfl, Or.inl ⟨s2 ▸ hm, s4⟩⟩
    · exact ⟨_, ht', rfl, rfl, s3, rfl, rfl,
        Or.inr ⟨s2 ▸ hm, s4 ▸ queue_pop_ex_some _ _ _ hq⟩⟩
  obtain ⟨tail, p1, p2, p3, p4, p5, p6⟩ :=
    key_request_thread_send_spec K X t2 m (hsock2 ▸ s1) hb
  rw [← ht', hsm2, hsock2, htr2] at p1
  rw [← ht', hsm2, hsock2, hfl2] at p4
  rw [← ht', hsm2, hsock2, hfl2, hm2] at p5
  rw [← ht', hsm2, hsock2, hm2] at p6
  rw [← ht'] at p2 p3
  refine ⟨t1, m, tail, hsock, s1, ?_, p1, p4, p5, fun hneg hnb => ?_⟩
  · rcases hq2 with ⟨a, b⟩ | ⟨a, b⟩
    · exact Or.inl ⟨a, p2.trans b⟩
    · exact Or.inr ⟨a, by rw [p2]; exact b⟩
  · obtain ⟨r1, r2, r3, r4⟩ := p6 hneg hnb
    refine ⟨r1, r2, r3, r4, fun fuel2 t'' h2 => ?_⟩
    obtain ⟨u1, m2, husock, humsg⟩ := key_request_thread_body_done K X fuel2 t' t'' h2
    obtain ⟨v1, v2, v3, v4, _, v6⟩ := key_request_thread_socket X fuel2 t' u1 husock
    obtain ⟨r, hr, hst, hrs⟩ := v6 (by rw [r2]; decide)
    rcases humsg with ⟨hm, ht''⟩ | ⟨hm, _⟩
    · have hmm : m2 = m := by
        rw [v2, r1] at hm
        exact (Option.some.inj hm).symm
      subst hmm
      obtain ⟨tail2, w1, w2, _⟩ := key_request_thread_send_spec K X u1 m2 v1 hb
      rw [← ht''] at w1 w2
      refine ⟨r, tail2, hr, w2.trans v4, ?_⟩
      rw [w1, hst, hrs, v3, p3, hsm2]
    · rw [v2, r1] at hm
      cases hm

theorem C14_key_request_thread_witness :
    (∀ u fuel2 r, key_request_reconnect ext_req fuel2 u = some r →
      0 ≤ r.2 ∧ r.1.st.key_request_available = true ∧
      ∃ tr ret c, r.1.st.trace = u.st.trace ++
          (tr ++ [Ev.OS_ConnectUnixDomain r.2, Ev.OS_SetSendTimeout r.2 5 ret]) ∧
        0 ≤ ret ∧
        attempts_run 0 (tr ++ [Ev.OS_ConnectUnixDomain r.2, Ev.OS_SetSendTimeout r.2 5 ret])
          = some c) ∧
    (∀ (u : key_request_thread_state) n fuel2,
      0 ≤ ext_req.OS_ConnectUnixDomain (u.attempts_made + n) →
      0 ≤ ext_req.OS_SetSendTimeout (u.attempts_made + n) → n < max_attempts * fuel2 →
      ∃ r, key_request_reconnect ext_req fuel2 u = some r) ∧
    ∃ t1 m tail,
      (if req_start.socket < 0 then
          (key_request_reconnect ext_req 1 req_start).map
            (fun r => { r.1 with socket := r.2 })
        else some req_start) = some t1 ∧
      0 ≤ t1.socket ∧
      ((req_start.msg = some m ∧
          req_failed.st.key_request_queue = req_start.st.key_request_queue) ∨
       (req_start.msg = none ∧
          req_start.st.key_request_queue.data = m :: req_failed.st.key_request_queue.data)) ∧
      req_failed.st.trace =
        t1.st.trace ++
          Ev.OS_SendUnix t1.socket m (ext_req.OS_SendUnix req_start.sends_made) :: tail ∧
      (0 ≤ ext_req.OS_SendUnix req_start.sends_made →
        req_failed.msg = none ∧ req_failed.socket = t1.socket ∧
        req_failed.st.key_request_available = t1.st.key_request_available ∧ tail = []) ∧
      (ext_req.OS_SendUnix req_start.sends_made = wazuh.OS_SOCKBUSY →
        req_failed.msg = some m ∧ req_failed.socket = t1.socket ∧
        req_failed.st.key_request_available = t1.st.key_request_available ∧
        tail = [Ev.sleep 1]) ∧
      (ext_req.OS_SendUnix req_start.sends_made < 0 →
        ext_req.OS_SendUnix req_start.sends_made ≠ wazuh.OS_SOCKBUSY →
        req_failed.msg = some m ∧ req_failed.socket = -1 ∧
        req_failed.st.key_request_available = false ∧
        (∃ ret, tail = [Ev.close t1.socket ret]) ∧
        ∀ fuel2 t'', key_request_thread_body wazuh ext_req fuel2 req_failed = Turn.done t'' →
          ∃ r tail2, key_request_reconnect ext_req fuel2 req_failed = some r ∧
            t''.st.key_request_queue = req_failed.st.key_request_queue ∧
            t''.st.trace = r.1.st.trace ++
              Ev.OS_SendUnix r.2 m (ext_req.OS_SendUnix (req_start.sends_made + 1)) :: tail2) :=
  C14_key_request_thread wazuh ext_req 1 req_start req_failed (by decide) (by rfl)

end Remoted
